import Mathlib

/-!
# Iperf 2 traffic engine and connection dispatch

A shallow embedding of the parts of `src/src/Client.cpp` (transmit loops, packet
stamping, teardown) and `src/src/Listener.cpp` (accept loop, datagram soft accept,
first-message handshake) that the checked properties talk about.

Conventions of the embedding:

* C integers are `Int`/`Nat`; where the two's-complement representation matters
  (`WritePacketID`) the conversion is explicit (`toU64`, `toS64`, `% 2 ^ 32`).
* Everything the code obtains from outside (clock readings, results of `write`,
  `read`, `select`, `recvn`, `accept`, random samples, the interrupt flag) is an
  explicit input of the step functions, so the theorems hold for every behaviour of
  the environment.
* Headers of this repository that are not part of the sources at hand (`Settings.hpp`,
  `payloads.h`, `Timestamp.hpp`, `util.h`, ...) supply constants, flag bits and a few
  helpers; these are taken as parameters or modelled as documented at each definition.
-/

namespace Iperf

/-! ## Machine integers and byte order -/

/-- Two's-complement bit pattern of a signed 64-bit value (`intmax_t` converted to
`unsigned long long`). -/
def toU64 (x : Int) : Nat := (x % (2 : Int) ^ 64).toNat

/-- The signed 64-bit integer denoted by a 64-bit pattern. -/
def toS64 (u : Nat) : Int :=
  if u % 2 ^ 64 < 2 ^ 63 then ((u % 2 ^ 64 : Nat) : Int) else ((u % 2 ^ 64 : Nat) : Int) - (2 : Int) ^ 64

/-- Network byte order of a 32-bit value: `htonl` yields the four bytes, most
significant first. -/
def htonl (x : Nat) : List Nat :=
  [x / 2 ^ 24 % 256, x / 2 ^ 16 % 256, x / 2 ^ 8 % 256, x % 256]

/-- Host value of four bytes in network order (`ntohl`). -/
def ntohl (b : List Nat) : Nat :=
  b.getD 0 0 * 2 ^ 24 + b.getD 1 0 * 2 ^ 16 + b.getD 2 0 * 2 ^ 8 + b.getD 3 0

/-- Host value of two bytes in network order (`ntohs`). -/
def ntohs (b : List Nat) : Nat :=
  b.getD 0 0 * 2 ^ 8 + b.getD 1 0

/-! ## Time -/

/-- The C `struct timeval`. -/
structure timeval where
  tv_sec : Int := 0
  tv_usec : Int := 0
deriving DecidableEq, Repr

/-- Modelled from the spec: the `Timestamp` class (`Timestamp.hpp`) is not among the
sources; a timestamp is the pair seconds + microseconds that `getSecs` and `getUsecs`
return. -/
structure Timestamp where
  mSecs : Int := 0
  mUsecs : Int := 0
deriving DecidableEq, Repr

/-- Modelled from the spec: `Timestamp::before(timeval)` is not among the sources; it is
the strict earlier-than order on (seconds, microseconds) by which "time elapsed" is
decided. -/
def Timestamp.before (t : Timestamp) (tv : timeval) : Bool :=
  decide (t.mSecs < tv.tv_sec) || (decide (t.mSecs = tv.tv_sec) && decide (t.mUsecs < tv.tv_usec))

/-- The pair `now.getSecs()`, `now.getUsecs()` as stored into a `timeval`. -/
def Timestamp.toTimeval (t : Timestamp) : timeval :=
  { tv_sec := t.mSecs, tv_usec := t.mUsecs }

/-! ## Datagram header and `Client::WritePacketID` -/

/-- The `struct UDP_datagram` overlay of the payload buffer: each field holds the four
bytes that go on the wire. -/
structure UDP_datagram where
  id : List Nat := [0, 0, 0, 0]
  tv_sec : List Nat := [0, 0, 0, 0]
  tv_usec : List Nat := [0, 0, 0, 0]
  id2 : List Nat := [0, 0, 0, 0]
deriving DecidableEq, Repr

/-- Embedding of `Client::WritePacketID` (Client.cpp 1208-1229, the `HAVE_INT64_T`
branch): `id1 = packetID & 0xFFFFFFFFLL`, `id2 = (packetID & 0xFFFFFFFF00000000LL) >> 32`,
both narrowed to `uint32_t` and stored with `htonl`. -/
def WritePacketID (packetID : Int) (mBuf_UDP : UDP_datagram) : UDP_datagram :=
  let id1 : Nat := (toU64 packetID &&& 0xFFFFFFFF) % 2 ^ 32
  let id2 : Nat := ((toU64 packetID &&& 0xFFFFFFFF00000000) >>> 32) % 2 ^ 32
  { mBuf_UDP with id := htonl id1, id2 := htonl id2 }

/-- The signed packet id a receiver reconstructs from the two header words:
`id2 * 2^32 + id1` read as a signed 64-bit integer. -/
def readPacketID (h : UDP_datagram) : Int :=
  toS64 (ntohl h.id2 * 2 ^ 32 + ntohl h.id)

/-! ## Packet records and flow settings -/

/-- The write-error taxonomy of the transmit loops. -/
inductive WriteErr where
  | WriteNoErr
  | WriteErrAccount
  | WriteErrNoAccount
  | WriteErrFatal
deriving DecidableEq, Repr

/-- The fields of `struct ReportStruct` that the traffic thread fills in before handing
a record to the reporter. A zero-filled struct (`memset`) is the default value. -/
structure ReportStruct where
  packetID : Int := 0
  packetLen : Int := 0
  packetTime : timeval := {}
  sentTime : timeval := {}
  prevSentTime : timeval := {}
  prevPacketTime : timeval := {}
  errwrite : WriteErr := WriteErr.WriteNoErr
  emptyreport : Bool := false
  transit_ready : Bool := false
  frameID : Int := 0
  burstsize : Int := 0
  remaining : Int := 0
deriving DecidableEq, Repr

/-- Test mode requested by a first message (`kTest_Normal`, `kTest_DualTest`,
`kTest_TradeOff`). -/
inductive TestMode where
  | kTest_Normal
  | kTest_DualTest
  | kTest_TradeOff
deriving DecidableEq, Repr

/-- Role of a thread (`kMode_Server`, `kMode_Client`, `kMode_Listener`). -/
inductive ThreadMode where
  | kMode_Unknown
  | kMode_Server
  | kMode_Client
  | kMode_Listener
deriving DecidableEq, Repr

/-- A socket address reduced to what the listener inspects: the address family
(`SockAddr_isIPv6`), the host address bytes and the port. -/
structure iperf_sockaddr where
  isIPv6 : Bool := false
  host : List Nat := []
  port : Nat := 0
deriving DecidableEq, Repr

/-- The unit of the `-b` rate (`mAppRateUnits`): a bandwidth in bits per second
(`kRate_BW`) or a packet rate in packets per second. -/
inductive RateUnits where
  | kRate_BW
  | kRate_PPS
deriving DecidableEq, Repr

/-- The fields of `struct thread_Settings` read or written by the embedded code. The
boolean fields are the flag bits tested by the `isXxx(settings)` macros of
`Settings.hpp`; `isIntervalTime` is the test `mIntervalMode == kInterval_Time`;
`mPermitKey` is the NUL-terminated character array. The members of type `double`
(`mBurstIPG`, `mFPS`, `connecttime`) hold rational values, `mInterval` is the report
interval in microseconds, `mAmount` the byte count or the test time in units of 10 ms,
`mConnectRetries` the `int` number of additional connection attempts. -/
structure thread_Settings where
  isUDP : Bool := false
  isModeTime : Bool := true
  isFileInput : Bool := false
  isIsochronous : Bool := false
  isPeriodicBurst : Bool := false
  isTripTime : Bool := false
  isEnhanced : Bool := false
  isReverse : Bool := false
  isServerReverse : Bool := false
  isFullDuplex : Bool := false
  isMulticast : Bool := false
  isNoUDPfin : Bool := false
  isPermitKey : Bool := false
  isCompat : Bool := false
  isIPV6 : Bool := false
  isSingleClient : Bool := false
  isServerModeTime : Bool := false
  isDaemon : Bool := false
  isDataReport : Bool := true
  isConnectionReport : Bool := false
  isSumOnly : Bool := false
  isL2LengthCheck : Bool := false
  isTxStartTime : Bool := false
  isSeqNo64b : Bool := false
  isReport : Bool := true
  isFrameInterval : Bool := false
  clientListener : Bool := false
  mBufLen : Int := 0
  mAmount : Nat := 0
  mBurstSize : Int := 0
  mThreads : Int := 0
  mListenerTimeout : Int := 0
  mSock : Int := -1
  mTOS : Nat := 0
  peer_version_u : Nat := 0
  peer_version_l : Nat := 0
  mPermitKey : List Nat := []
  mKeyCheck : Bool := false
  mMode : TestMode := TestMode.kTest_Normal
  mThreadMode : ThreadMode := ThreadMode.kMode_Unknown
  skip : Int := 0
  peer : iperf_sockaddr := {}
  accept_time : timeval := {}
  txstart_epoch : timeval := {}
  isIPG : Bool := false
  isVaryLoad : Bool := false
  isIntervalTime : Bool := false
  mAppRate : Nat := 0
  mAppRateUnits : RateUnits := RateUnits.kRate_BW
  mBurstIPG : ℚ := 0
  mFPS : ℚ := 0
  mInterval : Nat := 0
  mConnectRetries : Int := 0
  connecttime : ℚ := 0
deriving DecidableEq, Repr

/-- Modelled from the spec: the macro `isModeAmount` lives in `Settings.hpp`; by the data
model a flow is in exactly one of mode-time and mode-amount, so mode-amount is the
negation of the mode-time flag. -/
def isModeAmount (s : thread_Settings) : Bool := !s.isModeTime

/-- Value of an `int` converted to `unsigned` (32 bit). -/
def toU32 (x : Int) : Nat := (x % (2 : Int) ^ 32).toNat

/-- Value of an unsigned quantity narrowed to a 32-bit `int`. -/
def toS32 (u : Nat) : Int :=
  if u % 2 ^ 32 < 2 ^ 31 then ((u % 2 ^ 32 : Nat) : Int) else ((u % 2 ^ 32 : Nat) : Int) - (2 : Int) ^ 32

/-- The "don't let it underflow" update of the remaining amount shared by all transmit
loops: `if (mAmount >= (unsigned long) len) mAmount -= len; else mAmount = 0;`. -/
def consumeAmount (s : thread_Settings) (len : Int) : thread_Settings :=
  if s.mAmount ≥ toU64 len then { s with mAmount := s.mAmount - toU64 len }
  else { s with mAmount := 0 }

/-- The stamped fields of `struct TCP_burst_payload` (host values of the 32-bit words). -/
structure TCP_burst_payload where
  seqno_lower : Nat := 0
  seqno_upper : Nat := 0
  write_tv_sec : Nat := 0
  write_tv_usec : Nat := 0
  burst_id : Nat := 0
  burst_size : Nat := 0
deriving DecidableEq, Repr

/-! ## The client object -/

/-- State of a `Client` object. Besides the members of the class, `ring` lists the
records handed to `ReportPacket` (oldest first) and `wire` lists, for every datagram
`write`, the header that was in the buffer together with the value `write` returned.
`sizeofTcpBurstPayload` stands for `sizeof(struct TCP_burst_payload)` (`payloads.h`).
The time bookkeeping kept in the report (`myReport->info.ts`), the payload bytes other
than the headers, and the socket descriptor are not part of the state. -/
structure Client where
  mSettings : thread_Settings := {}
  peerclose : Bool := false
  isburst : Bool := false
  one_report : Bool := false
  hasFramecounter : Bool := false
  udp_payload_minimum : Int := 1
  sizeofTcpBurstPayload : Int := 40
  mEndTime : Timestamp := {}
  totLen : Int := 0
  reportstruct : ReportStruct := { packetID := 1 }
  mBuf_UDP : UDP_datagram := {}
  mBuf_burst : TCP_burst_payload := {}
  ring : List ReportStruct := []
  wire : List (UDP_datagram × Int) := []
deriving Repr

/-- Embedding of `Client::InProgress` (Client.cpp 1268-1278). `sInterupted` is the value
of the process-wide flag at the time of the call and `canRead` the answer of
`Extractor_canRead` after `Extractor_getNextDataBlock` (file input only). -/
def InProgress (sInterupted canRead : Bool) (c : Client) : Bool :=
  if c.mSettings.isFileInput then canRead
  else !(sInterupted || c.peerclose
         || (c.mSettings.isModeTime && c.mEndTime.before c.reportstruct.packetTime)
         || (isModeAmount c.mSettings && decide (c.mSettings.mAmount ≤ 0)))

/-- Modelled from the spec: `ReportPacket` (the reporter interface) is not among the
sources; the core only enqueues the record into the flow's ring. `myReportPacket`
(Client.cpp 270-273) enqueues the scratch record and then clears `packetLen`. -/
def myReportPacket (c : Client) : Client :=
  { c with ring := c.ring ++ [c.reportstruct],
           reportstruct := { c.reportstruct with packetLen := 0 } }

/-- Embedding of `Client::PostNullEvent` (Client.cpp 1428-1439): the scratch record is
zero-filled, stamped with the current time, marked empty and enqueued. -/
def PostNullEvent (now : Timestamp) (c : Client) : Client :=
  myReportPacket { c with reportstruct :=
    { ({} : ReportStruct) with packetTime := now.toTimeval, emptyreport := true } }

/-- Embedding of `Client::WriteTcpTxHdr` (Client.cpp 1231-1266): the packet id advances
by the burst size and the header is stamped. -/
def WriteTcpTxHdr (burst_size burst_id : Int) (c : Client) : Client :=
  let packetID := c.reportstruct.packetID + burst_size
  { c with
    reportstruct := { c.reportstruct with packetID := packetID, frameID := burst_id,
                                          burstsize := burst_size },
    mBuf_burst :=
      { seqno_lower := (toU64 packetID &&& 0xFFFFFFFF) % 2 ^ 32,
        seqno_upper := ((toU64 packetID &&& 0xFFFFFFFF00000000) >>> 32) % 2 ^ 32,
        write_tv_sec := toU32 c.reportstruct.packetTime.tv_sec,
        write_tv_usec := toU32 c.reportstruct.packetTime.tv_usec,
        burst_id := toU32 burst_id,
        burst_size := toU32 burst_size } }

/-- How a modelled loop run ended: the loop condition became false, a `break` was
taken, a `FAIL_errno` stopped the thread, or the supplied environment inputs ran out
while the loop was still running. -/
inductive LoopExit where
  | conditionFalse
  | break_
  | threadStopped
  | outOfInput
deriving DecidableEq, Repr

/-! ## `Client::RunTCP` -/

/-- What one iteration of `RunTCP` obtains from its environment: the interrupt flag
and extractor answer seen by the `InProgress` call at the loop head and by the one
after `wait_tick`, the burst size computed from the lognormal sample (the `int` value of
`static_cast<int>(lognormal(mMean, mVariance)) / (mFPS * 8)`), the tick returned by the
frame counter, the four clock readings, the result of `write`/`writen` as a function of
the requested length, the class of `errno` after a failed write, and whether
`FAIL_errno` (a macro of `util.h`) ends the calling thread. -/
structure TcpIterEnv where
  sInterupted : Bool := false
  canRead : Bool := true
  sInteruptedTick : Bool := false
  canReadTick : Bool := true
  isochBurst : Int := 0
  wait_tick : Int := 0
  nowTick : Timestamp := {}
  nowNull : Timestamp := {}
  nowHdr : Timestamp := {}
  nowWrite : Timestamp := {}
  write : Int → Int := fun len => len
  nonfatalErr : Bool := false
  fatalErr : Bool := false
  failStops : Bool := false

/-- The local variables of `RunTCP` together with the client object. -/
structure TcpLoop where
  client : Client
  burst_remaining : Int := 0
  burst_id : Int := 1
  writelen : Int := 0

/-- The tail of a `RunTCP` iteration (Client.cpp 619-656): classify the result of the
write, account the bytes, update the remaining amount and report the record. The result
is `some exit` when the iteration leaves the loop by `break`. -/
def RunTCP_account (e : TcpIterEnv) (s : TcpLoop) : TcpLoop × Option LoopExit :=
  let c := s.client
  let rs := c.reportstruct
  if rs.packetLen ≤ 0 then
    if rs.packetLen = 0 then
      let c1 := { c with peerclose := true,
                         reportstruct := { rs with packetLen := 0, emptyreport := true } }
      let c2 := if c1.one_report then c1 else myReportPacket c1
      ({ s with client := c2 }, none)
    else if e.nonfatalErr then
      let c1 := { c with reportstruct := { rs with errwrite := WriteErr.WriteErrAccount,
                                                   packetLen := 0, emptyreport := true } }
      let c2 := if c1.one_report then c1 else myReportPacket c1
      ({ s with client := c2 }, none)
    else if e.fatalErr then
      ({ s with client := { c with reportstruct :=
          { rs with errwrite := WriteErr.WriteErrFatal } } }, some LoopExit.break_)
    else
      let c1 := { c with reportstruct := { rs with errwrite := WriteErr.WriteErrNoAccount,
                                                   packetLen := 0, emptyreport := true } }
      let c2 := if c1.one_report then c1 else myReportPacket c1
      ({ s with client := c2 }, none)
  else
    let burst_remaining := if c.isburst then s.burst_remaining - rs.packetLen else s.burst_remaining
    let transit_ready := if c.isburst then !decide (burst_remaining > 0) else rs.transit_ready
    let c1 := { c with totLen := c.totLen + rs.packetLen,
                       reportstruct := { rs with emptyreport := false,
                                                 errwrite := WriteErr.WriteNoErr,
                                                 transit_ready := transit_ready } }
    let c2 := if isModeAmount c1.mSettings then
                { c1 with mSettings := consumeAmount c1.mSettings c1.reportstruct.packetLen }
              else c1
    let c3 := if c2.one_report then c2 else myReportPacket c2
    ({ s with client := c3, burst_remaining := burst_remaining }, none)

/-- The start of a burst in `RunTCP` after the scheduling block (Client.cpp 598-607 and
the tail of the iteration): the time is stamped, the burst header is written into the
buffer, and the first write of the burst is made; `writen` must deliver the full header. -/
def RunTCP_write_burst (e : TcpIterEnv) (c : Client) (br burst_id : Int) :
    TcpLoop × Option LoopExit :=
  let c1 := { c with reportstruct := { c.reportstruct with packetTime := e.nowHdr.toTimeval } }
  let c2 := WriteTcpTxHdr br burst_id c1
  let c3 := { c2 with reportstruct :=
                { c2.reportstruct with sentTime := c2.reportstruct.packetTime } }
  let writelen := if c.mSettings.mBufLen > br then br else c.mSettings.mBufLen
  -- perform write, full header must succeed
  let c4 := { c3 with reportstruct := { c3.reportstruct with packetLen := e.write writelen } }
  let s4 : TcpLoop := { client := c4, burst_remaining := br, burst_id := burst_id + 1,
                        writelen := writelen }
  if decide (c4.reportstruct.packetLen < c.sizeofTcpBurstPayload) && e.failStops then
    (s4, some LoopExit.threadStopped)
  else RunTCP_account e s4

/-- One iteration of the `while (InProgress())` loop of `Client::RunTCP`
(Client.cpp 562-656). -/
def RunTCP_body (e : TcpIterEnv) (s : TcpLoop) : TcpLoop × Option LoopExit :=
  let c := s.client
  let st := c.mSettings
  let writelen := if isModeAmount st then
                    (if st.mAmount < toU32 st.mBufLen then toS32 st.mAmount else st.mBufLen)
                  else s.writelen
  if c.isburst && !decide (s.burst_remaining > 0) then
    let br0 := if st.isIsochronous then e.isochBurst
               else if st.isPeriodicBurst then st.mBurstSize
               else st.mBufLen
    -- check for TCP minimum payload
    let br := if br0 < c.sizeofTcpBurstPayload then c.sizeofTcpBurstPayload else br0
    -- apply scheduling if needed
    if c.hasFramecounter then
      let burst_id := e.wait_tick
      if st.isPeriodicBurst then
        -- low duty cycle traffic needs special event handling
        let cTick := { c with reportstruct :=
                         { c.reportstruct with packetTime := e.nowTick.toTimeval } }
        if !InProgress e.sInteruptedTick e.canReadTick cTick then
          -- wait may have crossed the termination boundary
          ({ s with client := { cTick with reportstruct :=
                      { cTick.reportstruct with packetLen := 0, emptyreport := true } },
                    burst_remaining := br, burst_id := burst_id, writelen := writelen },
           some LoopExit.break_)
        else
          -- post a null event to cause the report to flush the packet ring
          RunTCP_write_burst e (PostNullEvent e.nowNull cTick) br burst_id
      else RunTCP_write_burst e c br burst_id
    else RunTCP_write_burst e c br s.burst_id
  else
    let writelen := if c.isburst then
                      (if st.mBufLen > s.burst_remaining then s.burst_remaining else st.mBufLen)
                    else writelen
    let c1 := { c with reportstruct :=
                  { c.reportstruct with packetLen := e.write writelen,
                                        packetTime := e.nowWrite.toTimeval,
                                        sentTime := e.nowWrite.toTimeval } }
    RunTCP_account e { s with client := c1, writelen := writelen }

/-- The transmit loop of `Client::RunTCP`: iterations are run, one environment input
each, while `InProgress()` holds and no iteration leaves the loop. -/
def RunTCP_loop : List TcpIterEnv → TcpLoop → TcpLoop × LoopExit
  | [], s => (s, LoopExit.outOfInput)
  | e :: es, s =>
    if InProgress e.sInterupted e.canRead s.client then
      match RunTCP_body e s with
      | (s1, none) => RunTCP_loop es s1
      | (s1, some x) => (s1, x)
    else (s, LoopExit.conditionFalse)

/-- Embedding of `Client::RunTCP` up to the call of `FinishTrafficActions`
(Client.cpp 554-657): the locals are initialised, the packet time is stamped and the
loop is run. -/
def RunTCP (now : Timestamp) (envs : List TcpIterEnv) (c : Client) : TcpLoop × LoopExit :=
  RunTCP_loop envs
    { client := { c with reportstruct := { c.reportstruct with packetTime := now.toTimeval } },
      burst_remaining := 0, burst_id := 1, writelen := c.mSettings.mBufLen }

/-! ## `Client::RunUDP` and `Client::RunUDPIsochronous`

The running-delay pacer of these loops (`delay`, `adjust`, `delay_target`, all `double`)
only determines the argument of `delay_loop`, i.e. how long the thread sleeps between
two iterations; it does not influence the control flow, the packet ids, the lengths or
the remaining amount and is not part of the state below. The pacer block of `RunUDP` is
embedded on its own variables further down (`RunUDP_pacer`). -/

/-- What one datagram write iteration obtains from its environment. `fatalErr` is
`FATALUDPWRITERR(errno)` after a failed write. -/
structure UdpIterEnv where
  sInterupted : Bool := false
  canRead : Bool := true
  now : Timestamp := {}
  write : Int → Int := fun len => len
  fatalErr : Bool := false

/-- One iteration of the loop of `Client::RunUDP` (Client.cpp 969-1058). -/
def RunUDP_body (e : UdpIterEnv) (c : Client) : Client × Option LoopExit :=
  let st := c.mSettings
  let rs := { c.reportstruct with packetTime := e.now.toTimeval, sentTime := e.now.toTimeval }
  -- store datagram ID into buffer
  let buf := { WritePacketID rs.packetID c.mBuf_UDP with
                 tv_sec := htonl (toU32 rs.packetTime.tv_sec),
                 tv_usec := htonl (toU32 rs.packetTime.tv_usec) }
  let rs := { rs with errwrite := WriteErr.WriteNoErr, emptyreport := false }
  -- perform write
  let currLen := if isModeAmount st then
                   e.write (if st.mAmount < toU32 st.mBufLen then (st.mAmount : Int) else st.mBufLen)
                 else e.write st.mBufLen
  let wire := c.wire ++ [(buf, currLen)]
  if currLen < 0 then
    if e.fatalErr then
      ({ c with mBuf_UDP := buf, wire := wire,
                reportstruct := { rs with packetID := rs.packetID - 1,
                                          errwrite := WriteErr.WriteErrFatal } },
       some LoopExit.break_)
    else
      let rs := { rs with packetID := rs.packetID - 1, errwrite := WriteErr.WriteErrAccount,
                          emptyreport := true }
      let st := if isModeAmount st then consumeAmount st 0 else st
      let c1 := myReportPacket { c with mSettings := st, mBuf_UDP := buf, wire := wire,
                                        reportstruct := { rs with packetLen := 0 } }
      ({ c1 with reportstruct := { c1.reportstruct with packetID := c1.reportstruct.packetID + 1 } },
       none)
  else
    let st := if isModeAmount st then consumeAmount st currLen else st
    let c1 := myReportPacket { c with mSettings := st, mBuf_UDP := buf, wire := wire,
                                      reportstruct := { rs with packetLen := currLen } }
    ({ c1 with reportstruct := { c1.reportstruct with packetID := c1.reportstruct.packetID + 1 } },
     none)

/-- The transmit loop of `Client::RunUDP` (Client.cpp 960-1059). -/
def RunUDP_loop : List UdpIterEnv → Client → Client × LoopExit
  | [], c => (c, LoopExit.outOfInput)
  | e :: es, c =>
    if InProgress e.sInterupted e.canRead c then
      match RunUDP_body e c with
      | (c1, none) => RunUDP_loop es c1
      | (c1, some x) => (c1, x)
    else (c, LoopExit.conditionFalse)

/-- The local variables of `RunUDPIsochronous` that outlive an iteration of the inner
loop, together with the client object. -/
structure IsochLoop where
  client : Client
  bytecnt : Int := 0
  frameid : Int := 0
  fatalwrite_err : Bool := false

/-- One iteration of the inner loop of `Client::RunUDPIsochronous`
(Client.cpp 1105-1201). -/
def RunUDPIsochronous_inner_body (e : UdpIterEnv) (s : IsochLoop) : IsochLoop :=
  let c := s.client
  let st := c.mSettings
  let rs := { c.reportstruct with packetTime := e.now.toTimeval, sentTime := e.now.toTimeval }
  let buf := WritePacketID rs.packetID
               { c.mBuf_UDP with tv_sec := htonl (toU32 rs.packetTime.tv_sec),
                                 tv_usec := htonl (toU32 rs.packetTime.tv_usec) }
  let rs := { rs with errwrite := WriteErr.WriteNoErr, emptyreport := false }
  -- perform write
  let short := isModeAmount st && decide (st.mAmount < toU32 st.mBufLen)
  let rs := { rs with remaining := if short then (st.mAmount : Int) else s.bytecnt }
  let currLen := if short then e.write (st.mAmount : Int)
                 else e.write (if s.bytecnt < st.mBufLen then s.bytecnt else st.mBufLen)
  let wire := c.wire ++ [(buf, currLen)]
  if currLen < 0 then
    let rs := { rs with packetID := rs.packetID - 1, emptyreport := true,
                        errwrite := if e.fatalErr then WriteErr.WriteErrFatal
                                    else WriteErr.WriteErrAccount }
    let st := if isModeAmount st then consumeAmount st 0 else st
    let c1 := myReportPacket { c with mSettings := st, mBuf_UDP := buf, wire := wire,
                                      reportstruct := { rs with frameID := s.frameid, packetLen := 0 } }
    { s with client := { c1 with reportstruct :=
               { c1.reportstruct with packetID := c1.reportstruct.packetID + 1 } },
             fatalwrite_err := s.fatalwrite_err || e.fatalErr }
  else
    let bytecnt := s.bytecnt - currLen
    let rs := { rs with transit_ready := decide (bytecnt = 0) }
    -- adjust bytecnt so last packet of burst is greater or equal to min packet
    let adjustLast := decide (bytecnt > 0) && decide (bytecnt < c.udp_payload_minimum)
    let rs := if adjustLast then { rs with burstsize := c.udp_payload_minimum } else rs
    let bytecnt := if adjustLast then c.udp_payload_minimum else bytecnt
    let st := if isModeAmount st then consumeAmount st currLen else st
    let c1 := myReportPacket { c with mSettings := st, mBuf_UDP := buf, wire := wire,
                                      reportstruct := { rs with frameID := s.frameid,
                                                                packetLen := currLen } }
    { s with client := { c1 with reportstruct :=
               { c1.reportstruct with packetID := c1.reportstruct.packetID + 1 } },
             bytecnt := bytecnt }

/-- The inner loop `while ((bytecnt > 0) && InProgress())` of `RunUDPIsochronous`. The
second component is `true` when the supplied inputs ran out while the loop was still
running. -/
def RunUDPIsochronous_inner : List UdpIterEnv → IsochLoop → IsochLoop × Bool
  | [], s => (s, decide (s.bytecnt > 0))
  | e :: es, s =>
    if decide (s.bytecnt > 0) && InProgress e.sInterupted e.canRead s.client then
      RunUDPIsochronous_inner es (RunUDPIsochronous_inner_body e s)
    else (s, false)

/-- What one frame (one iteration of the outer loop of `RunUDPIsochronous`) obtains
from its environment: the flag and extractor answer for the outer `InProgress`, the
frame's byte count (the `int` value of
`static_cast<int>(lognormal(mMean, mVariance)) / (mFPS * 8)`), the tick returned by the
frame counter, and the inputs of the datagram writes of the frame (the last entry of
`packets` serves the loop test that ends the inner loop). -/
structure IsochFrameEnv where
  sInterupted : Bool := false
  canRead : Bool := true
  bytecnt : Int := 0
  wait_tick : Int := 0
  packets : List UdpIterEnv := []

/-- The outer loop `while (InProgress() && !fatalwrite_err)` of
`Client::RunUDPIsochronous` (Client.cpp 1086-1203). The isochronous payload fields
written into the buffer (`burstperiod`, `burstsize`, `prevframeid`, `frameid`,
`remaining`, start time) are not part of the state. -/
def RunUDPIsochronous_loop : List IsochFrameEnv → IsochLoop → IsochLoop × LoopExit
  | [], s => (s, LoopExit.outOfInput)
  | f :: fs, s =>
    if InProgress f.sInterupted f.canRead s.client && !s.fatalwrite_err then
      let bytecnt := if f.bytecnt < s.client.udp_payload_minimum then s.client.udp_payload_minimum
                     else f.bytecnt
      let c := { s.client with reportstruct := { s.client.reportstruct with burstsize := bytecnt } }
      match RunUDPIsochronous_inner f.packets
              { s with client := c, bytecnt := bytecnt, frameid := f.wait_tick } with
      | (s1, false) => RunUDPIsochronous_loop fs s1
      | (s1, true) => (s1, LoopExit.outOfInput)
    else (s, LoopExit.conditionFalse)

/-! ## Pacing: `InitTrafficLoop`, `get_delay_target` and the running delay

Values of type `double` are rational numbers. Every operation of the code that yields a
`double` (an arithmetic operation, or the conversion of a 64-bit integer) rounds its exact
result; the rounding is the function `fl`, an argument of the definitions below. With
`fl = id` the code is evaluated in exact arithmetic. -/

/-- What the proofs assume about the rounding to `double`, where they assume anything: it
is monotone, and it leaves integers of magnitude up to `2 ^ 53` unchanged (they are
representable). Both hold for the IEEE 754 rounding modes and for exact arithmetic. -/
structure DoubleRounding (fl : ℚ → ℚ) : Prop where
  mono : ∀ x y : ℚ, x ≤ y → fl x ≤ fl y
  exact_int : ∀ n : Int, |n| ≤ 2 ^ 53 → fl (n : ℚ) = (n : ℚ)

/-- The C library function `round` applied to a `double` of value `x`, as an integer: the
nearest integer, halfway cases away from zero. -/
def round (x : ℚ) : Int :=
  if 0 ≤ x then Rat.floor (x + 1 / 2) else -Rat.floor (-x + 1 / 2)

/-- The constant `kSecs_to_nsecs` (Client.cpp 72). -/
def kSecs_to_nsecs : ℚ := 1000000000

/-- The constant `kBytes_to_Bits` (Client.cpp 73). -/
def kBytes_to_Bits : Int := 8

/-- The send timeout in microseconds chosen by `InitTrafficLoop` (Client.cpp 460-471):
`round(250000.0 / mFPS)` for a periodic-burst flow, else half the report interval, else
half the test time (`mAmount`, an unsigned 64-bit count of 10 ms units), each converted
to `int`. -/
def InitTrafficLoop_sosndtimer (fl : ℚ → ℚ) (st : thread_Settings) : Int :=
  if st.isPeriodicBurst && decide (st.mFPS > 0) then round (fl (250000 / st.mFPS))
  else if st.mInterval > 0 then toS32 (st.mInterval / 2)
  else toS32 (st.mAmount * 10000 % 2 ^ 64 / 2)

/-- What `InitTrafficLoop` leaves behind: the client object, the timeout passed to
`SetSocketOptionsSendTimeout`, and the two pacing members of the client object. -/
structure TrafficInit where
  client : Client
  sosndtimer : Int
  delay_lower_bounds : ℚ
  lastPacketTime : Timestamp

/-- Embedding of `Client::InitTrafficLoop` (Client.cpp 455-503). `endTime` is the deadline
`now + mAmount / 100.0` seconds computed by `Timestamp::add` and `startTime` the start
time kept in the report (neither is among the sources). The reports posted to the
reporter and `matchframeID` are not part of the state. -/
def InitTrafficLoop (fl : ℚ → ℚ) (endTime : Timestamp) (startTime : timeval) (c : Client) :
    TrafficInit :=
  let st := c.mSettings
  let sosndtimer := InitTrafficLoop_sosndtimer fl st
  -- set the lower bounds delay based of the socket timeout timer
  let delay_lower_bounds := fl ((sosndtimer : ℚ) * (-1000))
  let one_report := !st.isUDP && !st.isEnhanced && !st.isIntervalTime && !st.isIsochronous
                      && !st.isPeriodicBurst && !st.isTripTime && !st.isReverse
  { client := { c with totLen := 0,
                       mEndTime := if st.isModeTime then endTime else c.mEndTime,
                       reportstruct := { c.reportstruct with errwrite := WriteErr.WriteNoErr,
                                                             emptyreport := false,
                                                             packetLen := 0 },
                       one_report := one_report },
    sosndtimer := sosndtimer,
    delay_lower_bounds := delay_lower_bounds,
    lastPacketTime := { mSecs := startTime.tv_sec, mUsecs := startTime.tv_usec } }

/-- Embedding of `Client::get_delay_target` (Client.cpp 927-942), in nanoseconds. -/
def get_delay_target (fl : ℚ → ℚ) (st : thread_Settings) : ℚ :=
  if st.isIPG then
    -- convert from milliseconds to nanoseconds
    fl (st.mBurstIPG * 1000000)
  else if st.mAppRateUnits = RateUnits.kRate_BW then
    -- compute delay for bandwidth restriction
    fl ((st.mBufLen : ℚ) * fl (fl (kSecs_to_nsecs * (kBytes_to_Bits : ℚ)) / fl (st.mAppRate : ℚ)))
  else fl (1000000000 / fl (st.mAppRate : ℚ))

/-- The variables of the running-delay pacer of `RunUDP`: the members
`delay_lower_bounds` and `lastPacketTime` of the client object and the locals
`delay_target`, `delay`, `adjust` and `currLen`. `currLen` holds the result of the write
of the previous iteration (0 after a failed write, 1 before the first iteration). -/
structure Pacer where
  delay_lower_bounds : ℚ := 0
  lastPacketTime : Timestamp := {}
  delay_target : ℚ := 0
  delay : ℚ := 0
  adjust : ℚ := 0
  currLen : Int := 1
deriving DecidableEq, Repr

/-- The pacing variables at the start of `RunUDP` (Client.cpp 948-953). -/
def RunUDP_pacer_init (fl : ℚ → ℚ) (i : TrafficInit) : Pacer :=
  { delay_lower_bounds := i.delay_lower_bounds, lastPacketTime := i.lastPacketTime,
    delay_target := get_delay_target fl i.client.mSettings,
    delay := 0, adjust := 0, currLen := 1 }

/-- The period after which a varying load is recomputed, in seconds (`VARYLOAD_PERIOD`,
Client.cpp 75), as a `double`. -/
def VARYLOAD_PERIOD (fl : ℚ → ℚ) : ℚ := fl (1 / 10)

/-- Modelled from the spec: `Timestamp::subSec` (`Timestamp.hpp`) is not among the
sources; it is the difference "this timestamp minus the argument" in seconds, a
`double`. -/
def Timestamp.subSec (fl : ℚ → ℚ) (t r : Timestamp) : ℚ :=
  fl (((t.mSecs - r.mSecs : Int) : ℚ) + ((t.mUsecs - r.mUsecs : Int) : ℚ) / 1000000)

/-- What one iteration of `RunRateLimitedTCP` obtains from its environment: the interrupt
flag and extractor answer seen by `InProgress`, the clock reading `time2` at the loop
head, the `long` value of the lognormal sample (varying load), the clock reading for the
burst header, the result of `writen` for the burst header, the result of `write` as a
function of the requested length, the class of `errno` after a failed write, and the
clock reading after the write. -/
structure RateIterEnv where
  sInterupted : Bool := false
  canRead : Bool := true
  time2 : Timestamp := {}
  lognormal : Int := 0
  nowHdr : Timestamp := {}
  writen : Int := 40
  write : Int → Int := fun len => len
  nonfatalErr : Bool := false
  fatalErr : Bool := false
  time2w : Timestamp := {}

/-- The local variables of `RunRateLimitedTCP` (with the function-static `time3`)
together with the client object. -/
structure RateLoop where
  client : Client
  tokens : ℚ := 0
  time1 : Timestamp := {}
  time3 : Timestamp := {}
  burst_size : Int := 0
  burst_remaining : Int := 0
  burst_id : Int := 1
  var_rate : Int := 0
  fatalwrite_err : Bool := false

/-- The head of an iteration of `RunRateLimitedTCP` (Client.cpp 765-776): the rate is
resampled when the load varies, and tokens are added per the loop time. -/
def RunRateLimitedTCP_refill (fl : ℚ → ℚ) (e : RateIterEnv) (s : RateLoop) : RateLoop :=
  let resample := s.client.mSettings.isVaryLoad
                    && decide (e.time2.subSec fl s.time3 ≥ VARYLOAD_PERIOD fl)
  let var_rate := if resample then (if e.lognormal < 0 then 0 else e.lognormal) else s.var_rate
  let time3 := if resample then e.time2 else s.time3
  -- Add tokens per the loop time
  let tokens := fl (s.tokens + fl (e.time2.subSec fl s.time1 * fl (fl (var_rate : ℚ) / 8)))
  { s with var_rate := var_rate, time3 := time3, tokens := tokens, time1 := e.time2 }

/-- The tail of an iteration of `RunRateLimitedTCP` that did not `break` (Client.cpp
822-840): `len` is the accounted result of the write (0 after a failed write) and `n` the
result of the header write. -/
def RunRateLimitedTCP_report (e : RateIterEnv) (s : RateLoop) (len n : Int) : RateLoop :=
  let c := s.client
  let burst_remaining := if c.mSettings.isTripTime then s.burst_remaining - len
                         else s.burst_remaining
  let c := { c with reportstruct := { c.reportstruct with packetLen := len + n,
                                                          packetTime := e.time2w.toTimeval,
                                                          sentTime := e.time2w.toTimeval } }
  let c := if isModeAmount c.mSettings then
             { c with mSettings := consumeAmount c.mSettings c.reportstruct.packetLen }
           else c
  let c := if c.one_report then c else myReportPacket c
  { s with client := c, burst_remaining := burst_remaining }

/-- The start of a burst of a trip-time flow in `RunRateLimitedTCP` (Client.cpp 787-797):
the time is stamped, the burst header is written into the buffer and sent with `writen`,
whose result `n` is taken off the burst and off the length of the write that follows. -/
def RunRateLimitedTCP_header (e : RateIterEnv) (s : RateLoop) : RateLoop :=
  let c := s.client
  let c := { c with reportstruct := { c.reportstruct with packetTime := e.nowHdr.toTimeval } }
  let c := WriteTcpTxHdr s.burst_size s.burst_id c
  let c := { c with reportstruct := { c.reportstruct with sentTime := c.reportstruct.packetTime } }
  -- perform write
  let n := e.writen
  { s with client := { c with reportstruct :=
                         { c.reportstruct with packetLen := c.reportstruct.packetLen - n } },
           burst_id := s.burst_id + 1, burst_remaining := s.burst_size - n }

/-- The preparation of the write in an iteration of `RunRateLimitedTCP` (Client.cpp
778-802): the length of the write is chosen, and for a trip-time flow the burst header
is sent at the start of a burst, or the length is limited to the rest of the burst. The
second component is `n`, the result of the header write (0 when none was made). -/
def RunRateLimitedTCP_prepare (e : RateIterEnv) (s : RateLoop) : RateLoop × Int :=
  let st := s.client.mSettings
  let packetLen : Int :=
    if isModeAmount st then
      (if st.mAmount < toU32 st.mBufLen then toS32 st.mAmount else st.mBufLen)
    else st.mBufLen
  let s0 := { s with client := { s.client with reportstruct :=
                                   { s.client.reportstruct with packetLen := packetLen } } }
  if st.isTripTime then
    if s.burst_remaining = 0 then (RunRateLimitedTCP_header e s0, e.writen)
    else if packetLen > s.burst_remaining then
      ({ s0 with client := { s0.client with reportstruct :=
                               { s0.client.reportstruct with packetLen := s.burst_remaining } } },
       0)
    else (s0, 0)
  else (s0, 0)

/-- The write of an iteration of `RunRateLimitedTCP` and its accounting (Client.cpp
803-840); `n` is the result of the header write. The result is `some exit` when the
iteration leaves the loop by `break`. -/
def RunRateLimitedTCP_send (fl : ℚ → ℚ) (e : RateIterEnv) (s : RateLoop) (n : Int) :
    RateLoop × Option LoopExit :=
  let len := e.write s.client.reportstruct.packetLen
  if len < 0 then
    if e.nonfatalErr then
      (RunRateLimitedTCP_report e
        { s with client := { s.client with reportstruct :=
                   { s.client.reportstruct with errwrite := WriteErr.WriteErrAccount } } } 0 n,
       none)
    else if e.fatalErr then
      ({ s with client := { s.client with reportstruct :=
                  { s.client.reportstruct with errwrite := WriteErr.WriteErrFatal } },
                fatalwrite_err := true },
       some LoopExit.break_)
    else
      (RunRateLimitedTCP_report e
        { s with client := { s.client with reportstruct :=
                   { s.client.reportstruct with errwrite := WriteErr.WriteErrNoAccount } } } 0 n,
       none)
  else
    -- Consume tokens per the transmit
    (RunRateLimitedTCP_report e
      { s with client := { s.client with totLen := s.client.totLen + (len + n),
                                         reportstruct := { s.client.reportstruct with
                                                             errwrite := WriteErr.WriteNoErr } },
               tokens := fl (s.tokens - ((len + n : Int) : ℚ)) } len n,
     none)

/-- One iteration of the loop of `Client::RunRateLimitedTCP` (Client.cpp 764-845): tokens
are added, and a write is made only when the token count is not negative; otherwise the
thread sleeps 4 µs (`delay_loop(4)`). -/
def RunRateLimitedTCP_body (fl : ℚ → ℚ) (e : RateIterEnv) (s : RateLoop) :
    RateLoop × Option LoopExit :=
  let s1 := RunRateLimitedTCP_refill fl e s
  if s1.tokens ≥ 0 then
    RunRateLimitedTCP_send fl e (RunRateLimitedTCP_prepare e s1).1 (RunRateLimitedTCP_prepare e s1).2
  else
    -- Use a 4 usec delay to fill tokens
    (s1, none)

/-- The loop `while (InProgress() && !fatalwrite_err)` of `Client::RunRateLimitedTCP`. -/
def RunRateLimitedTCP_loop (fl : ℚ → ℚ) : List RateIterEnv → RateLoop → RateLoop × LoopExit
  | [], s => (s, LoopExit.outOfInput)
  | e :: es, s =>
    if InProgress e.sInterupted e.canRead s.client && !s.fatalwrite_err then
      match RunRateLimitedTCP_body fl e s with
      | (s1, none) => RunRateLimitedTCP_loop fl es s1
      | (s1, some x) => (s1, x)
    else (s, LoopExit.conditionFalse)

/-- Embedding of `Client::RunRateLimitedTCP` up to the call of `FinishTrafficActions`
(Client.cpp 750-845). `time1` is the value the constructor of `Timestamp` gave the local
`time1`, `time3` the value of the function-static `time3` (`Timestamp.hpp` is not among
the sources), `now` the clock reading at entry. -/
def RunRateLimitedTCP (fl : ℚ → ℚ) (time1 time3 now : Timestamp) (envs : List RateIterEnv)
    (c : Client) : RateLoop × LoopExit :=
  RunRateLimitedTCP_loop fl envs
    { client := { c with reportstruct := { c.reportstruct with packetTime := now.toTimeval } },
      tokens := 0, time1 := time1, time3 := time3,
      burst_size := c.mSettings.mBufLen, burst_remaining := 0, burst_id := 1,
      var_rate := toS64 c.mSettings.mAppRate, fatalwrite_err := false }

/-! ## Teardown: `FinishTrafficActions`, `AwaitServerCloseEvent`, `AwaitServerFinPacket` -/

/-- The value `INVALID_SOCKET` of `headers.h` (not among the sources): the POSIX
"no descriptor" value. -/
def INVALID_SOCKET : Int := -1

/-- The value `SOCKET_ERROR` of `headers.h` (not among the sources): the POSIX error
return of the socket calls. -/
def SOCKET_ERROR : Int := -1

/-- The retry timer of the FIN handshake in microseconds (Client.cpp 1369). -/
def RETRYTIMER : Nat := 10000

/-- The retry count of the FIN handshake (Client.cpp 1370). -/
def RETRYCOUNT : Nat := 2 * 1000000 / RETRYTIMER

/-- The floor of the await-close receive timeout (Client.cpp 1445). -/
def MINAWAITCLOSEUSECS : Nat := 2000000

/-- What one iteration of the loop of `AwaitServerFinPacket` obtains from the socket:
the result of `select`, the result of the retransmitting `write` (used when `select`
timed out), the result of `read` and the header overlay of the buffer after it (used
when the socket was readable), whether the data read carries the type `CLIENTHDRACK`,
and whether `FAIL_errno` ends the thread. -/
structure FinEvent where
  selectRc : Int := 0
  writeRc : Int := 0
  readRc : Int := 0
  readBuf : UDP_datagram := {}
  readIsAck : Bool := false
  failStops : Bool := false

/-- Result of the teardown: the client object, whether the server's final report was
received, how many `select` calls the FIN handshake made, and whether a `FAIL_errno`
ended the thread. -/
structure FinState where
  client : Client
  ack_success : Bool := false
  selects : Nat := 0
  stopped : Bool := false

/-- The loop `while (--count >= 0)` of `Client::AwaitServerFinPacket`
(Client.cpp 1377-1422); the first argument is the number of iterations still allowed,
the second the number already made. `sizeofAck` is `sizeof(client_hdr_ack)`. -/
def AwaitServerFinPacket_loop (sizeofAck : Int) (ev : Nat → FinEvent) :
    Nat → Nat → Client → FinState
  | 0, i, c => { client := c, ack_success := false, selects := i }
  | n + 1, i, c =>
    let e := ev i
    if decide (e.selectRc = SOCKET_ERROR) && e.failStops then
      { client := c, selects := i + 1, stopped := true }
    else if e.selectRc = 0 then
      -- try to trigger another FIN by resending a negative seq no
      let packetID := c.reportstruct.packetID + 1
      let buf := WritePacketID (-packetID) c.mBuf_UDP
      AwaitServerFinPacket_loop sizeofAck ev n (i + 1)
        { c with reportstruct := { c.reportstruct with packetID := packetID },
                 mBuf_UDP := buf, wire := c.wire ++ [(buf, e.writeRc)] }
    else
      let c1 := { c with mBuf_UDP := e.readBuf }
      if decide (e.readRc = sizeofAck) && e.readIsAck then
        -- dump any 2.0.13 client acks sent at the start of traffic
        AwaitServerFinPacket_loop sizeofAck ev n (i + 1) c1
      else if e.readRc > 0 then
        { client := c1, ack_success := true, selects := i + 1 }
      else AwaitServerFinPacket_loop sizeofAck ev n (i + 1) c1

/-- Embedding of `Client::AwaitServerFinPacket` (Client.cpp 1371-1425). -/
def AwaitServerFinPacket (sizeofAck : Int) (ev : Nat → FinEvent) (c : Client) : FinState :=
  AwaitServerFinPacket_loop sizeofAck ev RETRYCOUNT 0 c

/-- Embedding of the receive timeout computed by `Client::AwaitServerCloseEvent`
(Client.cpp 1449-1452): `mAmount * 10000` narrowed to `int` and stored in an
`unsigned int`, raised to `MINAWAITCLOSEUSECS`. -/
def AwaitServerCloseEvent_timeout (st : thread_Settings) : Nat :=
  let amount_usec : Nat := if st.isModeTime then toU32 (toS32 (st.mAmount * 10000))
                           else MINAWAITCLOSEUSECS
  if amount_usec < MINAWAITCLOSEUSECS then MINAWAITCLOSEUSECS else amount_usec

/-- Embedding of `Client::AwaitServerCloseEvent` (Client.cpp 1446-1462) as far as the
client object is concerned: a null event is posted ahead of the wait. -/
def AwaitServerCloseEvent (nowNull : Timestamp) (c : Client) : Client :=
  PostNullEvent nowNull c

/-- What `FinishTrafficActions` obtains from its environment: the clock reading, for a
stream flow whether the socket is connected, the result of `shutdown` and the time of
the null event, for a datagram flow the result of the final `write`, the size of the
header ack and the socket behaviour during the FIN handshake. -/
structure FinishEnv where
  now : Timestamp := {}
  socketConnected : Bool := true
  shutdownRc : Int := 0
  nowNull : Timestamp := {}
  writeRc : Int := 0
  sizeofAck : Int := 20
  fin : Nat → FinEvent := fun _ => {}

/-- The datagram branch of `Client::FinishTrafficActions` up to the call of `EndJob`
(Client.cpp 1320-1341): the time is stamped, the terminating datagram with the negated
packet id is written and, when the write succeeded, reported. -/
def send_final_datagram (e : FinishEnv) (c : Client) : Client :=
  let rs := { c.reportstruct with packetTime := e.now.toTimeval, sentTime := e.now.toTimeval }
  -- send a final terminating datagram
  let buf := { WritePacketID (-rs.packetID) c.mBuf_UDP with
                 tv_sec := htonl (toU32 rs.packetTime.tv_sec),
                 tv_usec := htonl (toU32 rs.packetTime.tv_usec) }
  let c1 := { c with reportstruct := rs, mBuf_UDP := buf, wire := c.wire ++ [(buf, e.writeRc)] }
  let c2 := if e.writeRc > 0 then
              myReportPacket { c1 with reportstruct := { c1.reportstruct with packetLen := e.writeRc } }
            else c1
  { c2 with reportstruct := { c2.reportstruct with packetLen := 0 } }

/-- Embedding of `Client::FinishTrafficActions` (Client.cpp 1292-1362). `EndJob`,
`Iperf_remove_host` and `FreeReport` belong to the reporter and the flow table; they
receive the scratch record read-only and leave the client object as it is. -/
def FinishTrafficActions (e : FinishEnv) (c : Client) : FinState :=
  if !c.mSettings.isUDP then
    let c1 := if e.socketConnected && decide (e.shutdownRc = 0) && !c.mSettings.isFullDuplex then
                AwaitServerCloseEvent e.nowNull c
              else c
    let rs := { c1.reportstruct with packetTime := e.now.toTimeval }
    let rs := if c1.one_report then { rs with packetLen := c1.totLen } else rs
    { client := { c1 with reportstruct := rs } }
  else
    let c3 := send_final_datagram e c
    if !c3.mSettings.isMulticast && !c3.mSettings.isNoUDPfin then
      AwaitServerFinPacket e.sizeofAck e.fin c3
    else { client := c3 }

/-- The packet ids, as a receiver reads them from the header words, of the datagrams
written after the first `n0` entries of the wire trace. -/
def sentIds (n0 : Nat) (c : Client) : List Int :=
  (c.wire.drop n0).map (fun d => readPacketID d.1)

/-- The total of the byte counts returned by the datagram writes of a wire trace
(failed writes count 0). -/
def wireBytes (w : List (UDP_datagram × Int)) : Int :=
  (w.map (fun d => max d.2 0)).sum

/-! ## C strings

Character arrays are lists of byte values; reading past the end of a modelled array
yields the NUL byte. -/

/-- The C `strlen`: number of bytes before the first NUL. -/
def strlen : List Nat → Nat
  | [] => 0
  | c :: cs => if c = 0 then 0 else strlen cs + 1

/-- The C `strncpy`: the `n` bytes written to the destination, i.e. the source up to its
first NUL, padded with NUL bytes. -/
def strncpy : List Nat → Nat → List Nat
  | _, 0 => []
  | [], n + 1 => 0 :: strncpy [] n
  | c :: cs, n + 1 => if c = 0 then 0 :: strncpy [] n else c :: strncpy cs n

/-- The C `strncmp`: difference of the first differing bytes among the first `n`, where
the comparison also stops after a common NUL; `0` when there is no difference. -/
def strncmp : List Nat → List Nat → Nat → Int
  | _, _, 0 => 0
  | a, b, n + 1 =>
    if a.headD 0 ≠ b.headD 0 then (a.headD 0 : Int) - (b.headD 0 : Int)
    else if a.headD 0 = 0 then 0
    else strncmp a.tail b.tail n

/-! ## The listener: constants of the wire format and the receive buffer -/

/-- The constants of `payloads.h` and `Settings.hpp` (not among the sources) used by the
handshake: the flag bits of the 32-bit `flags` word and of the 16-bit `upperflags` word,
the bounds of the permit key length, the tolerances of the start-time checks, and the
function `Settings_ClientHdrPeekLen` (`Settings.cpp`) that computes the length of the
client header from the flags. All theorems hold for every value of these. -/
structure WireConsts where
  HEADER_VERSION1 : Nat
  HEADER_EXTEND : Nat
  HEADER_UDPTESTS : Nat
  HEADER_KEYCHECK : Nat
  HEADER_SEQNO64B : Nat
  HEADER_VERSION2 : Nat
  HEADER_V2PEERDETECT : Nat
  RUN_NOW : Nat
  HEADER32_SMALL_TRIPTIMES : Nat
  HEADER_ISOCH : Nat
  HEADER_L2ETHPIPV6 : Nat
  HEADER_L2LENCHECK : Nat
  HEADER_NOUDPFIN : Nat
  HEADER_EPOCH_START : Nat
  HEADER_TRIPTIME : Nat
  HEADER_FULLDUPLEX : Nat
  HEADER_REVERSE : Nat
  HEADER_PERIODICBURST : Nat
  MIN_PERMITKEY_LEN : Int
  MAX_PERMITKEY_LEN : Int
  MAXDIFFTXSTART : Int
  MAXDIFFTIMESTAMPSECS : Int
  Settings_ClientHdrPeekLen : Nat → Int

/-- The C test `flags & BIT` used as a condition. -/
def hasFlag (flags bit : Nat) : Bool := (flags &&& bit) != 0

/-- The listener's message buffer `mBuf` as the handshake reads it: the raw bytes (used
for the permit key, which is addressed by offset) and the host values of the header
fields of the `client_tcp_testhdr` / `client_udp_testhdr` overlay (the layout of these
structs is in `payloads.h`). -/
structure ListenerBuf where
  bytes : List Nat := []
  flags : Nat := 0
  upperflags : Nat := 0
  tos : Nat := 0
  version_u : Nat := 0
  version_l : Nat := 0
  start_tv_sec : Nat := 0
  start_tv_usec : Nat := 0
  seqno_id : Nat := 0
  seqno_tv_sec : Nat := 0
  seqno_tv_usec : Nat := 0
deriving DecidableEq, Repr

/-- Result of one `recvn(sock, mBuf, len, PEEK_FLAGS)` call: the returned count and the
content of `mBuf` after the call. -/
structure RecvResult where
  n : Int := 0
  buf : ListenerBuf := {}

/-- The 16-bit length field of the `struct permitKey` overlay that ends at offset
`keyoffset`: `ntohs(thiskey->length)` with
`thiskey = mBuf + (keyoffset - sizeof(thiskey->length))`. -/
def permitKey_length (mBuf : ListenerBuf) (keyoffset : Int) : Int :=
  (ntohs (mBuf.bytes.drop (keyoffset - 2).toNat) : Nat)

/-- The bytes of `thiskey->value`, which start at offset `keyoffset`. -/
def permitKey_value (mBuf : ListenerBuf) (keyoffset : Int) : List Nat :=
  mBuf.bytes.drop keyoffset.toNat

/-- Result of `test_permit_key`: the returned value, the server settings and the
buffer afterwards. -/
structure KeyResult where
  rc : Bool
  server : thread_Settings
  mBuf : ListenerBuf

/-- Embedding of `Listener::test_permit_key` (Listener.cpp 952-982). `mSettings` are the
listener's settings, `recvKey` is the result of the `recvn` call made for a stream flow,
`failStops` tells whether `FAIL_errno` (a macro of `util.h`) ends the calling thread, in
which case the function does not return (`none`). -/
def test_permit_key (K : WireConsts) (mSettings : thread_Settings) (mBuf : ListenerBuf)
    (recvKey : RecvResult) (failStops : Bool)
    (flags : Nat) (server : thread_Settings) (keyoffset : Int) : Option KeyResult :=
  if !hasFlag flags K.HEADER_KEYCHECK then
    some { rc := false, server := { server with mKeyCheck := false }, mBuf := mBuf }
  else
    let keylen : Int := permitKey_length mBuf keyoffset
    if keylen < K.MIN_PERMITKEY_LEN ∨ keylen > K.MAX_PERMITKEY_LEN then
      some { rc := false, server := { server with mKeyCheck := false }, mBuf := mBuf }
    else if keylen ≠ (strlen server.mPermitKey : Int) then
      some { rc := false, server := { server with mKeyCheck := false }, mBuf := mBuf }
    else if !server.isUDP && decide (recvKey.n < keyoffset + keylen) && failStops then
      none
    else
      let mBuf1 := if !server.isUDP then recvKey.buf else mBuf
      let server1 := if !server.isUDP then { server with skip := recvKey.n } else server
      let copied := strncpy (permitKey_value mBuf1 keyoffset) (K.MAX_PERMITKEY_LEN + 1).toNat
      let server2 := { server1 with mPermitKey := copied }
      if strncmp server2.mPermitKey mSettings.mPermitKey keylen.toNat ≠ 0 then
        some { rc := false, server := { server2 with mKeyCheck := false }, mBuf := mBuf1 }
      else
        some { rc := true, server := { server2 with mKeyCheck := true }, mBuf := mBuf1 }

/-! ## The first-message handshake -/

/-- What the handshake obtains from its environment: the results of the three `recvn`
peeks of a stream flow (the 32-bit flags, the client header, the permit key), the clock
readings of the two start-time checks, and whether `FAIL_errno` ends the thread. -/
structure HandshakeEnv where
  recvFlags : RecvResult := {}
  recvHdr : RecvResult := {}
  recvKey : RecvResult := {}
  nowEpoch : Timestamp := {}
  nowTrip : Timestamp := {}
  failStops : Bool := false

/-- Result of the handshake: the returned value, the server settings and the buffer
afterwards, and whether `client_test_ack` was called. -/
structure HandshakeResult where
  rc : Bool
  server : thread_Settings
  mBuf : ListenerBuf
  ackSent : Bool := false

/-- The block handling `HEADER_EPOCH_START`, identical in the stream and the datagram
handshake (Listener.cpp 1035-1045 and 1123-1133). -/
def apply_epoch_start (K : WireConsts) (now : Timestamp) (hdr : ListenerBuf)
    (server : thread_Settings) : thread_Settings :=
  let server := { server with txstart_epoch := { tv_sec := hdr.start_tv_sec,
                                                 tv_usec := hdr.start_tv_usec } }
  if |now.mSecs - server.txstart_epoch.tv_sec| > K.MAXDIFFTXSTART + 1 then
    { server with isTxStartTime := false }
  else { server with isTxStartTime := true }

/-- The test and the two setters of the `HEADER_TRIPTIME` block (Listener.cpp 1049-1055
and 1135-1141). -/
def apply_triptime (K : WireConsts) (now : Timestamp) (server : thread_Settings) :
    thread_Settings :=
  if !server.isTxStartTime
      && decide (|now.mSecs - server.accept_time.tv_sec| > K.MAXDIFFTIMESTAMPSECS + 1) then
    server
  else { server with isTripTime := true, isEnhanced := true }

/-- The assignment of the legacy test mode (Listener.cpp 1007-1012 and 1109-1114). -/
def apply_test_mode (K : WireConsts) (flags : Nat) (server : thread_Settings) :
    thread_Settings :=
  if hasFlag flags K.HEADER_VERSION1 && !hasFlag flags K.HEADER_VERSION2 then
    if hasFlag flags K.RUN_NOW then { server with mMode := TestMode.kTest_DualTest }
    else { server with mMode := TestMode.kTest_TradeOff }
  else server

/-- Embedding of `Listener::apply_client_settings_udp` (Listener.cpp 984-1073); `mBuf`
holds the peeked first datagram. -/
def apply_client_settings_udp (K : WireConsts) (e : HandshakeEnv) (mBuf : ListenerBuf)
    (server : thread_Settings) : HandshakeResult :=
  let flags := mBuf.flags
  let server := if hasFlag flags K.HEADER_SEQNO64B then { server with isSeqNo64b := true }
                else server
  let server :=
    if hasFlag flags K.HEADER32_SMALL_TRIPTIMES then
      { server with accept_time := { tv_sec := mBuf.seqno_tv_sec, tv_usec := mBuf.seqno_tv_usec },
                    isTripTime := true, isEnhanced := true }
    else if hasFlag flags K.HEADER_VERSION1 || hasFlag flags K.HEADER_VERSION2
              || hasFlag flags K.HEADER_EXTEND then
      let server := apply_test_mode K flags server
      let server :=
        if hasFlag flags K.HEADER_EXTEND then
          let upperflags := mBuf.upperflags
          let server := { server with mTOS := mBuf.tos, peer_version_u := mBuf.version_u,
                                      peer_version_l := mBuf.version_l }
          let server :=
            if hasFlag flags K.HEADER_UDPTESTS then
              -- Handle stateless flags
              let server := if hasFlag upperflags K.HEADER_ISOCH then
                              { server with isIsochronous := true } else server
              let server := { server with isIPV6 := hasFlag upperflags K.HEADER_L2ETHPIPV6 }
              let server := if hasFlag upperflags K.HEADER_L2LENCHECK then
                              { server with isL2LengthCheck := true } else server
              if hasFlag upperflags K.HEADER_NOUDPFIN then
                { server with isNoUDPfin := true } else server
            else server
          let server := if hasFlag upperflags K.HEADER_EPOCH_START then
                          apply_epoch_start K e.nowEpoch mBuf server
                        else server
          if hasFlag upperflags K.HEADER_TRIPTIME then
            apply_triptime K e.nowTrip
              { server with accept_time := { tv_sec := mBuf.start_tv_sec,
                                             tv_usec := mBuf.start_tv_usec } }
          else server
        else server
      if hasFlag flags K.HEADER_VERSION2 then
        let upperflags := mBuf.upperflags
        let server := if hasFlag upperflags K.HEADER_FULLDUPLEX then
                        { server with isFullDuplex := true, isServerReverse := true }
                      else server
        if hasFlag upperflags K.HEADER_REVERSE then
          { server with mThreadMode := ThreadMode.kMode_Client, isServerReverse := true,
                        isNoUDPfin := true, isReport := false }
        else server
      else server
    else server
  { rc := true, server := server, mBuf := mBuf }

/-- The settings taken from the extended header of a stream first message
(Listener.cpp 1115-1166). The frame rate `mFPS` (a `double`) is not part of the state. -/
def apply_extend_tcp (K : WireConsts) (e : HandshakeEnv) (flags : Nat) (hdr : ListenerBuf)
    (server : thread_Settings) : thread_Settings :=
  let upperflags := hdr.upperflags
  let server := { server with mTOS := hdr.tos, peer_version_u := hdr.version_u,
                              peer_version_l := hdr.version_l }
  let server := if hasFlag upperflags K.HEADER_ISOCH then
                  { server with isIsochronous := true } else server
  let server := if hasFlag upperflags K.HEADER_EPOCH_START then
                  apply_epoch_start K e.nowEpoch hdr server
                else server
  let server := if hasFlag upperflags K.HEADER_TRIPTIME then apply_triptime K e.nowTrip server
                else server
  let server := if hasFlag upperflags K.HEADER_PERIODICBURST then
                  { server with isEnhanced := true, isFrameInterval := true,
                                isPeriodicBurst := true }
                else server
  if hasFlag flags K.HEADER_VERSION2 then
    let server := if hasFlag upperflags K.HEADER_FULLDUPLEX then
                    { server with isFullDuplex := true, isServerReverse := true }
                  else server
    if hasFlag upperflags K.HEADER_REVERSE then
      { server with mThreadMode := ThreadMode.kMode_Client, isServerReverse := true }
    else server
  else server

/-- The condition under which the stream handshake calls `client_test_ack`
(Listener.cpp 1172-1176). -/
def needs_test_ack (K : WireConsts) (mSettings server : thread_Settings) (flags : Nat) : Bool :=
  !server.isUDP && !mSettings.isCompat
    && ((!hasFlag flags K.HEADER_VERSION2 && hasFlag flags K.HEADER_EXTEND)
        || hasFlag flags K.HEADER_V2PEERDETECT)

/-- Embedding of `Listener::apply_client_settings_tcp` (Listener.cpp 1074-1181). The
result is `none` when a `FAIL_errno` ended the thread. -/
def apply_client_settings_tcp (K : WireConsts) (mSettings : thread_Settings)
    (e : HandshakeEnv) (server : thread_Settings) : Option HandshakeResult :=
  let n := e.recvFlags.n
  let mBuf := e.recvFlags.buf
  if n = 0 then
    -- peer closed the socket, with no writes e.g. a connect-only test
    some { rc := false, server := server, mBuf := mBuf }
  else if n < 4 then
    some { rc := false, server := server, mBuf := mBuf }
  else
    let flags := mBuf.flags
    if hasFlag flags K.HEADER_VERSION1 || hasFlag flags K.HEADER_VERSION2
        || hasFlag flags K.HEADER_EXTEND || mSettings.isPermitKey then
      -- figure out the length of the test header
      let peeklen := K.Settings_ClientHdrPeekLen flags
      if peeklen > 0 then
        -- read the test settings passed to the server by the client
        let mBuf := e.recvHdr.buf
        if decide (e.recvHdr.n < peeklen) && e.failStops then none
        else
          let server := { server with skip := e.recvHdr.n }
          if mSettings.isPermitKey then
            match test_permit_key K mSettings mBuf e.recvKey e.failStops flags server peeklen with
            | none => none
            | some k =>
              if !k.rc then some { rc := false, server := k.server, mBuf := k.mBuf }
              else
                let server := apply_test_mode K flags k.server
                let server := if hasFlag flags K.HEADER_EXTEND then
                                apply_extend_tcp K e flags k.mBuf server
                              else server
                some { rc := true, server := server, mBuf := k.mBuf,
                       ackSent := needs_test_ack K mSettings server flags }
          else if hasFlag flags K.HEADER_KEYCHECK then
            some { rc := false, server := { server with mKeyCheck := false }, mBuf := mBuf }
          else
            let server := apply_test_mode K flags server
            let server := if hasFlag flags K.HEADER_EXTEND then
                            apply_extend_tcp K e flags mBuf server
                          else server
            some { rc := true, server := server, mBuf := mBuf,
                   ackSent := needs_test_ack K mSettings server flags }
      else
        some { rc := true, server := server, mBuf := mBuf,
               ackSent := needs_test_ack K mSettings server flags }
    else some { rc := true, server := server, mBuf := mBuf }

/-- Embedding of `Listener::apply_client_settings` (Listener.cpp 932-950): the peer
version and the test mode are reset, then the handshake of the flow's protocol runs on
the listener's buffer `mBuf`. -/
def apply_client_settings (K : WireConsts) (mSettings : thread_Settings) (mBuf : ListenerBuf)
    (e : HandshakeEnv) (server : thread_Settings) : Option HandshakeResult :=
  let server := { server with peer_version_u := 0, peer_version_l := 0,
                              mMode := TestMode.kTest_Normal }
  if server.isUDP then some (apply_client_settings_udp K e mBuf server)
  else apply_client_settings_tcp K mSettings e server

/-! ## The listener object, `udp_accept`, `my_accept` -/

/-- The calls with an effect outside the listener object (flow table, sockets, reporter,
thread start), recorded in the order they are made. -/
inductive ListenerEvent where
  | push_host (peer : iperf_sockaddr)
  | push_host_port_conditional (peer : iperf_sockaddr) (gid : Int)
  | remove_host (peer : iperf_sockaddr)
  | close (sock : Int)
  | Settings_Destroy
  | PostReport_connection
  | delay_loop
  | thread_start_all (server : thread_Settings)
deriving DecidableEq, Repr

/-- State of a `Listener` object; `mEndTime` is the deadline that the prologue of `Run`
computes from the clock, `events` the outside calls made so far. -/
structure Listener where
  mSettings : thread_Settings := {}
  ListenSocket : Int := INVALID_SOCKET
  mBuf : ListenerBuf := {}
  mEndTime : Timestamp := {}
  events : List ListenerEvent := []

/-- Modelled from the spec: `SockAddr_Hostare_Equal` (`SocketAddr.c`) is not among the
sources; it compares the host addresses of two socket addresses and answers whether
they are equal (same family and same address; the port is not compared). -/
def SockAddr_Hostare_Equal (a b : iperf_sockaddr) : Bool :=
  decide (a.isIPv6 = b.isIPv6) && decide (a.host = b.host)

/-- Modelled from the spec: `SockAddr_isIPv6` (`SocketAddr.c`) is not among the
sources; it answers whether the address is an IPv6 address. -/
def SockAddr_isIPv6 (a : iperf_sockaddr) : Bool := a.isIPv6

/-- What an accept obtains from its environment. For a datagram flow: the result of the
peeking `recvfrom`, the peer it reports, the peeked datagram, the interrupt flag, the
value returned by `Iperf_push_host_port_conditional` (the flow table is not among the
sources) and the result of `connect`. For a stream flow: the result of `accept` and the
peer. In both cases the clock reading for `accept_time` and whether `FAIL_errno` ends
the thread. -/
structure AcceptEnv where
  recvfromRc : Int := 0
  peer : iperf_sockaddr := {}
  datagram : ListenerBuf := {}
  sInterupted : Bool := false
  gid : Int := 1
  connectRc : Int := 0
  acceptRc : Int := 0
  now : Timestamp := {}
  failStops : Bool := false

/-- Result of an accept: the returned socket, the listener and the server settings
afterwards, and the value returned by the conditional flow-table insert when it was
called. -/
structure AcceptResult where
  sock : Int
  listener : Listener
  server : thread_Settings
  inserted : Option Int := none

/-- Embedding of `Listener::udp_accept` (Listener.cpp 842-888). The result is `none`
when a `FAIL_errno` ended the thread. -/
def udp_accept (e : AcceptEnv) (l : Listener) (server : thread_Settings) : Option AcceptResult :=
  -- Preset the server socket to INVALID, hang recvfrom on the Listener's socket
  let server := { server with mSock := INVALID_SOCKET, peer := e.peer }
  let l := { l with mBuf := e.datagram }
  let rc := e.recvfromRc
  if decide (rc = SOCKET_ERROR) && e.failStops then none
  else if !decide (rc < 0) && !e.sInterupted then
    -- Handle connection for UDP sockets
    let gid := e.gid
    let l := { l with events := l.events ++ [ListenerEvent.push_host_port_conditional server.peer gid] }
    if gid > 0 then
      -- hand off this socket to the server and create a new listener socket
      let server := { server with mSock := l.ListenSocket }
      let l := { l with ListenSocket := INVALID_SOCKET }
      if decide (e.connectRc = SOCKET_ERROR) && e.failStops then none
      else some { sock := server.mSock, listener := l, server := server, inserted := some gid }
    else some { sock := server.mSock, listener := l, server := server, inserted := some gid }
  else some { sock := server.mSock, listener := l, server := server, inserted := none }

/-- Embedding of `Listener::my_accept` (Listener.cpp 892-924). -/
def my_accept (e : AcceptEnv) (l : Listener) (server : thread_Settings) : Option AcceptResult :=
  let server := { server with peer := {}, accept_time := { tv_sec := 0, tv_usec := 0 } }
  let r : Option AcceptResult :=
    if server.isUDP then
      match udp_accept e l server with
      | none => none
      | some r => some { r with server := { r.server with mSock := r.sock } }
    else
      -- accept a TCP connection
      let server := { server with mSock := e.acceptRc, peer := e.peer }
      if server.mSock > 0 then
        some { sock := server.mSock,
               listener := { l with events := l.events ++ [ListenerEvent.push_host server.peer] },
               server := server }
      else some { sock := server.mSock, listener := l, server := server }
  match r with
  | none => none
  | some r =>
    if r.server.mSock > 0 then
      some { r with sock := r.server.mSock,
                    server := { r.server with accept_time := e.now.toTimeval } }
    else some { r with sock := r.server.mSock }

/-! ## `Listener::Run` -/

/-- What one iteration of the accept loop obtains from its environment: the interrupt
flag at the loop head, the clock reading, the number of live traffic threads, the socket
created by `my_listen` (datagram listener), the result of `select`, the inputs of the
accept and of the handshake, and the answer of `L2_setup`. -/
structure RunEnv where
  sInterupted : Bool := false
  now : Timestamp := {}
  numtrafficthreads : Int := 0
  newListenSocket : Int := 3
  selectRc : Int := 1
  accept : AcceptEnv := {}
  handshake : HandshakeEnv := {}
  L2_setup : Bool := true

/-- The listener object together with the locals of `Run` that outlive an iteration. -/
structure RunState where
  listener : Listener
  mCount : Int
  mMode_Time : Bool

/-- How an iteration of the accept loop ended. -/
inductive RunStep where
  | timerExpired
  | singleClientDelay
  | selectTimeout
  | compatNoConnect
  | acceptFailed
  | peerNotAllowed
  | handshakeRejected
  | l2SetupFailed
  | serverStarted
  | threadStopped
deriving DecidableEq, Repr

/-- The prologue of `Listener::Run` (Listener.cpp 146-158) as far as the locals are
concerned: `mCount` is the thread count, or `-1` when none was given. -/
def Run_init (l : Listener) : RunState :=
  { listener := l,
    mCount := if l.mSettings.mThreads ≠ 0 then l.mSettings.mThreads else -1,
    mMode_Time := l.mSettings.isServerModeTime && !l.mSettings.isDaemon }

/-- The loop condition `!sInterupted && mCount` of `Listener::Run` (Listener.cpp 168). -/
def Run_cond (sInterupted : Bool) (s : RunState) : Bool :=
  !sInterupted && decide (s.mCount ≠ 0)

/-- The test of the two exception cases after an accept (Listener.cpp 272-273). -/
def Run_peer_not_allowed (mSettings server : thread_Settings) : Bool :=
  (mSettings.clientListener && SockAddr_Hostare_Equal mSettings.peer server.peer)
    || (!mSettings.isIPV6 && SockAddr_isIPv6 server.peer)

/-- The part of an iteration of the accept loop after the handshake
(Listener.cpp 298-396): tear-down of a rejected flow, L2 setup, start of the server
thread. `mCount` is the already decremented counter. The construction of the
complementary client settings for full-duplex, reverse and legacy tests (lines 344-385)
only prepares the threads started by `thread_start_all` and is not part of the state. -/
def Run_after_handshake (e : RunEnv) (s : RunState) (l : Listener) (mCount : Int)
    (h : HandshakeResult) : RunState × RunStep :=
  let mSettings := l.mSettings
  let l := { l with mBuf := h.mBuf }
  let server := h.server
  if !h.rc then
    let ev := (if server.isConnectionReport && !server.isSumOnly then
                 [ListenerEvent.PostReport_connection] else [])
              ++ [ListenerEvent.remove_host server.peer, ListenerEvent.close server.mSock,
                  ListenerEvent.Settings_Destroy]
    ({ s with listener := { l with events := l.events ++ ev }, mCount := mCount },
     RunStep.handshakeRejected)
  else if server.isUDP && !mSettings.isCompat
            && (mSettings.isL2LengthCheck || server.isL2LengthCheck) && !e.L2_setup then
    let ev := [ListenerEvent.remove_host server.peer, ListenerEvent.Settings_Destroy]
    ({ s with listener := { l with events := l.events ++ ev }, mCount := mCount },
     RunStep.l2SetupFailed)
  else
    -- Force compat mode to use 64 bit seq numbers
    let server := if server.isUDP && mSettings.isCompat then
                    { server with isSeqNo64b := true } else server
    let ev := (if server.isConnectionReport && !server.isSumOnly then
                 [ListenerEvent.PostReport_connection] else [])
              ++ [ListenerEvent.thread_start_all server]
    ({ s with listener := { l with events := l.events ++ ev }, mCount := mCount },
     RunStep.serverStarted)

/-- The part of an iteration of the accept loop after `my_accept` returned
(Listener.cpp 242-315): a failed accept, the `-P` counter, the two exception cases and
the handshake. -/
def Run_after_accept (K : WireConsts) (e : RunEnv) (s : RunState) (a : AcceptResult) :
    RunState × RunStep :=
  let l := a.listener
  let mSettings := l.mSettings
  let server := a.server
  if !decide (a.sock > 0) then
    ({ s with listener := { l with events := l.events ++ [ListenerEvent.Settings_Destroy] } },
     RunStep.acceptFailed)
  else
    -- Decrement the -P counter
    let mCount := if s.mCount > 0 then s.mCount - 1 else s.mCount
    if Run_peer_not_allowed mSettings server then
      -- Not allowed, reset things and restart the loop
      let ev := [ListenerEvent.remove_host server.peer]
                ++ (if !server.isUDP then [ListenerEvent.close server.mSock] else [])
                ++ [ListenerEvent.Settings_Destroy]
      ({ s with listener := { l with events := l.events ++ ev }, mCount := mCount },
       RunStep.peerNotAllowed)
    else
      let h : Option HandshakeResult :=
        if server.isCompat then some { rc := true, server := server, mBuf := l.mBuf }
        else apply_client_settings K mSettings l.mBuf e.handshake server
      match h with
      | none => ({ s with listener := l, mCount := mCount }, RunStep.threadStopped)
      | some h => Run_after_handshake e s l mCount h

/-- One iteration of the accept loop of `Listener::Run` (Listener.cpp 169-396). -/
def Run_body (K : WireConsts) (e : RunEnv) (s : RunState) : RunState × RunStep :=
  let l := s.listener
  let mSettings := l.mSettings
  if (s.mMode_Time || decide (mSettings.mListenerTimeout > 0)) && l.mEndTime.before e.now.toTimeval then
    (s, RunStep.timerExpired)
  else if (mSettings.isSingleClient || mSettings.isMulticast) && decide (s.mCount ≠ 0)
            && decide (e.numtrafficthreads > 0) then
    ({ s with listener := { l with events := l.events ++ [ListenerEvent.delay_loop] } },
     RunStep.singleClientDelay)
  else
    -- UDP needs a new listen per every new socket
    let l := if mSettings.isUDP then { l with ListenSocket := e.newListenSocket } else l
    if (s.mMode_Time || mSettings.isCompat || mSettings.isPermitKey) && !decide (e.selectRc > 0) then
      if mSettings.isCompat then ({ s with listener := l }, RunStep.compatNoConnect)
      else ({ s with listener := l }, RunStep.selectTimeout)
    else
      -- Instantiate another settings object to be used by the server thread
      let server := { mSettings with mThreadMode := ThreadMode.kMode_Server }
      -- accept a new socket and assign it to the server thread
      match my_accept e.accept l server with
      | none => ({ s with listener := l }, RunStep.threadStopped)
      | some a => Run_after_accept K e s a

/-- Whether an iteration outcome leaves the accept loop (`break`, or the thread ended). -/
def RunStep.leaves : RunStep → Option LoopExit
  | RunStep.timerExpired => some LoopExit.break_
  | RunStep.compatNoConnect => some LoopExit.break_
  | RunStep.threadStopped => some LoopExit.threadStopped
  | _ => none

/-- The accept loop `while (!sInterupted && mCount)` of `Listener::Run`
(Listener.cpp 168-397); the list of outcomes of the iterations made is returned with
the final state. -/
def Run_loop (K : WireConsts) : List RunEnv → RunState → RunState × List RunStep × LoopExit
  | [], s => (s, [], LoopExit.outOfInput)
  | e :: es, s =>
    if Run_cond e.sInterupted s then
      match Run_body K e s with
      | (s1, step) =>
        match step.leaves with
        | some x => (s1, [step], x)
        | none =>
          match Run_loop K es s1 with
          | (s2, steps, x) => (s2, step :: steps, x)
    else (s, [], LoopExit.conditionFalse)

/-! ## The constructor of the client object -/

/-- Embedding of the constructor `Client::Client` (Client.cpp 78-123). `canRead` is the
answer of `Extractor_canRead` for a file-input flow; the result is `none` when the
`FAIL_errno` on the frame rate of an isochronous flow ended the thread. The buffer, the
socket descriptor and the peer-version-detect flag are not part of the state. -/
def Client_Client (canRead failStops : Bool) (inSettings : thread_Settings) : Option Client :=
  let mSettings := if inSettings.isFileInput && !canRead then
                     { inSettings with isFileInput := false }
                   else inSettings
  if mSettings.isIsochronous && !decide (mSettings.mFPS > 0) && failStops then none
  else
    some { mSettings := mSettings,
           one_report := false,
           udp_payload_minimum := 1,
           reportstruct := { packetID := 1 },
           peerclose := false,
           isburst := mSettings.isIsochronous || mSettings.isPeriodicBurst
                        || (mSettings.isTripTime && !mSettings.isUDP) }

/-! ## The send timeout of the header ack -/

/-- Embedding of the send timeout computed by `Listener::client_test_ack` for a stream
flow (Listener.cpp 1185, 1198-1210): the value handed to `SetSocketOptionsSendTimeout`.
`HDRXACKMIN` and `HDRXACKMAX` are constants of a header that is not among the sources;
`mInterval` is an `unsigned int` and `mAmount` an unsigned 64-bit count, each quotient is
narrowed to `int`. -/
def client_test_ack_sotimer (HDRXACKMIN HDRXACKMAX : Int) (server : thread_Settings) : Int :=
  let sotimer : Int := 0
  -- sotimer units microseconds convert
  let sotimer := if server.mInterval ≠ 0 then toS32 (server.mInterval / 4)
                 else if server.isModeTime then toS32 (server.mAmount * 10000 % 2 ^ 64 / 4)
                 else sotimer
  if sotimer > HDRXACKMAX then HDRXACKMAX
  else if sotimer < HDRXACKMIN then HDRXACKMIN
  else sotimer

/-! ## `Client::my_connect` -/

/-- The calls that `my_connect` makes on the socket layer and the delay between two
attempts, in the order they are made. -/
inductive ConnectCall where
  | socket
  | connect
  | delay_loop (usecs : Nat)
  | close
  | SetSocketOptionsSendTimeout (usecs : Int)
deriving DecidableEq, Repr

/-- What `my_connect` obtains from its environment: the descriptor returned by `socket`,
the result of the `i`-th call of `connect` (counted from 0), and the clock readings taken
before and after that call. -/
structure ConnectEnv where
  socket : Int := 3
  connect : Nat → Int := fun _ => 0
  connect_start : Nat → Timestamp := fun _ => {}
  connect_done : Nat → Timestamp := fun _ => {}

/-- The members of the client object and of the settings written by `my_connect`, the
local `connecttime`, and the calls made so far. -/
structure ConnectState where
  mSettings : thread_Settings := {}
  mySocket : Int := INVALID_SOCKET
  connected : Bool := false
  connecttime : ℚ := -1
  connect_start : Timestamp := {}
  calls : List ConnectCall := []

/-- The retry loop of `my_connect` for a stream flow (Client.cpp 174-196), entered with
`trycnt` attempts left before the `i`-th call of `connect`; `trycnt + 1` is the value of
the counter at the loop head, `trycnt` its value after `--trycnt`. -/
def my_connect_loop (fl : ℚ → ℚ) (close_on_fail : Bool) (e : ConnectEnv) :
    Nat → Nat → ConnectState → ConnectState
  | 0, _, s => s
  | trycnt + 1, i, s =>
    let s := { s with connect_start := e.connect_start i,
                      calls := s.calls ++ [ConnectCall.connect] }
    let rc := e.connect i
    if rc = SOCKET_ERROR then
      let s :=
        if trycnt ≤ 0 then
          if close_on_fail then
            { s with calls := s.calls ++ [ConnectCall.close], mySocket := INVALID_SOCKET }
          else s
        else { s with calls := s.calls ++ [ConnectCall.delay_loop 200000] }
      my_connect_loop fl close_on_fail e trycnt (i + 1) s
    else
      let connecttime := fl (1000 * (e.connect_done i).subSec fl s.connect_start)
      { s with connecttime := connecttime,
               mSettings := { s.mSettings with connecttime := connecttime },
               connected := true }

/-- The first part of `my_connect` (Client.cpp 157-171): the socket is created and kept
by the object and by the settings. The socket options, the `bind` to a local address and
the address bookkeeping are not part of the state. -/
def my_connect_socket (e : ConnectEnv) (mSettings : thread_Settings) : ConnectState :=
  { mSettings := { mSettings with mSock := e.socket },
    mySocket := e.socket,
    connected := false,
    connecttime := -1,
    calls := [ConnectCall.socket] }

/-- The last part of `my_connect` that touches the state (Client.cpp 205-222): the send
timeout of the test exchange for a connected socket, else the close of the socket.
`TESTEXCHANGETIMEOUT` is a constant of a header that is not among the sources. -/
def my_connect_finish (fl : ℚ → ℚ) (TESTEXCHANGETIMEOUT : Int) (s : ConnectState) :
    ConnectState :=
  if s.connected then
    -- Set the send timeout for the very first write which has the test exchange
    let s := { s with calls := s.calls
                        ++ [ConnectCall.SetSocketOptionsSendTimeout TESTEXCHANGETIMEOUT] }
    if s.mSettings.isUDP && !s.mSettings.isIsochronous && !s.mSettings.isIPG then
      { s with mSettings := { s.mSettings with
                 mBurstIPG := fl (get_delay_target fl s.mSettings / 1000) } }
    else s
  else
    let s := { s with connecttime := -1 }
    if s.mySocket ≠ INVALID_SOCKET then
      { s with calls := s.calls ++ [ConnectCall.close], mySocket := INVALID_SOCKET }
    else s

/-- Embedding of `Client::my_connect` (Client.cpp 144-243); the `connected` member of the
result is the value returned. The counter `trycnt` of a stream flow is
`mConnectRetries + 1` (the `int` addition is taken not to overflow) and the loop runs
while it is positive. The reports posted at the end are not part of the state. -/
def my_connect (fl : ℚ → ℚ) (TESTEXCHANGETIMEOUT : Int) (close_on_fail : Bool)
    (e : ConnectEnv) (mSettings : thread_Settings) : ConnectState :=
  let s := my_connect_socket e mSettings
  -- connect socket
  let s :=
    if !mSettings.isUDP then
      my_connect_loop fl close_on_fail e (mSettings.mConnectRetries + 1).toNat 0 s
    else
      let s := { s with calls := s.calls ++ [ConnectCall.connect], connecttime := 0 }
      if e.connect 0 ≠ SOCKET_ERROR then { s with connected := true } else s
  my_connect_finish fl TESTEXCHANGETIMEOUT s

/-! ## `Client::RunWriteEventsTCP` -/

/-- What one iteration of `RunWriteEventsTCP` obtains from its environment: the interrupt
flag and extractor answer seen by `InProgress`, the result of `select` (0 on a timeout,
negative on an error), the clock reading taken when the socket is writable, and the
result of `writen` as a function of the requested length. -/
structure WriteEventEnv where
  sInterupted : Bool := false
  canRead : Bool := true
  select : Int := 1
  now : Timestamp := {}
  writen : Int → Int := fun len => len

/-- The local variables of `RunWriteEventsTCP` together with the client object. -/
structure WriteEventsLoop where
  client : Client
  burst_id : Int := 0
  writelen : Int := 0

/-- One iteration of the `while (InProgress())` loop of `Client::RunWriteEventsTCP`
(Client.cpp 872-920). The timeout handed to `select` is not part of the state. -/
def RunWriteEventsTCP_body (e : WriteEventEnv) (s : WriteEventsLoop) : WriteEventsLoop :=
  let c := s.client
  let st := c.mSettings
  let writelen := if isModeAmount st then
                    (if st.mAmount < toU32 st.mBufLen then toS32 st.mAmount else st.mBufLen)
                  else s.writelen
  let s1 : WriteEventsLoop :=
    if e.select ≤ 0 then
      { s with client := { c with reportstruct :=
                 { c.reportstruct with emptyreport := false, packetLen := 0 } },
               writelen := writelen }
    else
      let c1 := { c with reportstruct :=
                    { c.reportstruct with packetTime := e.now.toTimeval } }
      let burst_id := s.burst_id + 1
      let c2 := WriteTcpTxHdr writelen burst_id c1
      let c3 := { c2 with reportstruct :=
                    { c2.reportstruct with sentTime := c2.reportstruct.packetTime } }
      let c4 := { c3 with reportstruct :=
                    { c3.reportstruct with packetLen := e.writen writelen } }
      let c5 := if c4.reportstruct.packetLen < 0 then
                  { c4 with reportstruct :=
                      { c4.reportstruct with packetLen := 0, emptyreport := false } }
                else c4
      { client := c5, burst_id := burst_id, writelen := writelen }
  let c1 := s1.client
  let c2 := if c1.reportstruct.packetLen = 0 then
              { c1 with peerclose := true,
                        reportstruct := { c1.reportstruct with packetLen := 0,
                                                               emptyreport := true } }
            else c1
  let c3 := if isModeAmount c2.mSettings && !c2.reportstruct.emptyreport then
              -- mAmount may be unsigned, so don't let it underflow!
              { c2 with mSettings := consumeAmount c2.mSettings c2.reportstruct.packetLen }
            else c2
  let c4 := if !c3.one_report then myReportPacket c3 else c3
  { s1 with client := c4 }

/-- The loop `while (InProgress()) { ... }` of `RunWriteEventsTCP`, one environment input
per iteration. -/
def RunWriteEventsTCP_loop : List WriteEventEnv → WriteEventsLoop → WriteEventsLoop × LoopExit
  | [], s => (s, LoopExit.outOfInput)
  | e :: es, s =>
    if InProgress e.sInterupted e.canRead s.client then
      RunWriteEventsTCP_loop es (RunWriteEventsTCP_body e s)
    else (s, LoopExit.conditionFalse)

/-- Embedding of `Client::RunWriteEventsTCP` up to the call of `FinishTrafficActions`
(Client.cpp 850-921). -/
def RunWriteEventsTCP (now : Timestamp) (envs : List WriteEventEnv) (c : Client) :
    WriteEventsLoop × LoopExit :=
  RunWriteEventsTCP_loop envs
    { client := { c with reportstruct := { c.reportstruct with packetTime := now.toTimeval } },
      burst_id := 0, writelen := c.mSettings.mBufLen }

/-! ## The varying load of `Client::RunUDP` -/

/-- The quotient of two `double` values: `none` when the divisor is zero, in which case
the result is not a finite number (an infinity or a NaN in IEEE 754 arithmetic). -/
def divDouble (fl : ℚ → ℚ) (x y : ℚ) : Option ℚ :=
  if y = 0 then none else some (fl (x / y))

/-- The divisor `var_rate` of the varying-load block of `RunUDP` (Client.cpp 976-978):
the `long` value of the lognormal sample, raised to 0 when negative. -/
def RunUDP_var_rate (lognormal : Int) : Int :=
  let var_rate := lognormal
  if var_rate < 0 then 0 else var_rate

/-- The variables written by the varying-load block of `RunUDP`: the local `delay_target`
(`none` when its value is not finite) and the function-static `time3`. -/
structure VaryLoad where
  delay_target : Option ℚ := some 0
  time3 : Timestamp := {}
deriving DecidableEq, Repr

/-- Embedding of the varying-load block at the head of an iteration of `RunUDP`
(Client.cpp 973-982): `now` is the clock reading of the iteration and `lognormal` the
`long` value of the sample drawn. -/
def RunUDP_varyload (fl : ℚ → ℚ) (now : Timestamp) (lognormal : Int) (st : thread_Settings)
    (s : VaryLoad) : VaryLoad :=
  if st.isVaryLoad && decide (st.mAppRateUnits = RateUnits.kRate_BW) then
    if now.subSec fl s.time3 ≥ VARYLOAD_PERIOD fl then
      let var_rate := RunUDP_var_rate lognormal
      let delay_target :=
        (divDouble fl (fl (kSecs_to_nsecs * (kBytes_to_Bits : ℚ))) (fl (var_rate : ℚ))).map
          (fun q => fl ((st.mBufLen : ℚ) * q))
      { delay_target := delay_target, time3 := now }
    else s
  else s

/-! ## The rounding of binary64 arithmetic -/

/-- The power `2 ^ k` for an integer exponent. -/
def pow2 (k : Int) : ℚ :=
  if 0 ≤ k then (2 ^ k.toNat : ℚ) else 1 / (2 ^ (-k).toNat : ℚ)

/-- The number of halvings that bring `n` below 2 (the binary logarithm, rounded down),
by recursion on a bound `fuel` of the number of halvings. -/
def log2Fuel : Nat → Nat → Nat
  | 0, _ => 0
  | fuel + 1, n => if 2 ≤ n then log2Fuel fuel (n / 2) + 1 else 0

/-- The binary exponent of a positive rational `x`: the integer `e` with
`2 ^ e ≤ x < 2 ^ (e + 1)`. -/
def binaryExponent (x : ℚ) : Int :=
  let k : Int := (log2Fuel x.num.natAbs x.num.natAbs : Int) - (log2Fuel x.den x.den : Int)
  if pow2 k ≤ x then k else k - 1

/-- The nearest integer, halfway cases to the even one. -/
def roundHalfEven (y : ℚ) : Int :=
  let f := Rat.floor y
  let r := y - (f : ℚ)
  if r < 1 / 2 then f
  else if 1 / 2 < r then f + 1
  else if f % 2 = 0 then f else f + 1

/-- The rounding of IEEE 754 binary64 arithmetic in its default mode (round to nearest,
ties to even) for values in the normal range: the nearest rational with a significand of
53 bits. Overflow and subnormal values are not modelled. -/
def roundDouble (x : ℚ) : ℚ :=
  if x = 0 then 0
  else
    let a : ℚ := if x < 0 then -x else x
    let e : Int := binaryExponent a - 52
    let m : Int := roundHalfEven (a / pow2 e)
    (if x < 0 then -1 else 1) * (m : ℚ) * pow2 e

/-! ## Auxiliary notions used to state the properties -/

/-- The accounting effect of a `RunTCP` step in mode-amount: either nothing was written,
or between 1 and `L` bytes were written and taken off the remaining amount. -/
def TcpAmountStep (L : Int) (c r : Client) : Prop :=
  r.sizeofTcpBurstPayload = c.sizeofTcpBurstPayload
  ∧ ((r.mSettings = c.mSettings ∧ r.totLen = c.totLen)
     ∨ ∃ w : Nat, 1 ≤ w ∧ (w : Int) ≤ L ∧ r.totLen = c.totLen + w
         ∧ r.mSettings = { c.mSettings with mAmount := c.mSettings.mAmount - w })

/-- The records of a ring that are not empty-report (null event) records. -/
def nonEmptyRecords (ring : List ReportStruct) : List ReportStruct :=
  ring.filter (fun r => !r.emptyreport)

/-- The packet ids of the non-empty records of a ring, oldest first. -/
def recordIds (ring : List ReportStruct) : List Int :=
  (nonEmptyRecords ring).map (fun r => r.packetID)

/-- The socket answered the FIN handshake in this iteration: `select` reported the socket
readable, the thread was not ended by `FAIL_errno`, and `read` returned a positive
length that is not a stale header ack (a message of the size of `client_hdr_ack` whose
type is `CLIENTHDRACK`). -/
def FinEvent.answers (sizeofAck : Int) (e : FinEvent) : Bool :=
  !(decide (e.selectRc = SOCKET_ERROR) && e.failStops) && !decide (e.selectRc = 0)
    && !(decide (e.readRc = sizeofAck) && e.readIsAck) && decide (e.readRc > 0)

/-- The iteration ends the loop of `AwaitServerFinPacket`: the socket answered, or
`FAIL_errno` ended the thread after a failed `select`. -/
def FinEvent.ends (sizeofAck : Int) (e : FinEvent) : Bool :=
  e.answers sizeofAck || (decide (e.selectRc = SOCKET_ERROR) && e.failStops)

/-- The rule by which the spec reads the legacy test mode off the flags of a first
message: dual-test exactly when VERSION1 is set, VERSION2 is clear and RUN_NOW is set,
trade-off exactly when VERSION1 is set, VERSION2 is clear and RUN_NOW is clear, and normal
in every other case. -/
def TestModeRule (K : WireConsts) (flags : Nat) (m : TestMode) : Prop :=
  (m = TestMode.kTest_DualTest ↔
      hasFlag flags K.HEADER_VERSION1 = true ∧ hasFlag flags K.HEADER_VERSION2 = false
      ∧ hasFlag flags K.RUN_NOW = true)
  ∧ (m = TestMode.kTest_TradeOff ↔
      hasFlag flags K.HEADER_VERSION1 = true ∧ hasFlag flags K.HEADER_VERSION2 = false
      ∧ hasFlag flags K.RUN_NOW = false)
  ∧ (m = TestMode.kTest_Normal ↔
      ¬ (hasFlag flags K.HEADER_VERSION1 = true ∧ hasFlag flags K.HEADER_VERSION2 = false))

/-- The packet id of the scratch record and the sequence number stamped in the burst
header after the first and after the second of two iterations of `RunTCP` in which every
write delivers the requested length. -/
def stampedAfterTwoBursts (c : Client) : (Int × Nat) × (Int × Nat) :=
  let s1 := (RunTCP_body {} { client := c }).1
  let s2 := (RunTCP_body {} s1).1
  ((s1.client.reportstruct.packetID, s1.client.mBuf_burst.seqno_lower),
   (s2.client.reportstruct.packetID, s2.client.mBuf_burst.seqno_lower))

/-- The lengths of the datagrams that carry a frame of `b` bytes when the buffer length is
`L` and the minimum payload is `m`: `b / L` full datagrams, then the remainder, raised to
`m` when it is smaller. -/
def frameLengths (L m b : Int) : List Int :=
  List.replicate (b / L).toNat L ++ (if b % L = 0 then [] else [max (b % L) m])

/-- The number of microseconds a timestamp stands for. -/
def Timestamp.toUsecs (t : Timestamp) : Int := t.mSecs * 1000000 + t.mUsecs

/-- The fields of the loop state of `RunRateLimitedTCP` that stay as they are while tokens
are consumed and records are reported. -/
def RateLoop.sameRate (r s : RateLoop) : Prop :=
  r.var_rate = s.var_rate ∧ r.time1 = s.time1
  ∧ r.client.mSettings.mBufLen = s.client.mSettings.mBufLen
  ∧ r.client.mSettings.isVaryLoad = s.client.mSettings.isVaryLoad

/-! ## Sample inputs

Concrete inputs at which the properties below are evaluated. -/

/-- An assignment of the wire constants for the concrete evaluations: the flag bits are
distinct single bits, the key length bounds are 2 and 128, and the client header is
taken to be 10 bytes long whatever the flags. -/
def sampleConsts : WireConsts :=
  { HEADER_VERSION1 := 0x80000000
    HEADER_EXTEND := 0x40000000
    HEADER_UDPTESTS := 0x20000000
    HEADER_KEYCHECK := 0x10000000
    HEADER_SEQNO64B := 0x08000000
    HEADER_VERSION2 := 0x04000000
    HEADER_V2PEERDETECT := 0x02000000
    RUN_NOW := 0x00000001
    HEADER32_SMALL_TRIPTIMES := 0x00020000
    HEADER_ISOCH := 0x0001
    HEADER_L2ETHPIPV6 := 0x0002
    HEADER_L2LENCHECK := 0x0004
    HEADER_NOUDPFIN := 0x0008
    HEADER_TRIPTIME := 0x0010
    HEADER_EPOCH_START := 0x1000
    HEADER_PERIODICBURST := 0x2000
    HEADER_FULLDUPLEX := 0x4000
    HEADER_REVERSE := 0x8000
    MIN_PERMITKEY_LEN := 2
    MAX_PERMITKEY_LEN := 128
    MAXDIFFTXSTART := 3600
    MAXDIFFTIMESTAMPSECS := 600
    Settings_ClientHdrPeekLen := fun _ => 10 }

/-- The permit key "abcd" as a NUL-terminated array. -/
def sampleKey : List Nat := [97, 98, 99, 100, 0]

/-- A stream listener configured with the permit key "abcd". -/
def sampleKeyListener : thread_Settings :=
  { isPermitKey := true, mPermitKey := sampleKey }

/-- A datagram listener configured with the permit key "abcd". -/
def sampleKeyListenerUDP : thread_Settings :=
  { isUDP := true, isPermitKey := true, mPermitKey := sampleKey }

/-- A first message with the KEYCHECK flag, a 10-byte header ending in the key length 4,
followed by the key bytes "abcd". -/
def sampleKeyMessage : ListenerBuf :=
  { flags := 0x10000000, bytes := [16, 0, 0, 0, 0, 0, 0, 0, 0, 4, 97, 98, 99, 100] }

/-- The three peeks of a stream handshake that finds `sampleKeyMessage` on the socket. -/
def sampleKeyHandshake : HandshakeEnv :=
  { recvFlags := { n := 4, buf := sampleKeyMessage }
    recvHdr := { n := 10, buf := sampleKeyMessage }
    recvKey := { n := 14, buf := sampleKeyMessage } }

/-- A stream listener started with `-P 1` and the permit key "wxyz". -/
def sampleOneShotListener : Listener :=
  { mSettings := { isPermitKey := true, mPermitKey := [119, 120, 121, 122, 0], mThreads := 1 },
    ListenSocket := 3 }

/-- An accept-loop iteration in which a stream connection from 10.0.0.2 is accepted and
the first message carries the key "abcd". -/
def sampleKeyedAccept : RunEnv :=
  { accept := { acceptRc := 5, peer := { host := [10, 0, 0, 2], port := 40000 } },
    handshake := sampleKeyHandshake }

/-- A listener that a client started for a legacy `-d`/`-r` test against the server
10.0.0.1 (the expected peer). -/
def sampleClientListener : Listener :=
  { mSettings := { clientListener := true, peer := { host := [10, 0, 0, 1], port := 5001 } },
    ListenSocket := 3 }

/-- An accept-loop iteration in which a stream connection from the given host is
accepted and the first message has no flags set. -/
def sampleAcceptFrom (host : List Nat) : RunEnv :=
  { accept := { acceptRc := 5, peer := { host := host, port := 40000 } },
    handshake := { recvFlags := { n := 4 } } }

/-- The peeks of a stream handshake whose first message has only the EXTEND flag set
(a 2.0.13 client) and a 10-byte header. -/
def sampleExtendHandshake : HandshakeEnv :=
  { recvFlags := { n := 4, buf := { flags := 0x40000000 } },
    recvHdr := { n := 10, buf := { flags := 0x40000000 } } }

/-- The result of the stream handshake on `sampleExtendHandshake` at a listener with
default settings: accepted, 10 bytes to skip, header ack sent. -/
def sampleExtendResult : HandshakeResult :=
  { rc := true, server := { skip := 10 }, mBuf := { flags := 0x40000000 }, ackSent := true }

/-- A periodic-burst stream flow (`--burst-period`) in mode-time: bursts of 1000 bytes
written with a buffer of 1000 bytes, scheduled by a frame counter, next packet id 1. -/
def samplePeriodicBurstClient : Client :=
  { mSettings := { isModeTime := true, isPeriodicBurst := true, mBufLen := 1000, mBurstSize := 1000 },
    isburst := true, hasFramecounter := true, mEndTime := { mSecs := 100 } }

/-- A trip-time stream flow in mode-time with bursts of 1000 bytes and no frame counter. -/
def sampleTripTimeClient : Client :=
  { mSettings := { isModeTime := true, isTripTime := true, mBufLen := 1000 },
    isburst := true, mEndTime := { mSecs := 100 } }

/-- A stream flow with a report interval of one second (`-i 1`). -/
def sampleIntervalClient : Client :=
  { mSettings := { mInterval := 1000000 } }

/-- A datagram isochronous flow in mode-time with buffer length 1470. -/
def sampleIsochClient : Client :=
  { mSettings := { isUDP := true, isIsochronous := true, isModeTime := true, mBufLen := 1470 },
    mEndTime := { mSecs := 100 } }

/-- A rate-limited stream flow in mode-time: 8 Mbit/s (one byte per microsecond) with a
buffer of 1000 bytes. -/
def sampleRateLimitedClient : Client :=
  { mSettings := { isModeTime := true, mBufLen := 1000, mAppRate := 8000000 },
    mEndTime := { mSecs := 100 } }

/-- The clock readings of three iterations of the rate-limited loop: 100 µs, 200 µs and
1300 µs after the start. -/
def sampleRateEnvs : List RateIterEnv :=
  [{ time2 := { mUsecs := 100 } }, { time2 := { mUsecs := 200 } }, { time2 := { mUsecs := 1300 } }]

/-- An unrated stream flow of 10 s with a report interval of 1 s, enhanced unset. -/
def sampleIntervalStream : thread_Settings :=
  { isUDP := false, isModeTime := true, mAmount := 1000, isIntervalTime := true,
    mInterval := 1000000, mBufLen := 131072 }

/-- The value `x` clamped to the interval from `lo` to `hi`. -/
def clampTo (lo hi x : Int) : Int :=
  if x > hi then hi else if x < lo then lo else x

/-- A client flow of two hours (`-t 7200`) without a report interval. -/
def sampleTwoHourFlow : thread_Settings :=
  { isModeTime := true, mAmount := 720000 }

/-- A client flow of 4295 seconds (`-t 4295`). -/
def sampleLongFlow : thread_Settings :=
  { isModeTime := true, mAmount := 429500 }

/-- A server of two and a half hours (`-s -t 9000`) without a report interval. -/
def sampleLongServer : thread_Settings :=
  { isModeTime := true, mAmount := 900000 }

/-- The number of calls of `connect` among the calls made. -/
def connectAttempts (calls : List ConnectCall) : Nat :=
  calls.count ConnectCall.connect

/-- A stream flow of 100 s (deadline at second 100) with a buffer of 1000 bytes. -/
def sampleWriteEventsClient : Client :=
  { mSettings := { isUDP := false, isModeTime := true, mAmount := 10000, mBufLen := 1000 },
    mEndTime := { mSecs := 100 } }

/-- Two iterations: `select` times out in the first and reports the socket writable in
the second, at second 2; the test is not interrupted. -/
def sampleWriteEvents : List WriteEventEnv :=
  [{ select := 0 }, { select := 1, now := { mSecs := 2 } }]

/-- The packet ids, as a receiver reads them from the header, of the datagrams whose
`write` did not fail (result not negative), oldest first. -/
def writtenIds (wire : List (UDP_datagram × Int)) : List Int :=
  (wire.filter (fun w => decide (0 ≤ w.2))).map (fun w => readPacketID w.1)

/-- Five iterations of a datagram loop: the second write fails non-fatally, the fifth
iteration sees the interrupt flag. -/
def sampleUdpEnvs : List UdpIterEnv :=
  [{}, { write := fun _ => -1 }, {}, {}, { sInterupted := true }]

/-- A datagram flow in mode-time with a deadline at second 9 and datagrams of 1470 bytes. -/
def sampleUdpClient : Client :=
  { mSettings := { isUDP := true, isModeTime := true, mBufLen := 1470 },
    mEndTime := { mSecs := 9 } }

/-- A rate-limited trip-time stream flow in mode-amount: 1010 bytes to send with a buffer
of 1000 bytes at 8 Mbit/s (one byte per microsecond). -/
def sampleTripTimeAmountClient : Client :=
  { mSettings := { isUDP := false, isModeTime := false, isTripTime := true, mBufLen := 1000,
                   mAmount := 1010, mAppRate := 8000000 },
    isburst := true }

/-- The state of `RunRateLimitedTCP` on `sampleTripTimeAmountClient` after the first
iteration, made 100 µs after the start, in which the burst header (40 bytes) and 960
bytes of payload were written. -/
def sampleTripTimeAmountAfterOne : RateLoop :=
  (RunRateLimitedTCP id {} {} {} [{ time2 := { mUsecs := 100 } }] sampleTripTimeAmountClient).1

/-- A datagram flow with a varying load around 8 Mbit/s and datagrams of 1470 bytes. -/
def sampleVaryLoadFlow : thread_Settings :=
  { isUDP := true, isModeTime := true, isVaryLoad := true, mAppRate := 8000000,
    mAppRateUnits := RateUnits.kRate_BW, mBufLen := 1470 }

/-- A first message with the KEYCHECK flag, a 10-byte header ending in the key length 4,
followed by the key bytes "zzzz". -/
def sampleWrongKeyMessage : ListenerBuf :=
  { flags := 0x10000000, bytes := [16, 0, 0, 0, 0, 0, 0, 0, 0, 4, 122, 122, 122, 122] }

/-- The three peeks of a stream handshake that finds `sampleWrongKeyMessage` on the
socket. -/
def sampleWrongKeyHandshake : HandshakeEnv :=
  { recvFlags := { n := 4, buf := sampleWrongKeyMessage }
    recvHdr := { n := 10, buf := sampleWrongKeyMessage }
    recvKey := { n := 14, buf := sampleWrongKeyMessage } }

/-- A datagram flow paced at 3 packets per second. -/
def sampleThreePps : thread_Settings :=
  { isUDP := true, mAppRate := 3, mAppRateUnits := RateUnits.kRate_PPS, mBufLen := 1470 }

/-! # Properties -/

/-! ## Arithmetic of the 64-bit packet id -/

theorem toU64_lt (x : Int) : toU64 x < 2 ^ 64 := by
  unfold toU64
  have h1 : 0 ≤ x % (2 : Int) ^ 64 := Int.emod_nonneg _ (by norm_num)
  have h2 : x % (2 : Int) ^ 64 < (2 : Int) ^ 64 := Int.emod_lt_of_pos _ (by norm_num)
  omega

theorem ntohl_htonl (x : Nat) (h : x < 2 ^ 32) : ntohl (htonl x) = x := by
  simp only [ntohl, htonl, List.getD_cons_zero, List.getD_cons_succ]
  omega

theorem land_lo32 (x : Nat) : x &&& 0xFFFFFFFF = x % 2 ^ 32 := by
  have h : (0xFFFFFFFF : Nat) = 2 ^ 32 - 1 := by norm_num
  rw [h, Nat.and_pow_two_sub_one_eq_mod]

theorem land_hi32_shift (x : Nat) (h : x < 2 ^ 64) :
    (x &&& 0xFFFFFFFF00000000) >>> 32 = x / 2 ^ 32 := by
  apply Nat.eq_of_testBit_eq
  intro i
  rw [Nat.testBit_shiftRight, Nat.testBit_and, ← Nat.shiftRight_eq_div_pow,
    Nat.testBit_shiftRight]
  by_cases hi : i < 32
  · have hbit : Nat.testBit 0xFFFFFFFF00000000 (32 + i) = true := by
      interval_cases i <;> decide
    simp [hbit]
  · have hbit : x.testBit (32 + i) = false := by
      apply Nat.testBit_lt_two_pow
      calc x < 2 ^ 64 := h
        _ ≤ 2 ^ (32 + i) := Nat.pow_le_pow_right (by norm_num) (by omega)
    simp [hbit]

theorem toS64_toU64 (p : Int) (hlo : -(2 : Int) ^ 63 ≤ p) (hhi : p < (2 : Int) ^ 63) :
    toS64 (toU64 p) = p := by
  unfold toS64 toU64
  have e : ((2 : Int) ^ 64) = 18446744073709551616 := by norm_num
  have e3 : ((2 : Int) ^ 63) = 9223372036854775808 := by norm_num
  rw [e3] at hlo hhi
  simp only [e]
  norm_num
  split <;> omega

theorem WritePacketID_id (p : Int) (hdr : UDP_datagram) :
    ntohl (WritePacketID p hdr).id = toU64 p % 2 ^ 32 := by
  simp only [WritePacketID, land_lo32]
  rw [ntohl_htonl _ (Nat.mod_lt _ (by norm_num))]
  exact Nat.mod_mod _ _

theorem WritePacketID_id2 (p : Int) (hdr : UDP_datagram) :
    ntohl (WritePacketID p hdr).id2 = toU64 p / 2 ^ 32 := by
  simp only [WritePacketID, land_hi32_shift _ (toU64_lt p)]
  rw [ntohl_htonl _ (Nat.mod_lt _ (by norm_num))]
  have := toU64_lt p
  apply Nat.mod_eq_of_lt
  omega

theorem readPacketID_WritePacketID (p : Int) (hdr : UDP_datagram)
    (hlo : -(2 : Int) ^ 63 ≤ p) (hhi : p < (2 : Int) ^ 63) :
    readPacketID (WritePacketID p hdr) = p := by
  unfold readPacketID
  rw [WritePacketID_id, WritePacketID_id2]
  have h : toU64 p / 2 ^ 32 * 2 ^ 32 + toU64 p % 2 ^ 32 = toU64 p := by omega
  rw [h]
  exact toS64_toU64 p hlo hhi

/-! ## C6: `WritePacketID` packs the signed 64-bit id as (low32, high32) -/

/-- C6: for every signed 64-bit packet id `p`, `WritePacketID` stores in `id` the low 32
bits and in `id2` the high 32 bits of the two's-complement representation of `p`, so
that `id2 * 2^32 + id1` read back as a signed 64-bit integer is `p`; in particular a
negative `p` is read back as a negative number. -/
theorem C6_WritePacketID_low_high (p : Int) (hdr : UDP_datagram)
    (hlo : -(2 : Int) ^ 63 ≤ p) (hhi : p < (2 : Int) ^ 63) :
    ntohl (WritePacketID p hdr).id = toU64 p % 2 ^ 32
    ∧ ntohl (WritePacketID p hdr).id2 = toU64 p / 2 ^ 32
    ∧ toS64 (ntohl (WritePacketID p hdr).id2 * 2 ^ 32 + ntohl (WritePacketID p hdr).id) = p
    ∧ (p < 0 → readPacketID (WritePacketID p hdr) < 0) := by
  refine ⟨WritePacketID_id p hdr, WritePacketID_id2 p hdr, ?_, ?_⟩
  · exact readPacketID_WritePacketID p hdr hlo hhi
  · intro hneg
    rw [readPacketID_WritePacketID p hdr hlo hhi]
    exact hneg

/-- Witness of C6 at the terminating id `-5`: the header words are `0xFFFFFFFB` and
`0xFFFFFFFF`, and they read back as `-5`. -/
theorem C6_WritePacketID_low_high_witness :
    ntohl (WritePacketID (-5) {}).id = toU64 (-5) % 2 ^ 32
    ∧ ntohl (WritePacketID (-5) {}).id2 = toU64 (-5) / 2 ^ 32
    ∧ toS64 (ntohl (WritePacketID (-5) {}).id2 * 2 ^ 32 + ntohl (WritePacketID (-5) {}).id) = -5
    ∧ ((-5 : Int) < 0 → readPacketID (WritePacketID (-5) {}) < 0) :=
  C6_WritePacketID_low_high (-5) {} (by norm_num) (by norm_num)

/-! ## C10: `InProgress` without file input -/

/-- C10: when file input is not in use, `InProgress` returns false if and only if the
interrupt flag is set, or `peerclose` is set, or the flow is in mode-time and the end
time is before the current packet time, or the flow is in mode-amount and the
remaining amount is 0. -/
theorem C10_InProgress_false_iff (sInterupted canRead : Bool) (c : Client)
    (hfile : c.mSettings.isFileInput = false) :
    InProgress sInterupted canRead c = false ↔
      (sInterupted = true ∨ c.peerclose = true
        ∨ (c.mSettings.isModeTime = true ∧ c.mEndTime.before c.reportstruct.packetTime = true)
        ∨ (isModeAmount c.mSettings = true ∧ c.mSettings.mAmount = 0)) := by
  cases sInterupted <;> cases h1 : c.peerclose <;> cases h2 : c.mSettings.isModeTime <;>
    cases h3 : c.mEndTime.before c.reportstruct.packetTime <;>
    simp [InProgress, isModeAmount, hfile, h1, h2, h3]

/-- Witness of C10: a mode-amount flow whose remaining amount is 0 is no longer in
progress. -/
theorem C10_InProgress_false_iff_witness :
    InProgress false true { mSettings := { isModeTime := false, mAmount := 0 } } = false ↔
      (false = true ∨ false = true
        ∨ (false = true ∧ Timestamp.before {} ({} : timeval) = true)
        ∨ (isModeAmount { isModeTime := false, mAmount := 0 } = true ∧ (0 : Nat) = 0)) :=
  C10_InProgress_false_iff false true { mSettings := { isModeTime := false, mAmount := 0 } } rfl

/-! ## The permit key check -/

theorem strncmp_strncpy_eq_zero_iff (n : Nat) :
    ∀ (v k : List Nat) (m : Nat), n ≤ m → n ≤ strlen k →
      (strncmp (strncpy v m) k n = 0 ↔ v.take n = k.take n) := by
  induction n with
  | zero => intro v k m _ _; simp [strncmp]
  | succ n ih =>
    intro v k m hm hk
    obtain ⟨m', rfl⟩ : ∃ m', m = m' + 1 := ⟨m - 1, by omega⟩
    cases k with
    | nil => simp [strlen] at hk
    | cons y ks =>
      have hy : y ≠ 0 := by
        intro h0; simp [strlen, h0] at hk
      have hks : n ≤ strlen ks := by
        simp [strlen, hy] at hk; exact hk
      cases v with
      | nil =>
        have hd : ((0 : Int) - (y : Int)) ≠ 0 := by omega
        simp [strncpy, strncmp, Ne.symm hy, hy, hd]
      | cons c cs =>
        by_cases hc : c = 0
        · subst hc
          have hd : ((0 : Int) - (y : Int)) ≠ 0 := by omega
          simp [strncpy, strncmp, Ne.symm hy, hy, hd]
        · by_cases hcy : c = y
          · subst hcy
            simp [strncpy, strncmp, hc]
            exact ih cs ks m' (by omega) hks
          · have hd : ((c : Int) - (y : Int)) ≠ 0 := by omega
            simp [strncpy, strncmp, hc, hcy, hd]

/-- Characterisation of `test_permit_key`: when it returns and what it returns. The
received key length is read from the buffer the function is entered with; the received
key bytes are read after the second peek of a stream flow (`recvKey.buf`), and from the
datagram itself for a datagram flow. -/
theorem test_permit_key_spec (K : WireConsts) (mSettings : thread_Settings) (mBuf : ListenerBuf)
    (recvKey : RecvResult) (failStops : Bool) (flags : Nat) (server : thread_Settings)
    (keyoffset : Int) (hcopy : server.mPermitKey = mSettings.mPermitKey) :
    ((failStops = false ∨ server.isUDP = true
        ∨ keyoffset + permitKey_length mBuf keyoffset ≤ recvKey.n) →
      ∃ r, test_permit_key K mSettings mBuf recvKey failStops flags server keyoffset = some r)
    ∧ ∀ r, test_permit_key K mSettings mBuf recvKey failStops flags server keyoffset = some r →
        (r.rc = true ↔
           hasFlag flags K.HEADER_KEYCHECK = true
           ∧ K.MIN_PERMITKEY_LEN ≤ permitKey_length mBuf keyoffset
           ∧ permitKey_length mBuf keyoffset ≤ K.MAX_PERMITKEY_LEN
           ∧ permitKey_length mBuf keyoffset = (strlen mSettings.mPermitKey : Int)
           ∧ (permitKey_value (if !server.isUDP then recvKey.buf else mBuf) keyoffset).take
                 (permitKey_length mBuf keyoffset).toNat
               = mSettings.mPermitKey.take (permitKey_length mBuf keyoffset).toNat)
        ∧ r.server.mKeyCheck = r.rc
        ∧ (r.mBuf = mBuf ∨ r.mBuf = (if !server.isUDP then recvKey.buf else mBuf))
        ∧ (r.rc = true → r.mBuf = (if !server.isUDP then recvKey.buf else mBuf)) := by
  generalize hL : permitKey_length mBuf keyoffset = L
  unfold test_permit_key
  simp only [hL]
  by_cases hflag : hasFlag flags K.HEADER_KEYCHECK = true
  swap
  · rw [if_pos (by simp [hflag])]
    refine ⟨fun _ => ⟨_, rfl⟩, ?_⟩
    intro r hr
    cases hr
    simp [hflag]
  rw [if_neg (by simp [hflag])]
  by_cases hb : L < K.MIN_PERMITKEY_LEN ∨ L > K.MAX_PERMITKEY_LEN
  · rw [if_pos hb]
    refine ⟨fun _ => ⟨_, rfl⟩, ?_⟩
    intro r hr
    cases hr
    refine ⟨⟨fun h => absurd h (by simp), ?_⟩, rfl, Or.inl rfl, fun h => absurd h (by simp)⟩
    rintro ⟨_, h1, h2, _⟩
    omega
  rw [if_neg hb]
  by_cases hlen : L = (strlen server.mPermitKey : Int)
  swap
  · rw [if_pos hlen]
    refine ⟨fun _ => ⟨_, rfl⟩, ?_⟩
    intro r hr
    cases hr
    refine ⟨⟨fun h => absurd h (by simp), ?_⟩, rfl, Or.inl rfl, fun h => absurd h (by simp)⟩
    rintro ⟨_, _, _, h, _⟩
    rw [← hcopy] at h
    exact absurd h hlen
  rw [if_neg (by simp [hlen])]
  have hlen' : L = (strlen mSettings.mPermitKey : Int) := by rw [← hcopy]; exact hlen
  have hb1 : K.MIN_PERMITKEY_LEN ≤ L := by omega
  have hb2 : L ≤ K.MAX_PERMITKEY_LEN := by omega
  have hnm : L.toNat ≤ (K.MAX_PERMITKEY_LEN + 1).toNat := by omega
  have hk : L.toNat ≤ strlen mSettings.mPermitKey := by omega
  by_cases hstop : (!server.isUDP && decide (recvKey.n < keyoffset + L) && failStops) = true
  · rw [if_pos hstop]
    refine ⟨?_, ?_⟩
    · simp only [Bool.and_eq_true, Bool.not_eq_true', decide_eq_true_eq] at hstop
      rintro (h | h | h)
      · rw [h] at hstop; exact absurd hstop.2 (by simp)
      · rw [h] at hstop; exact absurd hstop.1.1 (by simp)
      · omega
    · intro r hr
      cases hr
  rw [if_neg hstop]
  have hcmp := fun v => strncmp_strncpy_eq_zero_iff L.toNat v mSettings.mPermitKey _ hnm hk
  by_cases hc : strncmp (strncpy (permitKey_value (if (!server.isUDP) = true then recvKey.buf
      else mBuf) keyoffset) (K.MAX_PERMITKEY_LEN + 1).toNat) mSettings.mPermitKey L.toNat = 0
  · rw [if_neg (by simpa using hc)]
    refine ⟨fun _ => ⟨_, rfl⟩, ?_⟩
    intro r hr
    cases hr
    exact ⟨⟨fun _ => ⟨hflag, hb1, hb2, hlen', (hcmp _).1 hc⟩, fun _ => rfl⟩, rfl, Or.inr rfl,
      fun _ => rfl⟩
  · rw [if_pos (by simpa using hc)]
    refine ⟨fun _ => ⟨_, rfl⟩, ?_⟩
    intro r hr
    cases hr
    refine ⟨⟨fun h => absurd h (by simp), ?_⟩, rfl, Or.inr rfl, fun h => absurd h (by simp)⟩
    rintro ⟨_, _, _, _, h4⟩
    exact (hc ((hcmp _).2 h4)).elim

/-- Claim C2: `test_permit_key` (entered, as in the handshake, with the server settings
holding a copy of the listener's key) returns unless a failed key read ends the thread,
and it returns true if and only if the KEYCHECK flag is set, the received key length
lies in `[MIN_PERMITKEY_LEN, MAX_PERMITKEY_LEN]`, the received length equals the length
of the listener's key, and the first `keylen` bytes of the received key equal the
listener's key; in every case `server->mKeyCheck` is left equal to the returned value.
The received length is the length field of the buffer the function is entered with, the
received key bytes are those delivered by the second peek of a stream flow (`recvKey`)
and those of the datagram for a datagram flow; the buffer left behind after a comparison
is that input, unchanged. -/
theorem C2_test_permit_key_iff (K : WireConsts) (mSettings : thread_Settings)
    (mBuf : ListenerBuf) (recvKey : RecvResult) (failStops : Bool) (flags : Nat)
    (server : thread_Settings) (keyoffset : Int)
    (hcopy : server.mPermitKey = mSettings.mPermitKey) :
    ((failStops = false ∨ server.isUDP = true
        ∨ keyoffset + permitKey_length mBuf keyoffset ≤ recvKey.n) →
      ∃ r, test_permit_key K mSettings mBuf recvKey failStops flags server keyoffset = some r)
    ∧ ∀ r, test_permit_key K mSettings mBuf recvKey failStops flags server keyoffset = some r →
        (r.rc = true ↔
           hasFlag flags K.HEADER_KEYCHECK = true
           ∧ K.MIN_PERMITKEY_LEN ≤ permitKey_length mBuf keyoffset
           ∧ permitKey_length mBuf keyoffset ≤ K.MAX_PERMITKEY_LEN
           ∧ permitKey_length mBuf keyoffset = (strlen mSettings.mPermitKey : Int)
           ∧ (permitKey_value (if !server.isUDP then recvKey.buf else mBuf) keyoffset).take
                 (permitKey_length mBuf keyoffset).toNat
               = mSettings.mPermitKey.take (permitKey_length mBuf keyoffset).toNat)
        ∧ r.server.mKeyCheck = r.rc
        ∧ (r.mBuf = mBuf ∨ r.mBuf = (if !server.isUDP then recvKey.buf else mBuf))
        ∧ (r.rc = true → r.mBuf = (if !server.isUDP then recvKey.buf else mBuf)) :=
  test_permit_key_spec K mSettings mBuf recvKey failStops flags server keyoffset hcopy

/-- Witness of C2: for the listener key "abcd" the hypothesis holds and the function
returns; it returns true for the sample message carrying KEYCHECK and the key "abcd" and
false for the message carrying the key "zzzz". -/
theorem C2_test_permit_key_iff_witness :
    sampleKeyListener.mPermitKey = sampleKeyListener.mPermitKey
    ∧ (∃ r, test_permit_key sampleConsts sampleKeyListener sampleKeyMessage
             { n := 14, buf := sampleKeyMessage } false sampleKeyMessage.flags
             sampleKeyListener 10 = some r)
    ∧ (test_permit_key sampleConsts sampleKeyListener sampleKeyMessage
         { n := 14, buf := sampleKeyMessage } false sampleKeyMessage.flags
         sampleKeyListener 10).map (fun r => (r.rc, r.server.mKeyCheck)) = some (true, true)
    ∧ (test_permit_key sampleConsts sampleKeyListener sampleWrongKeyMessage
         { n := 14, buf := sampleWrongKeyMessage } false sampleWrongKeyMessage.flags
         sampleKeyListener 10).map (fun r => (r.rc, r.server.mKeyCheck)) = some (false, false) :=
  ⟨rfl, (C2_test_permit_key_iff sampleConsts sampleKeyListener sampleKeyMessage
      { n := 14, buf := sampleKeyMessage } false sampleKeyMessage.flags sampleKeyListener 10
      rfl).1 (Or.inl rfl), by decide, by decide⟩

/-! ## C1: the handshake and the permit key -/

/-- On the stream path with a positive header length the key is checked: for a listener
configured with a permit key, a stream first message is accepted only if it carries the
KEYCHECK flag, the key length field of the header that was read equals the length of the
listener's key, and the key bytes delivered by the key peek equal the listener's key. -/
theorem apply_client_settings_stream_key_checked (K : WireConsts)
    (mSettings : thread_Settings) (mBuf : ListenerBuf) (e : HandshakeEnv)
    (server : thread_Settings) (hkey : mSettings.isPermitKey = true)
    (hcopy : server.mPermitKey = mSettings.mPermitKey) (htcp : server.isUDP = false)
    (hpeek : 0 < K.Settings_ClientHdrPeekLen e.recvFlags.buf.flags) :
    ∀ r, apply_client_settings K mSettings mBuf e server = some r → r.rc = true →
      hasFlag e.recvFlags.buf.flags K.HEADER_KEYCHECK = true
      ∧ permitKey_length e.recvHdr.buf (K.Settings_ClientHdrPeekLen e.recvFlags.buf.flags)
          = (strlen mSettings.mPermitKey : Int)
      ∧ (permitKey_value e.recvKey.buf
            (K.Settings_ClientHdrPeekLen e.recvFlags.buf.flags)).take
            (strlen mSettings.mPermitKey)
          = mSettings.mPermitKey.take (strlen mSettings.mPermitKey)
      ∧ r.mBuf = e.recvKey.buf := by
  intro r hr hrc
  unfold apply_client_settings at hr
  dsimp only at hr
  rw [if_neg (by simp [htcp])] at hr
  unfold apply_client_settings_tcp at hr
  dsimp only at hr
  split at hr
  · cases hr; simp at hrc
  split at hr
  · cases hr; simp at hrc
  rw [if_pos (by simp [hkey])] at hr
  try rw [if_pos hpeek] at hr
  split at hr
  · cases hr
  try rw [if_pos hkey] at hr
  split at hr
  · cases hr
  · rename_i k hk
    split at hr
    · cases hr; simp at hrc
    · rename_i hkrc
      cases hr
      dsimp only
      have hspec := (fun h => (test_permit_key_spec K mSettings e.recvHdr.buf e.recvKey
        e.failStops e.recvFlags.buf.flags _ _ h).2 k hk) hcopy
      have hk1 : k.rc = true := by simpa using hkrc
      obtain ⟨h1, _, _, h4, h5⟩ := hspec.1.1 hk1
      have h6 := hspec.2.2.2 hk1
      simp only [htcp, Bool.not_false, if_true] at h5 h6
      refine ⟨h1, h4, ?_, h6⟩
      rw [h4] at h5
      simpa using h5

/-- Every first datagram passes the handshake of a datagram flow, whatever the permit key
configuration of the listener. -/
theorem apply_client_settings_datagram_accepts (K : WireConsts) (mSettings : thread_Settings)
    (mBuf : ListenerBuf) (e : HandshakeEnv) (server : thread_Settings)
    (hudp : server.isUDP = true) :
    ∃ r, apply_client_settings K mSettings mBuf e server = some r ∧ r.rc = true := by
  unfold apply_client_settings
  dsimp only
  rw [if_pos hudp]
  exact ⟨_, rfl, rfl⟩

/-- Claim C1 at a datagram listener configured with the permit key "abcd": the handshake
accepts a first datagram that carries neither the KEYCHECK flag nor a key, and it accepts
a first datagram that carries the KEYCHECK flag with the key "zzzz"; a stream listener
with the same key rejects the message with the key "zzzz". -/
theorem C1_datagram_accepted_without_key :
    sampleKeyListenerUDP.isPermitKey = true
    ∧ sampleKeyListenerUDP.isUDP = true
    ∧ hasFlag ({} : ListenerBuf).flags sampleConsts.HEADER_KEYCHECK = false
    ∧ Option.map HandshakeResult.rc
        (apply_client_settings sampleConsts sampleKeyListenerUDP {} {} sampleKeyListenerUDP)
        = some true
    ∧ hasFlag sampleWrongKeyMessage.flags sampleConsts.HEADER_KEYCHECK = true
    ∧ (permitKey_value sampleWrongKeyMessage 10).take 4 ≠ sampleKey.take 4
    ∧ Option.map HandshakeResult.rc
        (apply_client_settings sampleConsts sampleKeyListenerUDP sampleWrongKeyMessage {}
          sampleKeyListenerUDP) = some true
    ∧ Option.map HandshakeResult.rc
        (apply_client_settings sampleConsts sampleKeyListener {} sampleWrongKeyHandshake
          sampleKeyListener) = some false := by
  decide

/-! ## C3: the datagram soft accept -/

/-- Characterisation of `udp_accept` in terms of what the function obtains from its
environment: the conditional insert is made exactly when `recvfrom` did not fail and no
interrupt is pending, and the hand-off takes place exactly when the insert was made and
returned a positive group id. -/
theorem udp_accept_spec (e : AcceptEnv) (l : Listener) (server : thread_Settings)
    (hvalid : 0 < l.ListenSocket) :
    (e.failStops = false → ∃ r, udp_accept e l server = some r)
    ∧ ∀ r, udp_accept e l server = some r →
        r.inserted = (if 0 ≤ e.recvfromRc ∧ e.sInterupted = false then some e.gid else none)
        ∧ r.listener.events
            = l.events ++ (if 0 ≤ e.recvfromRc ∧ e.sInterupted = false then
                             [ListenerEvent.push_host_port_conditional e.peer e.gid]
                           else [])
        ∧ (0 < r.sock ↔ (0 ≤ e.recvfromRc ∧ e.sInterupted = false ∧ 0 < e.gid))
        ∧ ((0 ≤ e.recvfromRc ∧ e.sInterupted = false ∧ 0 < e.gid) →
            r.sock = l.ListenSocket ∧ r.server.mSock = l.ListenSocket
            ∧ r.listener.ListenSocket = INVALID_SOCKET)
        ∧ (¬ (0 ≤ e.recvfromRc ∧ e.sInterupted = false ∧ 0 < e.gid) →
            r.sock = INVALID_SOCKET ∧ r.server.mSock = INVALID_SOCKET
            ∧ r.listener.ListenSocket = l.ListenSocket) := by
  unfold udp_accept
  dsimp only
  constructor
  · intro hf
    simp only [hf, Bool.and_false, Bool.false_eq_true, if_false]
    split
    · split <;> exact ⟨_, rfl⟩
    · exact ⟨_, rfl⟩
  · intro r hr
    split at hr
    · cases hr
    split at hr
    · rename_i hmade
      have hm : 0 ≤ e.recvfromRc ∧ e.sInterupted = false := by
        simp only [Bool.and_eq_true, Bool.not_eq_true', decide_eq_false_iff_not, not_lt] at hmade
        exact hmade
      split at hr
      · rename_i hg
        split at hr
        · cases hr
        · cases hr
          dsimp only
          refine ⟨by rw [if_pos hm], by rw [if_pos hm], ⟨fun _ => ⟨hm.1, hm.2, hg⟩, fun _ => hvalid⟩,
            fun _ => ⟨rfl, rfl, rfl⟩, fun h => absurd ⟨hm.1, hm.2, hg⟩ h⟩
      · rename_i hg
        cases hr
        dsimp only
        refine ⟨by rw [if_pos hm], by rw [if_pos hm], ⟨?_, fun h => absurd h.2.2 hg⟩,
          fun h => absurd h.2.2 hg, fun _ => ⟨rfl, rfl, rfl⟩⟩
        intro h; simp [INVALID_SOCKET] at h
    · rename_i hmade
      have hm : ¬ (0 ≤ e.recvfromRc ∧ e.sInterupted = false) := by
        simp only [Bool.and_eq_true, Bool.not_eq_true', decide_eq_false_iff_not, not_lt] at hmade
        exact hmade
      cases hr
      dsimp only
      refine ⟨by rw [if_neg hm], by rw [if_neg hm]; simp, ⟨?_, fun h => absurd ⟨h.1, h.2.1⟩ hm⟩,
        fun h => absurd ⟨h.1, h.2.1⟩ hm, fun _ => ⟨rfl, rfl, rfl⟩⟩
      intro h; simp [INVALID_SOCKET] at h

/-- When the conditional insert does not report a new flow, `udp_accept` returns
`INVALID_SOCKET`. -/
theorem udp_accept_duplicate (e : AcceptEnv) (l : Listener) (server : thread_Settings)
    (hg : ¬ 0 < e.gid) :
    ∀ r, udp_accept e l server = some r → r.sock = INVALID_SOCKET := by
  intro r hr
  unfold udp_accept at hr
  dsimp only at hr
  split at hr
  · cases hr
  split at hr
  · cases hr
    rfl
  · cases hr
    rfl

theorem my_accept_duplicate (e : AcceptEnv) (l : Listener) (server : thread_Settings)
    (hudp : server.isUDP = true) (hg : ¬ 0 < e.gid) :
    ∀ a, my_accept e l server = some a → ¬ 0 < a.sock := by
  intro a ha
  unfold my_accept at ha
  dsimp only at ha
  rw [if_pos hudp] at ha
  split at ha
  · cases ha
  · rename_i r hr
    split at hr
    · cases hr
    · rename_i r0 hr0
      cases hr
      have h0 := udp_accept_duplicate e l _ hg r0 hr0
      dsimp only at ha
      rw [h0] at ha
      rw [if_neg (by simp [INVALID_SOCKET])] at ha
      cases ha
      simp [INVALID_SOCKET]

/-- An iteration of the accept loop of a datagram listener in which the conditional
insert does not report a new flow never starts a server thread. -/
theorem Run_body_duplicate_datagram (K : WireConsts) (e : RunEnv) (s : RunState)
    (hudp : s.listener.mSettings.isUDP = true) (hg : ¬ 0 < e.accept.gid) :
    (Run_body K e s).2 ≠ RunStep.serverStarted := by
  unfold Run_body
  dsimp only
  split
  · simp
  split
  · simp
  split
  · split <;> simp
  split
  · simp
  · rename_i a ha
    have hsock := my_accept_duplicate e.accept _ _ (by exact hudp) hg a ha
    unfold Run_after_accept
    dsimp only
    rw [if_pos (by simp [hsock])]
    simp

/-- Claim C3: `udp_accept` (entered with a valid listening socket, as its assertion
demands) returns unless a `FAIL_errno` ends the thread. The conditional flow-table insert
is made exactly when `recvfrom` did not fail and no interrupt is pending, and the
function returns a valid socket if and only if that insert was made and reported a new
flow (a positive group id); in that case the returned socket and `server->mSock` are the
previous listening socket and `ListenSocket` has become `INVALID_SOCKET`; in every other
case, in particular when the insert reports a duplicate, the function returns
`INVALID_SOCKET` and leaves `ListenSocket` unchanged, and the iteration of the accept
loop of a datagram listener whose insert reports no new flow does not start a server
thread. -/
theorem C3_udp_accept_handoff (e : AcceptEnv) (l : Listener) (server : thread_Settings)
    (hvalid : 0 < l.ListenSocket) :
    (e.failStops = false → ∃ r, udp_accept e l server = some r)
    ∧ (∀ r, udp_accept e l server = some r →
        r.inserted = (if 0 ≤ e.recvfromRc ∧ e.sInterupted = false then some e.gid else none)
        ∧ r.listener.events
            = l.events ++ (if 0 ≤ e.recvfromRc ∧ e.sInterupted = false then
                             [ListenerEvent.push_host_port_conditional e.peer e.gid]
                           else [])
        ∧ (0 < r.sock ↔ (0 ≤ e.recvfromRc ∧ e.sInterupted = false ∧ 0 < e.gid))
        ∧ ((0 ≤ e.recvfromRc ∧ e.sInterupted = false ∧ 0 < e.gid) →
            r.sock = l.ListenSocket ∧ r.server.mSock = l.ListenSocket
            ∧ r.listener.ListenSocket = INVALID_SOCKET)
        ∧ (¬ (0 ≤ e.recvfromRc ∧ e.sInterupted = false ∧ 0 < e.gid) →
            r.sock = INVALID_SOCKET ∧ r.server.mSock = INVALID_SOCKET
            ∧ r.listener.ListenSocket = l.ListenSocket))
    ∧ (∀ (K : WireConsts) (re : RunEnv) (s : RunState),
        s.listener.mSettings.isUDP = true → re.accept = e → ¬ 0 < e.gid →
        (Run_body K re s).2 ≠ RunStep.serverStarted) := by
  refine ⟨(udp_accept_spec e l server hvalid).1, (udp_accept_spec e l server hvalid).2, ?_⟩
  intro K re s hudp hre hg
  exact Run_body_duplicate_datagram K re s hudp (by rw [hre]; exact hg)

/-- Witness of C3: with listening socket 3, the first datagram of a new flow (group id 2)
is handed off: the function returns socket 3 and the listening socket becomes invalid; a
datagram of a known flow (group id -1) yields `INVALID_SOCKET` and leaves the listening
socket in place. -/
theorem C3_udp_accept_handoff_witness :
    (0 : Int) < 3
    ∧ (∃ r, udp_accept { gid := 2 } { ListenSocket := 3 } { isUDP := true } = some r)
    ∧ Option.map (fun r : AcceptResult => (r.sock, r.server.mSock, r.listener.ListenSocket))
        (udp_accept { gid := 2 } { ListenSocket := 3 } { isUDP := true })
        = some (3, 3, INVALID_SOCKET)
    ∧ Option.map (fun r : AcceptResult => (r.sock, r.server.mSock, r.listener.ListenSocket))
        (udp_accept { gid := -1 } { ListenSocket := 3 } { isUDP := true })
        = some (INVALID_SOCKET, INVALID_SOCKET, 3) :=
  ⟨by decide,
   (C3_udp_accept_handoff { gid := 2 } { ListenSocket := 3 } { isUDP := true }
      (by decide)).1 rfl,
   by decide, by decide⟩

/-! ## C4: a rejected handshake and the thread count -/

theorem Run_after_handshake_mCount (e : RunEnv) (s : RunState) (l : Listener) (mCount : Int)
    (h : HandshakeResult) : (Run_after_handshake e s l mCount h).1.mCount = mCount := by
  unfold Run_after_handshake
  dsimp only
  split_ifs <;> rfl

theorem Run_after_accept_mCount (K : WireConsts) (e : RunEnv) (s : RunState)
    (a : AcceptResult) :
    (Run_after_accept K e s a).1.mCount = (if s.mCount > 0 then s.mCount - 1 else s.mCount)
    ∨ (Run_after_accept K e s a).2 = RunStep.acceptFailed := by
  unfold Run_after_accept
  dsimp only
  generalize (if s.mCount > 0 then s.mCount - 1 else s.mCount) = m
  by_cases h1 : (!decide (a.sock > 0)) = true
  · rw [if_pos h1]; right; rfl
  · rw [if_neg h1]; left
    by_cases h2 : Run_peer_not_allowed a.listener.mSettings a.server = true
    · rw [if_pos h2]
    · rw [if_neg h2]
      split
      · rfl
      · exact Run_after_handshake_mCount _ _ _ _ _

/-- The effect of an iteration of the accept loop on `mCount`: unless the iteration ends
before or in the accept, a positive count is decremented. -/
theorem Run_body_mCount (K : WireConsts) (e : RunEnv) (s : RunState) :
    (Run_body K e s).1.mCount = (if s.mCount > 0 then s.mCount - 1 else s.mCount)
    ∨ (Run_body K e s).2 = RunStep.timerExpired
    ∨ (Run_body K e s).2 = RunStep.singleClientDelay
    ∨ (Run_body K e s).2 = RunStep.selectTimeout
    ∨ (Run_body K e s).2 = RunStep.compatNoConnect
    ∨ (Run_body K e s).2 = RunStep.threadStopped
    ∨ (Run_body K e s).2 = RunStep.acceptFailed := by
  unfold Run_body
  dsimp only
  generalize hm : (if s.mCount > 0 then s.mCount - 1 else s.mCount) = m
  split
  · right; left; rfl
  split
  · right; right; left; rfl
  split
  · split
    · right; right; right; right; left; rfl
    · right; right; right; left; rfl
  split
  · right; right; right; right; right; left; rfl
  · rename_i a _
    rcases Run_after_accept_mCount K e s a with h | h
    · left; rw [h, hm]
    · right; right; right; right; right; right; exact h

/-- C4, as amended: when an iteration of the accept loop ends with a flow rejected at
handshake, a positive `-P` count has been decremented for the accepted flow all the
same; hence for a listener without a count (`mCount = -1`) or with more than one accept
left the loop condition is still true after the rejection provided no interrupt
occurred, whereas with exactly one accept left (`-P 1`) the loop condition is false
after the rejection. In both cases the loop goes on by evaluating its condition on the
state left by the rejection. -/
theorem C4_rejection_then_loop_condition (K : WireConsts) (e : RunEnv) (s : RunState)
    (hcond : Run_cond e.sInterupted s = true)
    (hstep : (Run_body K e s).2 = RunStep.handshakeRejected) :
    (Run_body K e s).1.mCount = (if s.mCount > 0 then s.mCount - 1 else s.mCount)
    ∧ (s.mCount ≠ 1 → Run_cond false (Run_body K e s).1 = true)
    ∧ (s.mCount = 1 → ∀ sInterupted, Run_cond sInterupted (Run_body K e s).1 = false)
    ∧ ∀ es, Run_loop K (e :: es) s =
        ((Run_loop K es (Run_body K e s).1).1,
         RunStep.handshakeRejected :: (Run_loop K es (Run_body K e s).1).2.1,
         (Run_loop K es (Run_body K e s).1).2.2) := by
  have hm : (Run_body K e s).1.mCount = (if s.mCount > 0 then s.mCount - 1 else s.mCount) := by
    rcases Run_body_mCount K e s with h | h | h | h | h | h | h
    · exact h
    all_goals (rw [hstep] at h; cases h)
  have h0 : s.mCount ≠ 0 := by
    simp only [Run_cond, Bool.and_eq_true, decide_eq_true_eq] at hcond
    exact hcond.2
  refine ⟨hm, ?_, ?_, ?_⟩
  · intro h1
    simp only [Run_cond, hm, Bool.not_false, Bool.true_and, decide_eq_true_eq]
    split <;> omega
  · intro h1 sI
    simp only [Run_cond, hm, h1]
    simp
  · intro es
    rw [Run_loop, if_pos hcond]
    rcases hb : Run_body K e s with ⟨s1, step⟩
    rw [hb] at hstep
    dsimp only at hstep ⊢
    subst hstep
    rfl

/-- Witness of the amended C4: a listener with two accepts left whose accepted flow
presents the wrong key. -/
theorem C4_rejection_then_loop_condition_witness :
    Run_cond sampleKeyedAccept.sInterupted
        { listener := sampleOneShotListener, mCount := 2, mMode_Time := false } = true
    ∧ (Run_body sampleConsts sampleKeyedAccept
        { listener := sampleOneShotListener, mCount := 2, mMode_Time := false }).2
        = RunStep.handshakeRejected
    ∧ Run_cond false (Run_body sampleConsts sampleKeyedAccept
        { listener := sampleOneShotListener, mCount := 2, mMode_Time := false }).1 = true :=
  ⟨by decide, by decide,
   (C4_rejection_then_loop_condition sampleConsts sampleKeyedAccept
      { listener := sampleOneShotListener, mCount := 2, mMode_Time := false }
      (by decide) (by decide)).2.1 (by decide)⟩

/-- Counterexample to C4 as stated: a listener started with `-P 1` accepts a stream flow
whose first message carries the wrong permit key; the handshake rejects the flow, and
although neither an interrupt nor a timeout occurred the loop condition is then false:
the loop ends without looking at the second connection. -/
theorem C4_counterexample_one_shot_listener_stops :
    (Run_init sampleOneShotListener).mCount = 1
    ∧ sampleKeyedAccept.sInterupted = false
    ∧ (Run_loop sampleConsts [sampleKeyedAccept, sampleKeyedAccept]
        (Run_init sampleOneShotListener)).2
        = ([RunStep.handshakeRejected], LoopExit.conditionFalse) := by
  decide

/-! ## C5: the peer check of a client-initiated listener -/

/-- The test of the exception cases for a client-initiated listener whose peer passes
the IPv6 check: the flow is turned away exactly when the host addresses are equal. -/
theorem Run_peer_not_allowed_clientListener (mSettings server : thread_Settings)
    (hcl : mSettings.clientListener = true)
    (hv6 : (!mSettings.isIPV6 && SockAddr_isIPv6 server.peer) = false) :
    Run_peer_not_allowed mSettings server = true ↔
      (mSettings.peer.isIPv6 = server.peer.isIPv6 ∧ mSettings.peer.host = server.peer.host) := by
  simp [Run_peer_not_allowed, SockAddr_Hostare_Equal, hcl, hv6]

/-- C5 (evaluation of the code): the listener that a client started for the expected
peer 10.0.0.1 starts a server thread for a connection from 10.0.0.2 and turns away the
connection from 10.0.0.1 (entry removed, socket closed, settings destroyed). -/
theorem C5_client_listener_turns_away_expected_peer :
    (Run_body sampleConsts (sampleAcceptFrom [10, 0, 0, 2]) (Run_init sampleClientListener)).2
        = RunStep.serverStarted
    ∧ (Run_body sampleConsts (sampleAcceptFrom [10, 0, 0, 1]) (Run_init sampleClientListener)).2
        = RunStep.peerNotAllowed
    ∧ (Run_body sampleConsts (sampleAcceptFrom [10, 0, 0, 1])
        (Run_init sampleClientListener)).1.listener.events
        = [ListenerEvent.push_host { host := [10, 0, 0, 1], port := 40000 },
           ListenerEvent.remove_host { host := [10, 0, 0, 1], port := 40000 },
           ListenerEvent.close 5, ListenerEvent.Settings_Destroy] := by
  decide

/-! ## C7: the ids sent during the datagram teardown -/

theorem neg_ids_range_succ (n : Int) (m : Nat) :
    (-n) :: (List.range m).map (fun k : Nat => -(n + 1 + (k : Int)))
      = (List.range (m + 1)).map (fun k : Nat => -(n + (k : Int))) := by
  rw [List.range_succ_eq_map, List.map_cons, List.map_map]
  congr 1
  · simp
  · apply List.map_congr_left
    intro k _
    simp only [Function.comp, Nat.succ_eq_add_one]
    push_cast
    ring

theorem AwaitServerFinPacket_loop_ids (sizeofAck : Int) (ev : Nat → FinEvent) :
    ∀ (fuel i : Nat) (c : Client),
      0 ≤ c.reportstruct.packetID → c.reportstruct.packetID + fuel < (2 : Int) ^ 63 →
      ∃ m, m ≤ fuel ∧
        (AwaitServerFinPacket_loop sizeofAck ev fuel i c).client.wire.map (fun d => readPacketID d.1)
          = c.wire.map (fun d => readPacketID d.1)
            ++ (List.range m).map (fun k : Nat => -(c.reportstruct.packetID + 1 + (k : Int))) := by
  intro fuel
  induction fuel with
  | zero =>
    intro i c _ _
    exact ⟨0, le_refl _, by simp [AwaitServerFinPacket_loop]⟩
  | succ fuel ih =>
    intro i c h0 hmax
    rw [AwaitServerFinPacket_loop]
    dsimp only
    split
    · exact ⟨0, Nat.zero_le _, by simp⟩
    split
    · obtain ⟨m, hm, hw⟩ := ih (i + 1)
        { c with reportstruct := { c.reportstruct with packetID := c.reportstruct.packetID + 1 },
                 mBuf_UDP := WritePacketID (-(c.reportstruct.packetID + 1)) c.mBuf_UDP,
                 wire := c.wire ++ [(WritePacketID (-(c.reportstruct.packetID + 1)) c.mBuf_UDP,
                                     (ev i).writeRc)] }
        (by dsimp only; omega) (by dsimp only; push_cast at hmax ⊢; omega)
      refine ⟨m + 1, by omega, ?_⟩
      dsimp only at hw
      rw [hw, List.map_append, List.append_assoc, List.map_cons, List.map_nil,
        List.singleton_append,
        readPacketID_WritePacketID _ _ (by push_cast at hmax; omega) (by omega),
        neg_ids_range_succ]
    · have hrest : ∀ c1 : Client, c1.wire = c.wire →
          c1.reportstruct.packetID = c.reportstruct.packetID →
          ∃ m, m ≤ fuel + 1 ∧
            (AwaitServerFinPacket_loop sizeofAck ev fuel (i + 1) c1).client.wire.map
                (fun d => readPacketID d.1)
              = c.wire.map (fun d => readPacketID d.1)
                ++ (List.range m).map (fun k : Nat => -(c.reportstruct.packetID + 1 + (k : Int))) := by
        intro c1 hw1 hp1
        obtain ⟨m, hm, hw⟩ := ih (i + 1) c1 (by rw [hp1]; exact h0)
          (by rw [hp1]; push_cast at hmax ⊢; omega)
        exact ⟨m, by omega, by rw [hw, hw1, hp1]⟩
      split
      · exact hrest _ rfl rfl
      split
      · exact ⟨0, Nat.zero_le _, by simp⟩
      · exact hrest _ rfl rfl

theorem send_final_datagram_wire (e : FinishEnv) (c : Client) :
    (send_final_datagram e c).wire
      = c.wire ++ [({ WritePacketID (-c.reportstruct.packetID) c.mBuf_UDP with
                        tv_sec := htonl (toU32 e.now.toTimeval.tv_sec),
                        tv_usec := htonl (toU32 e.now.toTimeval.tv_usec) }, e.writeRc)] := by
  unfold send_final_datagram myReportPacket
  dsimp only
  split_ifs <;> rfl

theorem send_final_datagram_packetID (e : FinishEnv) (c : Client) :
    (send_final_datagram e c).reportstruct.packetID = c.reportstruct.packetID := by
  unfold send_final_datagram myReportPacket
  dsimp only
  split_ifs <;> rfl

theorem send_final_datagram_ids (e : FinishEnv) (c : Client)
    (hlo : -(2 : Int) ^ 63 ≤ -c.reportstruct.packetID)
    (hhi : -c.reportstruct.packetID < (2 : Int) ^ 63) :
    (send_final_datagram e c).wire.map (fun d => readPacketID d.1)
      = c.wire.map (fun d => readPacketID d.1) ++ [-c.reportstruct.packetID] := by
  rw [send_final_datagram_wire, List.map_append, List.map_cons, List.map_nil]
  congr 2
  exact readPacketID_WritePacketID _ c.mBuf_UDP hlo hhi

theorem neg_ids_negative (n : Int) (hn : 1 ≤ n) (m : Nat) :
    ∀ x ∈ (List.range m).map (fun k : Nat => -(n + (k : Int))), x < 0 := by
  intro x hx
  obtain ⟨k, _, rfl⟩ := List.mem_map.1 hx
  omega

theorem neg_ids_chain (n : Int) (m : Nat) :
    List.Chain' (fun a b : Int => b = a - 1)
      ((List.range (m + 1)).map (fun k : Nat => -(n + (k : Int)))) := by
  rw [List.chain'_map, List.chain'_range_succ]
  intro k _
  push_cast
  ring

theorem neg_ids_nodup (n : Int) (m : Nat) :
    ((List.range m).map (fun k : Nat => -(n + (k : Int)))).Nodup := by
  apply List.Nodup.map _ (List.nodup_range m)
  intro a b hab
  simp only at hab
  omega

/-- The ids written during the teardown of a datagram flow, in closed form. -/
theorem FinishTrafficActions_ids (e : FinishEnv) (c : Client) (n : Int)
    (hudp : c.mSettings.isUDP = true) (hid : c.reportstruct.packetID = n) (hn : 1 ≤ n)
    (hmax : n + (RETRYCOUNT : Int) < (2 : Int) ^ 63) :
    ∃ m, m ≤ RETRYCOUNT ∧
      sentIds c.wire.length (FinishTrafficActions e c).client
        = (List.range (m + 1)).map (fun k : Nat => -(n + (k : Int))) := by
  have hR : (RETRYCOUNT : Int) = 200 := by decide
  have hfin := send_final_datagram_ids e c (by rw [hid]; omega) (by rw [hid]; omega)
  unfold FinishTrafficActions sentIds
  rw [if_neg (by simp [hudp])]
  dsimp only
  split
  · obtain ⟨m, hm, hw⟩ := AwaitServerFinPacket_loop_ids e.sizeofAck e.fin RETRYCOUNT 0
      (send_final_datagram e c)
      (by rw [send_final_datagram_packetID, hid]; omega)
      (by rw [send_final_datagram_packetID, hid]; exact hmax)
    refine ⟨m, hm, ?_⟩
    unfold AwaitServerFinPacket
    rw [List.map_drop, hw, hfin, send_final_datagram_packetID, hid, List.append_assoc,
      List.singleton_append, neg_ids_range_succ]
    have hlen : c.wire.length = (c.wire.map (fun d => readPacketID d.1)).length := by simp
    rw [hlen, List.drop_left]
  · refine ⟨0, Nat.zero_le _, ?_⟩
    dsimp only
    rw [List.map_drop, hfin, hid]
    have hlen : c.wire.length = (c.wire.map (fun d => readPacketID d.1)).length := by simp
    rw [hlen, List.drop_left]
    simp [List.range_succ]

/-- C7: for a datagram flow whose next sequence number is `n ≥ 1` (`n` and the at most
`RETRYCOUNT` following ids being signed 64-bit values), the ids written during teardown
are `-n` for the terminating datagram of `FinishTrafficActions` and `-(n + k)` for the
`k`-th retransmission of `AwaitServerFinPacket`; hence every id sent during teardown is
negative, each is exactly one less than the previous, and none repeats. -/
theorem C7_teardown_ids_decrease (e : FinishEnv) (c : Client) (n : Int)
    (hudp : c.mSettings.isUDP = true) (hid : c.reportstruct.packetID = n) (hn : 1 ≤ n)
    (hmax : n + (RETRYCOUNT : Int) < (2 : Int) ^ 63) :
    (∃ m, m ≤ RETRYCOUNT ∧
      sentIds c.wire.length (FinishTrafficActions e c).client
        = (List.range (m + 1)).map (fun k : Nat => -(n + (k : Int))))
    ∧ (∀ x ∈ sentIds c.wire.length (FinishTrafficActions e c).client, x < 0)
    ∧ List.Chain' (fun a b : Int => b = a - 1)
        (sentIds c.wire.length (FinishTrafficActions e c).client)
    ∧ (sentIds c.wire.length (FinishTrafficActions e c).client).Nodup := by
  obtain ⟨m, hm, hw⟩ := FinishTrafficActions_ids e c n hudp hid hn hmax
  refine ⟨⟨m, hm, hw⟩, ?_, ?_, ?_⟩
  · rw [hw]; exact neg_ids_negative n hn (m + 1)
  · rw [hw]; exact neg_ids_chain n m
  · rw [hw]; exact neg_ids_nodup n (m + 1)

/-- Witness of C7: a datagram flow whose next sequence number is 7 and whose FIN
handshake times out twice before the server's report arrives sends the ids -7, -8, -9. -/
theorem C7_teardown_ids_decrease_witness :
    (1 : Int) ≤ 7
    ∧ (7 : Int) + (RETRYCOUNT : Int) < (2 : Int) ^ 63
    ∧ List.Chain' (fun a b : Int => b = a - 1)
        (sentIds 0 (FinishTrafficActions
          { writeRc := 1470, fin := fun i => if i < 2 then {} else { selectRc := 1, readRc := 100 } }
          { mSettings := { isUDP := true }, reportstruct := { packetID := 7 } }).client)
    ∧ sentIds 0 (FinishTrafficActions
          { writeRc := 1470, fin := fun i => if i < 2 then {} else { selectRc := 1, readRc := 100 } }
          { mSettings := { isUDP := true }, reportstruct := { packetID := 7 } }).client
        = [-7, -8, -9] :=
  ⟨by decide, by decide,
   (C7_teardown_ids_decrease
      { writeRc := 1470, fin := fun i => if i < 2 then {} else { selectRc := 1, readRc := 100 } }
      { mSettings := { isUDP := true }, reportstruct := { packetID := 7 } } 7 rfl rfl
      (by decide) (by decide)).2.2.1,
   by decide⟩

/-! ## C9: bytes written in mode-amount -/

theorem toU64_of_nonneg (w : Int) (h0 : 0 ≤ w) (h1 : w < (2 : Int) ^ 63) :
    toU64 w = w.toNat := by
  unfold toU64
  have e : ((2 : Int) ^ 64) = 18446744073709551616 := by norm_num
  have e3 : ((2 : Int) ^ 63) = 9223372036854775808 := by norm_num
  rw [e3] at h1
  rw [e]
  omega

theorem toU32_of_nonneg (x : Int) (h0 : 0 ≤ x) (h1 : x < (2 : Int) ^ 31) :
    toU32 x = x.toNat := by
  unfold toU32
  have e : ((2 : Int) ^ 32) = 4294967296 := by norm_num
  have e3 : ((2 : Int) ^ 31) = 2147483648 := by norm_num
  rw [e3] at h1
  rw [e]
  omega

theorem wireBytes_append_one (w : List (UDP_datagram × Int)) (d : UDP_datagram) (n : Int)
    (hn : 0 ≤ n) : wireBytes (w ++ [(d, n)]) = wireBytes w + n := by
  simp [wireBytes, max_eq_left hn]

/-- One iteration of `RunUDP` in mode-amount with a well-behaved write: the bytes
written are taken off the remaining amount. -/
theorem RunUDP_body_amount (e : UdpIterEnv) (c : Client) (L : Int)
    (hmode : c.mSettings.isModeTime = false) (hL : c.mSettings.mBufLen = L)
    (hL1 : 1 ≤ L) (hL2 : L < (2 : Int) ^ 31) (hA : 0 < c.mSettings.mAmount)
    (hw : ∀ len, 1 ≤ len → 1 ≤ e.write len ∧ e.write len ≤ len) :
    ∃ w : Nat, 1 ≤ w ∧ w ≤ c.mSettings.mAmount ∧ (w : Int) ≤ L
      ∧ (RunUDP_body e c).1.mSettings = { c.mSettings with mAmount := c.mSettings.mAmount - w }
      ∧ wireBytes (RunUDP_body e c).1.wire = wireBytes c.wire + w
      ∧ (RunUDP_body e c).2 = none := by
  have e31 : ((2 : Int) ^ 31) = 2147483648 := by norm_num
  have e63 : ((2 : Int) ^ 63) = 9223372036854775808 := by norm_num
  rw [e31] at hL2
  have hLu : toU32 L = L.toNat := toU32_of_nonneg L (by omega) (by rw [e31]; exact hL2)
  obtain ⟨len, hlen, hlen1, hlen2, hlen3⟩ : ∃ len : Int,
      len = (if c.mSettings.mAmount < toU32 c.mSettings.mBufLen then (c.mSettings.mAmount : Int)
             else c.mSettings.mBufLen) ∧ 1 ≤ len ∧ len ≤ L ∧ len ≤ c.mSettings.mAmount := by
    refine ⟨_, rfl, ?_, ?_, ?_⟩ <;> rw [hL, hLu] <;> split <;> omega
  obtain ⟨hw1, hw2⟩ := hw len hlen1
  refine ⟨(e.write len).toNat, by omega, by omega, by omega, ?_, ?_, ?_⟩
  all_goals
    unfold RunUDP_body
    simp only [isModeAmount, hmode, Bool.not_false, if_true, ← hlen]
    rw [if_neg (by omega)]
  · simp only [myReportPacket, consumeAmount]
    rw [toU64_of_nonneg _ (by omega) (by rw [e63]; omega), if_pos (by omega), hmode]
  · simp only [myReportPacket]
    rw [wireBytes_append_one _ _ _ (by omega)]
    omega

theorem InProgress_amount_pos (sInterupted canRead : Bool) (c : Client)
    (hfile : c.mSettings.isFileInput = false) (hmode : c.mSettings.isModeTime = false)
    (h : InProgress sInterupted canRead c = true) : 0 < c.mSettings.mAmount := by
  by_contra hA
  have h0 : c.mSettings.mAmount = 0 := by omega
  simp [InProgress, hfile, hmode, isModeAmount, h0] at h

/-- In mode-amount the bytes written by `RunUDP` plus the remaining amount stay equal to
the initial amount as long as every write returns between 1 and the requested length. -/
theorem RunUDP_loop_amount (L : Int) (hL1 : 1 ≤ L) (hL2 : L < (2 : Int) ^ 31) (T : Int) :
    ∀ (envs : List UdpIterEnv) (c : Client),
      c.mSettings.isModeTime = false → c.mSettings.isFileInput = false →
      c.mSettings.mBufLen = L →
      (∀ e ∈ envs, ∀ len, 1 ≤ len → 1 ≤ e.write len ∧ e.write len ≤ len) →
      wireBytes c.wire + c.mSettings.mAmount = T →
      wireBytes (RunUDP_loop envs c).1.wire + (RunUDP_loop envs c).1.mSettings.mAmount = T := by
  intro envs
  induction envs with
  | nil => intro c _ _ _ _ h; exact h
  | cons e es ih =>
    intro c hmode hfile hL hw hT
    rw [RunUDP_loop]
    split
    · rename_i hprog
      have hA := InProgress_amount_pos _ _ c hfile hmode hprog
      obtain ⟨w, hw1, hw2, _, hs, hb, hx⟩ := RunUDP_body_amount e c L hmode hL hL1 hL2 hA
        (hw e (List.mem_cons_self _ _))
      rcases hbody : RunUDP_body e c with ⟨c1, x⟩
      rw [hbody] at hs hb hx
      dsimp only at hs hb hx ⊢
      subst hx
      dsimp only
      apply ih c1
      · rw [hs]; exact hmode
      · rw [hs]; exact hfile
      · rw [hs]; exact hL
      · intro e' he'; exact hw e' (List.mem_cons_of_mem _ he')
      · rw [hb, hs]
        dsimp only
        rw [← hT]
        push_cast [Nat.cast_sub hw2]
        ring
    · exact hT

theorem consumeAmount_eq (st : thread_Settings) (w : Int) :
    consumeAmount st w = { st with mAmount := st.mAmount - toU64 w } := by
  unfold consumeAmount
  split
  · rfl
  · have h0 : st.mAmount - toU64 w = 0 := by omega
    rw [h0]

theorem RunTCP_account_amount (e : TcpIterEnv) (s : TcpLoop) (w : Int)
    (hlen : s.client.reportstruct.packetLen = w) (hw : 1 ≤ w)
    (hmode : s.client.mSettings.isModeTime = false) :
    (RunTCP_account e s).1.client.sizeofTcpBurstPayload = s.client.sizeofTcpBurstPayload
    ∧ (RunTCP_account e s).1.client.totLen = s.client.totLen + w
    ∧ (RunTCP_account e s).1.client.mSettings = consumeAmount s.client.mSettings w := by
  unfold RunTCP_account
  dsimp only
  rw [if_neg (by rw [hlen]; omega)]
  simp only [isModeAmount, hmode, Bool.not_false, if_true, hlen]
  unfold myReportPacket
  split_ifs <;> exact ⟨rfl, rfl, rfl⟩

theorem TcpAmountStep_of_account (e : TcpIterEnv) (s : TcpLoop) (c : Client) (L len : Int)
    (hs : s.client.mSettings = c.mSettings) (ht : s.client.totLen = c.totLen)
    (hz : s.client.sizeofTcpBurstPayload = c.sizeofTcpBurstPayload)
    (hlen : s.client.reportstruct.packetLen = e.write len)
    (hl1 : 1 ≤ len) (hl2 : len ≤ L) (hL2 : L < (2 : Int) ^ 31)
    (hmode : c.mSettings.isModeTime = false)
    (hw : ∀ len, 1 ≤ len → 1 ≤ e.write len ∧ e.write len ≤ len) :
    TcpAmountStep L c (RunTCP_account e s).1.client := by
  obtain ⟨hw1, hw2⟩ := hw len hl1
  obtain ⟨h1, h2, h3⟩ := RunTCP_account_amount e s (e.write len) hlen hw1 (by rw [hs]; exact hmode)
  have e31 : ((2 : Int) ^ 31) = 2147483648 := by norm_num
  have e63 : ((2 : Int) ^ 63) = 9223372036854775808 := by norm_num
  rw [e31] at hL2
  refine ⟨by rw [h1, hz], Or.inr ⟨(e.write len).toNat, by omega, by omega, ?_, ?_⟩⟩
  · rw [h2, ht]; omega
  · rw [h3, hs, consumeAmount_eq, toU64_of_nonneg _ (by omega) (by rw [e63]; omega)]

theorem RunTCP_write_burst_amount (e : TcpIterEnv) (c : Client) (br burst_id L : Int)
    (hmode : c.mSettings.isModeTime = false) (hL : c.mSettings.mBufLen = L)
    (hL1 : 1 ≤ L) (hL2 : L < (2 : Int) ^ 31) (hbr : 1 ≤ br)
    (hw : ∀ len, 1 ≤ len → 1 ≤ e.write len ∧ e.write len ≤ len) :
    TcpAmountStep L c (RunTCP_write_burst e c br burst_id).1.client := by
  have hwl : 1 ≤ (if c.mSettings.mBufLen > br then br else c.mSettings.mBufLen)
      ∧ (if c.mSettings.mBufLen > br then br else c.mSettings.mBufLen) ≤ L := by
    rw [hL]; split <;> omega
  unfold RunTCP_write_burst
  dsimp only
  generalize (if c.mSettings.mBufLen > br then br else c.mSettings.mBufLen) = wl at hwl ⊢
  split
  · exact ⟨rfl, Or.inl ⟨rfl, rfl⟩⟩
  · exact TcpAmountStep_of_account e _ c L wl rfl rfl rfl rfl hwl.1 hwl.2 hL2 hmode hw

theorem RunTCP_body_amount (e : TcpIterEnv) (s : TcpLoop) (L : Int)
    (hmode : s.client.mSettings.isModeTime = false) (hL : s.client.mSettings.mBufLen = L)
    (hL1 : 1 ≤ L) (hL2 : L < (2 : Int) ^ 31) (hA : 0 < s.client.mSettings.mAmount)
    (hz : 1 ≤ s.client.sizeofTcpBurstPayload)
    (hw : ∀ len, 1 ≤ len → 1 ≤ e.write len ∧ e.write len ≤ len) :
    TcpAmountStep L s.client (RunTCP_body e s).1.client := by
  have e31 : ((2 : Int) ^ 31) = 2147483648 := by norm_num
  have hLu : toU32 L = L.toNat := toU32_of_nonneg L (by omega) hL2
  unfold RunTCP_body
  dsimp only
  split
  · have hbr : ∀ br0 : Int, 1 ≤ (if br0 < s.client.sizeofTcpBurstPayload
        then s.client.sizeofTcpBurstPayload else br0) := by
      intro br0; split <;> omega
    split
    · split
      · split
        · exact ⟨rfl, Or.inl ⟨rfl, rfl⟩⟩
        · exact RunTCP_write_burst_amount e (PostNullEvent e.nowNull _) _ _ L hmode hL hL1 hL2
            (hbr _) hw
      · exact RunTCP_write_burst_amount e s.client _ _ L hmode hL hL1 hL2 (hbr _) hw
    · exact RunTCP_write_burst_amount e s.client _ _ L hmode hL hL1 hL2 (hbr _) hw
  · rename_i hb
    have hwl : 1 ≤ (if s.client.isburst = true then
          if s.client.mSettings.mBufLen > s.burst_remaining then s.burst_remaining
          else s.client.mSettings.mBufLen
        else
          if isModeAmount s.client.mSettings = true then
            if s.client.mSettings.mAmount < toU32 s.client.mSettings.mBufLen then
              toS32 s.client.mSettings.mAmount
            else s.client.mSettings.mBufLen
          else s.writelen)
        ∧ (if s.client.isburst = true then
          if s.client.mSettings.mBufLen > s.burst_remaining then s.burst_remaining
          else s.client.mSettings.mBufLen
        else
          if isModeAmount s.client.mSettings = true then
            if s.client.mSettings.mAmount < toU32 s.client.mSettings.mBufLen then
              toS32 s.client.mSettings.mAmount
            else s.client.mSettings.mBufLen
          else s.writelen) ≤ L := by
      rw [hL, hLu]
      by_cases hburst : s.client.isburst = true
      · have hpos : 0 < s.burst_remaining := by
          simp only [hburst, Bool.true_and, Bool.not_eq_true', decide_eq_false_iff_not,
            not_not] at hb
          exact hb
        rw [if_pos hburst]
        split <;> omega
      · rw [if_neg hburst, if_pos (by simp [isModeAmount, hmode])]
        rw [e31] at hL2
        split
        · rename_i hlt
          have hs : toS32 s.client.mSettings.mAmount = (s.client.mSettings.mAmount : Int) := by
            unfold toS32
            have e32 : ((2 : Int) ^ 32) = 4294967296 := by norm_num
            rw [e32]
            norm_num
            split <;> omega
          rw [hs]
          omega
        · omega
    generalize (if s.client.isburst = true then
          if s.client.mSettings.mBufLen > s.burst_remaining then s.burst_remaining
          else s.client.mSettings.mBufLen
        else
          if isModeAmount s.client.mSettings = true then
            if s.client.mSettings.mAmount < toU32 s.client.mSettings.mBufLen then
              toS32 s.client.mSettings.mAmount
            else s.client.mSettings.mBufLen
          else s.writelen) = wl at hwl ⊢
    exact TcpAmountStep_of_account e _ s.client L wl rfl rfl rfl rfl hwl.1 hwl.2 hL2 hmode hw

/-- The loop invariant of `RunTCP` in mode-amount. -/
theorem RunTCP_loop_amount (A : Nat) (L : Int) (hL1 : 1 ≤ L) (hL2 : L < (2 : Int) ^ 31)
    (T0 : Int) :
    ∀ (envs : List TcpIterEnv) (s : TcpLoop),
      s.client.mSettings.isModeTime = false → s.client.mSettings.isFileInput = false →
      s.client.mSettings.mBufLen = L → 1 ≤ s.client.sizeofTcpBurstPayload →
      (∀ e ∈ envs, ∀ len, 1 ≤ len → 1 ≤ e.write len ∧ e.write len ≤ len) →
      ((0 < s.client.mSettings.mAmount ∧ s.client.totLen - T0 + s.client.mSettings.mAmount = A)
        ∨ (s.client.mSettings.mAmount = 0 ∧ (A : Int) ≤ s.client.totLen - T0
            ∧ s.client.totLen - T0 ≤ A + L - 1)) →
      ((0 < (RunTCP_loop envs s).1.client.mSettings.mAmount
          ∧ (RunTCP_loop envs s).1.client.totLen - T0
              + (RunTCP_loop envs s).1.client.mSettings.mAmount = A)
        ∨ ((RunTCP_loop envs s).1.client.mSettings.mAmount = 0
            ∧ (A : Int) ≤ (RunTCP_loop envs s).1.client.totLen - T0
            ∧ (RunTCP_loop envs s).1.client.totLen - T0 ≤ A + L - 1)) := by
  intro envs
  induction envs with
  | nil => intro s _ _ _ _ _ h; exact h
  | cons e es ih =>
    intro s hmode hfile hL hz hw hinv
    rw [RunTCP_loop]
    split
    · rename_i hprog
      have hA := InProgress_amount_pos _ _ s.client hfile hmode hprog
      have hstep := RunTCP_body_amount e s L hmode hL hL1 hL2 hA hz (hw e (List.mem_cons_self _ _))
      rcases hbody : RunTCP_body e s with ⟨s1, x⟩
      rw [hbody] at hstep
      dsimp only at hstep
      obtain ⟨hz1, hcase⟩ := hstep
      have hsum : s.client.totLen - T0 + s.client.mSettings.mAmount = A := by
        rcases hinv with h | h
        · exact h.2
        · omega
      have hm1 : s1.client.mSettings.isModeTime = false := by
        rcases hcase with h | ⟨w, _, _, _, h⟩ <;> (try rw [h.1]) <;> (try rw [h]) <;> exact hmode
      have hf1 : s1.client.mSettings.isFileInput = false := by
        rcases hcase with h | ⟨w, _, _, _, h⟩ <;> (try rw [h.1]) <;> (try rw [h]) <;> exact hfile
      have hL1' : s1.client.mSettings.mBufLen = L := by
        rcases hcase with h | ⟨w, _, _, _, h⟩ <;> (try rw [h.1]) <;> (try rw [h]) <;> exact hL
      have hinv1 : (0 < s1.client.mSettings.mAmount
            ∧ s1.client.totLen - T0 + s1.client.mSettings.mAmount = A)
          ∨ (s1.client.mSettings.mAmount = 0 ∧ (A : Int) ≤ s1.client.totLen - T0
              ∧ s1.client.totLen - T0 ≤ A + L - 1) := by
        rcases hcase with h | ⟨w, hw1, hw2, ht, h⟩
        · rw [h.1, h.2]; exact Or.inl ⟨hA, hsum⟩
        · rw [h, ht]
          dsimp only
          by_cases hlt : w < s.client.mSettings.mAmount
          · left
            refine ⟨by omega, ?_⟩
            push_cast [Nat.cast_sub (le_of_lt hlt)]
            omega
          · right
            refine ⟨by omega, ?_, ?_⟩ <;> omega
      cases x with
      | none =>
        dsimp only
        exact ih s1 hm1 hf1 hL1' (by rw [hz1]; exact hz)
          (fun e' he' => hw e' (List.mem_cons_of_mem _ he')) hinv1
      | some x => exact hinv1
    · exact hinv

/-- C9: for `RunTCP` and `RunUDP` in mode-amount with initial amount `A > 0` and buffer
length `L ≥ 1`: if every write returns between 1 and the requested length and the
remaining amount is 0 when the loop is left, then the total number of bytes written by
the loop is at least `A` and at most `A + L − 1`. (`L` is an `int`, the size of the
burst header is positive, and without file input the loop ends on the amount.) -/
theorem C9_mode_amount_bytes_written (A : Nat) (L : Int) (hA : 0 < A) (hL1 : 1 ≤ L)
    (hL2 : L < (2 : Int) ^ 31) :
    (∀ (now : Timestamp) (envs : List TcpIterEnv) (c : Client),
      c.mSettings.isModeTime = false → c.mSettings.isFileInput = false →
      c.mSettings.mAmount = A → c.mSettings.mBufLen = L → 1 ≤ c.sizeofTcpBurstPayload →
      (∀ e ∈ envs, ∀ len, 1 ≤ len → 1 ≤ e.write len ∧ e.write len ≤ len) →
      (RunTCP now envs c).1.client.mSettings.mAmount = 0 →
      (A : Int) ≤ (RunTCP now envs c).1.client.totLen - c.totLen
      ∧ (RunTCP now envs c).1.client.totLen - c.totLen ≤ A + L - 1)
    ∧ (∀ (envs : List UdpIterEnv) (c : Client),
      c.mSettings.isModeTime = false → c.mSettings.isFileInput = false →
      c.mSettings.mAmount = A → c.mSettings.mBufLen = L →
      (∀ e ∈ envs, ∀ len, 1 ≤ len → 1 ≤ e.write len ∧ e.write len ≤ len) →
      (RunUDP_loop envs c).1.mSettings.mAmount = 0 →
      (A : Int) ≤ wireBytes (RunUDP_loop envs c).1.wire - wireBytes c.wire
      ∧ wireBytes (RunUDP_loop envs c).1.wire - wireBytes c.wire ≤ A + L - 1) := by
  constructor
  · intro now envs c hmode hfile hAm hL hz hw hend
    have h := RunTCP_loop_amount A L hL1 hL2 c.totLen envs
      { client := { c with reportstruct := { c.reportstruct with packetTime := now.toTimeval } },
        burst_remaining := 0, burst_id := 1, writelen := c.mSettings.mBufLen }
      hmode hfile hL hz hw (Or.inl ⟨by dsimp only; omega, by dsimp only; omega⟩)
    unfold RunTCP at hend ⊢
    rcases h with h | h
    · omega
    · exact h.2
  · intro envs c hmode hfile hAm hL hw hend
    have h := RunUDP_loop_amount L hL1 hL2 (wireBytes c.wire + A) envs c hmode hfile hL hw
      (by rw [hAm])
    rw [hend] at h
    constructor <;> omega

/-- Witness of C9: amount 10 and buffer length 4, every write complete: `RunTCP` and
`RunUDP` write 4 + 4 + 2 = 10 bytes. -/
theorem C9_mode_amount_bytes_written_witness :
    (0 : Nat) < 10 ∧ (1 : Int) ≤ 4 ∧ (4 : Int) < (2 : Int) ^ 31
    ∧ ((10 : Nat) : Int) ≤ (RunTCP {} (List.replicate 4 {})
          { mSettings := { isModeTime := false, mAmount := 10, mBufLen := 4 } }).1.client.totLen
          - (0 : Int)
    ∧ (RunTCP {} (List.replicate 4 {})
          { mSettings := { isModeTime := false, mAmount := 10, mBufLen := 4 } }).1.client.totLen
        = 10
    ∧ wireBytes (RunUDP_loop (List.replicate 4 {})
          { mSettings := { isUDP := true, isModeTime := false, mAmount := 10, mBufLen := 4 } }).1.wire
        = 10 :=
  ⟨by decide, by decide, by decide,
   ((C9_mode_amount_bytes_written 10 4 (by decide) (by decide) (by decide)).1 {}
      (List.replicate 4 {})
      { mSettings := { isModeTime := false, mAmount := 10, mBufLen := 4 } }
      rfl rfl rfl rfl (by decide)
      (fun e he len hlen => by
        rw [List.eq_of_mem_replicate he]
        exact ⟨hlen, le_refl _⟩)
      (by decide)).1,
   by decide, by decide⟩

/-! ## C8: packet ids of consecutive records -/

theorem recordIds_cons (r : ReportStruct) (l : List ReportStruct) :
    recordIds (r :: l) = if r.emptyreport = true then recordIds l else r.packetID :: recordIds l := by
  unfold recordIds nonEmptyRecords
  cases h : r.emptyreport <;> simp [List.filter_cons, h]

theorem ids_range_succ (p : Int) (k : Nat) :
    p :: (List.range k).map (fun i : Nat => p + 1 + (i : Int))
      = (List.range (k + 1)).map (fun i : Nat => p + (i : Int)) := by
  rw [List.range_succ_eq_map, List.map_cons, List.map_map]
  congr 1
  · simp
  · apply List.map_congr_left
    intro i _
    simp only [Function.comp, Nat.succ_eq_add_one]
    push_cast
    ring

/-- What a datagram write iteration does to the ring and the packet id: a fatal error
leaves the ring alone, a failed write adds an empty record and keeps the id, any other
write adds a non-empty record carrying the id and advances the id by one. -/
theorem RunUDP_body_ring (e : UdpIterEnv) (c : Client) :
    ((RunUDP_body e c).2 ≠ none ∧ (RunUDP_body e c).1.ring = c.ring)
    ∨ ((RunUDP_body e c).2 = none
        ∧ ∃ r, (RunUDP_body e c).1.ring = c.ring ++ [r]
          ∧ ((r.emptyreport = true
                ∧ (RunUDP_body e c).1.reportstruct.packetID = c.reportstruct.packetID)
             ∨ (r.emptyreport = false ∧ r.packetID = c.reportstruct.packetID
                ∧ (RunUDP_body e c).1.reportstruct.packetID = c.reportstruct.packetID + 1))) := by
  unfold RunUDP_body myReportPacket
  dsimp only
  split_ifs
  all_goals first
    | exact Or.inl ⟨by simp, rfl⟩
    | exact Or.inr ⟨rfl, _, rfl, Or.inl ⟨rfl, by simp⟩⟩
    | exact Or.inr ⟨rfl, _, rfl, Or.inr ⟨rfl, rfl, rfl⟩⟩

/-- The ids of the non-empty records reported by the loop of `RunUDP` are consecutive
integers starting at the packet id the loop was entered with. -/
theorem RunUDP_loop_ring : ∀ (envs : List UdpIterEnv) (c : Client),
    ∃ (new : List ReportStruct) (k : Nat),
      (RunUDP_loop envs c).1.ring = c.ring ++ new
      ∧ recordIds new = (List.range k).map (fun i : Nat => c.reportstruct.packetID + (i : Int)) := by
  intro envs
  induction envs with
  | nil => intro c; exact ⟨[], 0, by simp [RunUDP_loop], rfl⟩
  | cons e es ih =>
    intro c
    rw [RunUDP_loop]
    split
    · rcases RunUDP_body_ring e c with ⟨hx, hr⟩ | ⟨hx, r, hr, hcase⟩
      · rcases hbody : RunUDP_body e c with ⟨c1, x⟩
        rw [hbody] at hx hr
        dsimp only at hx hr ⊢
        cases x with
        | none => exact absurd rfl hx
        | some x => exact ⟨[], 0, by simp [hr], rfl⟩
      · rcases hbody : RunUDP_body e c with ⟨c1, x⟩
        rw [hbody] at hx hr hcase
        dsimp only at hx hr hcase ⊢
        subst hx
        dsimp only
        obtain ⟨new1, k1, hring, hids⟩ := ih c1
        refine ⟨r :: new1, if r.emptyreport = true then k1 else k1 + 1, ?_, ?_⟩
        · rw [hring, hr, List.append_assoc, List.singleton_append]
        · rw [recordIds_cons, hids]
          rcases hcase with ⟨hre, hp⟩ | ⟨hre, hrp, hp⟩
          · rw [if_pos hre, if_pos hre, hp]
          · rw [if_neg (by simp [hre]), if_neg (by simp [hre]), hp, hrp, ids_range_succ]
    · exact ⟨[], 0, by simp, rfl⟩

theorem RunUDPIsochronous_inner_body_ring (e : UdpIterEnv) (s : IsochLoop) :
    ∃ r, (RunUDPIsochronous_inner_body e s).client.ring = s.client.ring ++ [r]
      ∧ ((r.emptyreport = true
            ∧ (RunUDPIsochronous_inner_body e s).client.reportstruct.packetID
                = s.client.reportstruct.packetID)
         ∨ (r.emptyreport = false ∧ r.packetID = s.client.reportstruct.packetID
            ∧ (RunUDPIsochronous_inner_body e s).client.reportstruct.packetID
                = s.client.reportstruct.packetID + 1)) := by
  unfold RunUDPIsochronous_inner_body myReportPacket
  dsimp only
  split_ifs
  all_goals first
    | exact ⟨_, rfl, Or.inl ⟨rfl, by simp⟩⟩
    | exact ⟨_, rfl, Or.inr ⟨rfl, rfl, rfl⟩⟩

theorem RunUDPIsochronous_inner_ring : ∀ (envs : List UdpIterEnv) (s : IsochLoop),
    ∃ (new : List ReportStruct) (k : Nat),
      (RunUDPIsochronous_inner envs s).1.client.ring = s.client.ring ++ new
      ∧ recordIds new
          = (List.range k).map (fun i : Nat => s.client.reportstruct.packetID + (i : Int))
      ∧ (RunUDPIsochronous_inner envs s).1.client.reportstruct.packetID
          = s.client.reportstruct.packetID + (k : Int) := by
  intro envs
  induction envs with
  | nil => intro s; exact ⟨[], 0, by simp [RunUDPIsochronous_inner], rfl, by simp [RunUDPIsochronous_inner]⟩
  | cons e es ih =>
    intro s
    rw [RunUDPIsochronous_inner]
    split
    · obtain ⟨r, hr, hcase⟩ := RunUDPIsochronous_inner_body_ring e s
      obtain ⟨new1, k1, hring, hids, hpid⟩ := ih (RunUDPIsochronous_inner_body e s)
      refine ⟨r :: new1, if r.emptyreport = true then k1 else k1 + 1, ?_, ?_, ?_⟩
      · rw [hring, hr, List.append_assoc, List.singleton_append]
      · rw [recordIds_cons, hids]
        rcases hcase with ⟨hre, hp⟩ | ⟨hre, hrp, hp⟩
        · rw [if_pos hre, if_pos hre, hp]
        · rw [if_neg (by simp [hre]), if_neg (by simp [hre]), hp, hrp, ids_range_succ]
      · rw [hpid]
        rcases hcase with ⟨hre, hp⟩ | ⟨hre, hrp, hp⟩
        · rw [if_pos hre, hp]
        · rw [if_neg (by simp [hre]), hp]; push_cast; ring
    · exact ⟨[], 0, by simp, rfl, by simp⟩

theorem recordIds_append (l1 l2 : List ReportStruct) :
    recordIds (l1 ++ l2) = recordIds l1 ++ recordIds l2 := by
  simp [recordIds, nonEmptyRecords, List.filter_append]

theorem ids_range_add (p : Int) (k1 k2 : Nat) :
    (List.range k1).map (fun i : Nat => p + (i : Int))
        ++ (List.range k2).map (fun i : Nat => p + (k1 : Int) + (i : Int))
      = (List.range (k1 + k2)).map (fun i : Nat => p + (i : Int)) := by
  rw [List.range_add, List.map_append, List.map_map]
  congr 1
  apply List.map_congr_left
  intro i _
  simp only [Function.comp]
  push_cast
  ring

theorem RunUDPIsochronous_loop_ring : ∀ (frames : List IsochFrameEnv) (s : IsochLoop),
    ∃ (new : List ReportStruct) (k : Nat),
      (RunUDPIsochronous_loop frames s).1.client.ring = s.client.ring ++ new
      ∧ recordIds new
          = (List.range k).map (fun i : Nat => s.client.reportstruct.packetID + (i : Int)) := by
  intro frames
  induction frames with
  | nil => intro s; exact ⟨[], 0, by simp [RunUDPIsochronous_loop], rfl⟩
  | cons f fs ih =>
    intro s
    rw [RunUDPIsochronous_loop]
    split
    · dsimp only
      obtain ⟨new1, k1, hring1, hids1, hpid1⟩ := RunUDPIsochronous_inner_ring f.packets
        { s with client := { s.client with reportstruct :=
                   { s.client.reportstruct with burstsize :=
                       if f.bytecnt < s.client.udp_payload_minimum then s.client.udp_payload_minimum
                       else f.bytecnt } },
                 bytecnt := if f.bytecnt < s.client.udp_payload_minimum
                            then s.client.udp_payload_minimum else f.bytecnt,
                 frameid := f.wait_tick }
      dsimp only at hring1 hids1 hpid1
      rcases hinner : RunUDPIsochronous_inner f.packets
        { s with client := { s.client with reportstruct :=
                   { s.client.reportstruct with burstsize :=
                       if f.bytecnt < s.client.udp_payload_minimum then s.client.udp_payload_minimum
                       else f.bytecnt } },
                 bytecnt := if f.bytecnt < s.client.udp_payload_minimum
                            then s.client.udp_payload_minimum else f.bytecnt,
                 frameid := f.wait_tick } with ⟨s1, out⟩
      rw [hinner] at hring1 hpid1
      dsimp only at hring1 hpid1
      cases out with
      | false =>
        dsimp only
        obtain ⟨new2, k2, hring2, hids2⟩ := ih s1
        refine ⟨new1 ++ new2, k1 + k2, ?_, ?_⟩
        · rw [hring2, hring1, List.append_assoc]
        · rw [recordIds_append, hids1, hids2, hpid1, ids_range_add]
      | true =>
        dsimp only
        exact ⟨new1, k1, hring1, hids1⟩
    · exact ⟨[], 0, by simp, rfl⟩

theorem ids_chain (p : Int) (k : Nat) :
    List.Chain' (fun a b : Int => b = a + 1)
      ((List.range k).map (fun i : Nat => p + (i : Int))) := by
  cases k with
  | zero => simp
  | succ k =>
    rw [List.chain'_map, List.chain'_range_succ]
    intro i _
    push_cast
    ring

theorem adjacent_of_chain_filter {α : Type} (R : α → α → Prop) (q : α → Bool)
    (l l1 l2 : List α) (a b : α) (h : List.Chain' R (l.filter q))
    (hl : l = l1 ++ a :: b :: l2) (ha : q a = true) (hb : q b = true) : R a b := by
  subst hl
  rw [List.filter_append, List.filter_cons_of_pos ha, List.filter_cons_of_pos hb] at h
  exact (List.chain'_cons.1 h.right_of_append).1

/-- From the closed form of the ids to the statement about consecutive records. -/
theorem consecutive_of_recordIds (new : List ReportStruct) (p : Int) (k : Nat)
    (hids : recordIds new = (List.range k).map (fun i : Nat => p + (i : Int))) :
    List.Chain' (fun a b : ReportStruct => b.packetID = a.packetID + 1) (nonEmptyRecords new)
    ∧ ∀ l1 a b l2, new = l1 ++ a :: b :: l2 → a.emptyreport = false → b.emptyreport = false →
        a.packetID < b.packetID := by
  have hchain : List.Chain' (fun a b : ReportStruct => b.packetID = a.packetID + 1)
      (nonEmptyRecords new) := by
    have h := ids_chain p k
    rw [← hids] at h
    unfold recordIds at h
    exact (List.chain'_map _).1 h
  refine ⟨hchain, ?_⟩
  intro l1 a b l2 hl ha hb
  have hab := adjacent_of_chain_filter _ (fun r : ReportStruct => !r.emptyreport) new l1 l2 a b
    hchain hl (by simp [ha]) (by simp [hb])
  omega

/-- C8, as amended: for the datagram transmit loops `RunUDP` and `RunUDPIsochronous`,
the non-empty records reported by the loop carry consecutive packet ids, each exactly
one greater than the previous non-empty record's; in particular, of two consecutive
records that are both not empty-report records the later has the strictly greater id.
(In the stream loops the packet id only changes when a burst header is written.) -/
theorem C8_datagram_record_ids_increase :
    (∀ (envs : List UdpIterEnv) (c : Client),
      List.Chain' (fun a b : ReportStruct => b.packetID = a.packetID + 1)
        (nonEmptyRecords ((RunUDP_loop envs c).1.ring.drop c.ring.length))
      ∧ ∀ l1 a b l2, (RunUDP_loop envs c).1.ring.drop c.ring.length = l1 ++ a :: b :: l2 →
          a.emptyreport = false → b.emptyreport = false → a.packetID < b.packetID)
    ∧ (∀ (frames : List IsochFrameEnv) (s : IsochLoop),
      List.Chain' (fun a b : ReportStruct => b.packetID = a.packetID + 1)
        (nonEmptyRecords ((RunUDPIsochronous_loop frames s).1.client.ring.drop s.client.ring.length))
      ∧ ∀ l1 a b l2,
          (RunUDPIsochronous_loop frames s).1.client.ring.drop s.client.ring.length
            = l1 ++ a :: b :: l2 →
          a.emptyreport = false → b.emptyreport = false → a.packetID < b.packetID) := by
  constructor
  · intro envs c
    obtain ⟨new, k, hring, hids⟩ := RunUDP_loop_ring envs c
    rw [hring, List.drop_left]
    exact consecutive_of_recordIds new _ k hids
  · intro frames s
    obtain ⟨new, k, hring, hids⟩ := RunUDPIsochronous_loop_ring frames s
    rw [hring, List.drop_left]
    exact consecutive_of_recordIds new _ k hids

/-- Witness of the amended C8: a datagram flow whose second write fails non-fatally
reports the ids 1, (empty), 2, 3. -/
theorem C8_datagram_record_ids_increase_witness :
    List.Chain' (fun a b : ReportStruct => b.packetID = a.packetID + 1)
      (nonEmptyRecords ((RunUDP_loop
          [{}, { write := fun _ => -1 }, {}, {}, { sInterupted := true }]
          { mSettings := { isUDP := true, mBufLen := 1470 }, mEndTime := { mSecs := 9 } }).1.ring.drop
        ({ mSettings := { isUDP := true, mBufLen := 1470 }, mEndTime := { mSecs := 9 } } : Client).ring.length))
    ∧ ((RunUDP_loop
          [{}, { write := fun _ => -1 }, {}, {}, { sInterupted := true }]
          { mSettings := { isUDP := true, mBufLen := 1470 }, mEndTime := { mSecs := 9 } }).1.ring.map
        (fun r => (r.emptyreport, r.packetID)))
        = [(false, 1), (true, 1), (false, 2), (false, 3)] :=
  ⟨(C8_datagram_record_ids_increase.1
      [{}, { write := fun _ => -1 }, {}, {}, { sInterupted := true }]
      { mSettings := { isUDP := true, mBufLen := 1470 }, mEndTime := { mSecs := 9 } }).1,
   by decide⟩

/-- Counterexample to C8 as stated: a stream flow with interval reporting (`-i 1`), no
burst mode and no rate limit, for which `Client::Run` selects `RunTCP`. The client object
is the one the constructor makes, `InitTrafficLoop` leaves `one_report` false, and
`RunTCP` makes two successful writes and reports two consecutive non-empty records that
both carry the packet id 1. When the first payload was reported before the loop (the
packet id is then 2 at the loop entry) both records carry the id 2. -/
theorem C8_counterexample_stream_ids_equal :
    (Client_Client false false sampleIntervalStream).map
        (fun c => (c.reportstruct.packetID, c.isburst)) = some (1, false)
    ∧ (Client_Client false false sampleIntervalStream).map
        (fun c => (InitTrafficLoop id { mSecs := 100 } {} c).client.one_report) = some false
    ∧ (Client_Client false false sampleIntervalStream).map
        (fun c => (RunTCP {} [{}, {}, { sInterupted := true }]
                    (InitTrafficLoop id { mSecs := 100 } {} c).client).2)
        = some LoopExit.conditionFalse
    ∧ (Client_Client false false sampleIntervalStream).map
        (fun c => (RunTCP {} [{}, {}, { sInterupted := true }]
                    (InitTrafficLoop id { mSecs := 100 } {} c).client).1.client.ring.map
                  (fun r => (r.emptyreport, r.packetLen, r.packetID)))
        = some [(false, 131072, 1), (false, 131072, 1)]
    ∧ (Client_Client false false sampleIntervalStream).map
        (fun c => (RunTCP {} [{}, {}, { sInterupted := true }]
                    (InitTrafficLoop id { mSecs := 100 } {}
                      { c with reportstruct := { c.reportstruct with packetID := 2 } }).client
                  ).1.client.ring.map
                  (fun r => (r.emptyreport, r.packetLen, r.packetID)))
        = some [(false, 131072, 2), (false, 131072, 2)] := by
  refine ⟨by decide!, by decide!, by decide!, by decide!, by decide!⟩

/-! ## C11: `InProgress` with file input -/

theorem InProgress_file_input (sInterupted canRead : Bool) (c : Client)
    (h : c.mSettings.isFileInput = true) : InProgress sInterupted canRead c = canRead := by
  unfold InProgress
  rw [if_pos h]

/-- C11 (defect of the code): with file input `InProgress` returns the answer of the
extractor and nothing else. While the extractor can still read, it returns `true`
although the interrupt flag is set, although the peer closed the connection, and although
the test time has elapsed; the claimed equivalence "false iff interrupted, or peer
closed, or time elapsed, or extractor exhausted" fails at each of these inputs. -/
theorem C11_file_input_ignores_interrupt_and_peer_close :
    InProgress true true { mSettings := { isFileInput := true } } = true
    ∧ InProgress false true { mSettings := { isFileInput := true }, peerclose := true } = true
    ∧ InProgress false true
        { mSettings := { isFileInput := true, isModeTime := true }, mEndTime := { mSecs := 10 },
          reportstruct := { packetTime := { tv_sec := 11 } } } = true
    ∧ ∀ (sInterupted canRead : Bool) (c : Client),
        InProgress sInterupted canRead
          { c with mSettings := { c.mSettings with isFileInput := true } } = canRead := by
  refine ⟨rfl, rfl, rfl, ?_⟩
  intro sInterupted canRead c
  exact InProgress_file_input _ _ _ rfl

/-! ## C18: the FIN handshake is bounded -/

theorem AwaitServerFinPacket_loop_bounds (sizeofAck : Int) (ev : Nat → FinEvent) :
    ∀ (fuel i : Nat) (c : Client),
      i ≤ (AwaitServerFinPacket_loop sizeofAck ev fuel i c).selects
      ∧ (AwaitServerFinPacket_loop sizeofAck ev fuel i c).selects ≤ i + fuel
      ∧ c.wire.length ≤ (AwaitServerFinPacket_loop sizeofAck ev fuel i c).client.wire.length
      ∧ (AwaitServerFinPacket_loop sizeofAck ev fuel i c).client.wire.length + i
          ≤ c.wire.length + (AwaitServerFinPacket_loop sizeofAck ev fuel i c).selects := by
  intro fuel
  induction fuel with
  | zero =>
    intro i c
    simp [AwaitServerFinPacket_loop]
  | succ fuel ih =>
    intro i c
    rw [AwaitServerFinPacket_loop]
    dsimp only
    split
    · dsimp only; omega
    split
    · have h := ih (i + 1)
        { c with reportstruct := { c.reportstruct with packetID := c.reportstruct.packetID + 1 },
                 mBuf_UDP := WritePacketID (-(c.reportstruct.packetID + 1)) c.mBuf_UDP,
                 wire := c.wire ++ [(WritePacketID (-(c.reportstruct.packetID + 1)) c.mBuf_UDP,
                                     (ev i).writeRc)] }
      simp only [List.length_append, List.length_singleton] at h
      omega
    · have hrest : ∀ c1 : Client, c1.wire = c.wire →
          i ≤ (AwaitServerFinPacket_loop sizeofAck ev fuel (i + 1) c1).selects
          ∧ (AwaitServerFinPacket_loop sizeofAck ev fuel (i + 1) c1).selects ≤ i + (fuel + 1)
          ∧ c.wire.length ≤ (AwaitServerFinPacket_loop sizeofAck ev fuel (i + 1) c1).client.wire.length
          ∧ (AwaitServerFinPacket_loop sizeofAck ev fuel (i + 1) c1).client.wire.length + i
              ≤ c.wire.length + (AwaitServerFinPacket_loop sizeofAck ev fuel (i + 1) c1).selects := by
        intro c1 hw
        have h := ih (i + 1) c1
        rw [hw] at h
        omega
      split
      · exact hrest _ rfl
      split
      · dsimp only; omega
      · exact hrest _ rfl

theorem AwaitServerFinPacket_loop_answer (sizeofAck : Int) (ev : Nat → FinEvent) :
    ∀ (fuel i k : Nat) (c : Client), i ≤ k → k < i + fuel →
      (∀ j, i ≤ j → j < k → (ev j).ends sizeofAck = false) →
      (ev k).answers sizeofAck = true →
      (AwaitServerFinPacket_loop sizeofAck ev fuel i c).selects = k + 1
      ∧ (AwaitServerFinPacket_loop sizeofAck ev fuel i c).ack_success = true
      ∧ (AwaitServerFinPacket_loop sizeofAck ev fuel i c).stopped = false := by
  intro fuel
  induction fuel with
  | zero => intro i k c h1 h2; omega
  | succ fuel ih =>
    intro i k c hik hk hno hans
    rw [AwaitServerFinPacket_loop]
    dsimp only
    rcases Nat.eq_or_lt_of_le hik with heq | hlt
    · subst heq
      simp only [FinEvent.answers, Bool.and_eq_true, Bool.not_eq_true', decide_eq_true_eq,
        Bool.and_eq_false_imp, decide_eq_false_iff_not] at hans
      obtain ⟨⟨⟨h1, h2⟩, h3⟩, h4⟩ := hans
      rw [if_neg (by simpa using h1), if_neg h2, if_neg (by simpa using h3), if_pos h4]
      exact ⟨rfl, rfl, rfl⟩
    · have hi := hno i (le_refl _) hlt
      have hnext : ∀ c1 : Client,
          (AwaitServerFinPacket_loop sizeofAck ev fuel (i + 1) c1).selects = k + 1
          ∧ (AwaitServerFinPacket_loop sizeofAck ev fuel (i + 1) c1).ack_success = true
          ∧ (AwaitServerFinPacket_loop sizeofAck ev fuel (i + 1) c1).stopped = false :=
        fun c1 => ih (i + 1) k c1 (by omega) (by omega)
          (fun j hj1 hj2 => hno j (by omega) hj2) hans
      by_cases h1 : (decide ((ev i).selectRc = SOCKET_ERROR) && (ev i).failStops) = true
      · simp [FinEvent.ends, h1] at hi
      rw [if_neg h1]
      by_cases h2 : (ev i).selectRc = 0
      · rw [if_pos h2]; exact hnext _
      rw [if_neg h2]
      by_cases h3 : (decide ((ev i).readRc = sizeofAck) && (ev i).readIsAck) = true
      · rw [if_pos h3]; exact hnext _
      rw [if_neg h3]
      by_cases h4 : (ev i).readRc > 0
      · simp [FinEvent.ends, FinEvent.answers, h1, h2, h3, h4] at hi
      rw [if_neg h4]; exact hnext _

theorem AwaitServerFinPacket_loop_no_answer (sizeofAck : Int) (ev : Nat → FinEvent) :
    ∀ (fuel i : Nat) (c : Client),
      (∀ j, i ≤ j → j < i + fuel → (ev j).ends sizeofAck = false) →
      (AwaitServerFinPacket_loop sizeofAck ev fuel i c).selects = i + fuel
      ∧ (AwaitServerFinPacket_loop sizeofAck ev fuel i c).ack_success = false
      ∧ (AwaitServerFinPacket_loop sizeofAck ev fuel i c).stopped = false := by
  intro fuel
  induction fuel with
  | zero => intro i c _; exact ⟨rfl, rfl, rfl⟩
  | succ fuel ih =>
    intro i c hno
    rw [AwaitServerFinPacket_loop]
    dsimp only
    have hi := hno i (le_refl _) (by omega)
    have hnext : ∀ c1 : Client,
        (AwaitServerFinPacket_loop sizeofAck ev fuel (i + 1) c1).selects = i + (fuel + 1)
        ∧ (AwaitServerFinPacket_loop sizeofAck ev fuel (i + 1) c1).ack_success = false
        ∧ (AwaitServerFinPacket_loop sizeofAck ev fuel (i + 1) c1).stopped = false := by
      intro c1
      have h := ih (i + 1) c1 (fun j hj1 hj2 => hno j (by omega) (by omega))
      refine ⟨by omega, h.2⟩
    by_cases h1 : (decide ((ev i).selectRc = SOCKET_ERROR) && (ev i).failStops) = true
    · simp [FinEvent.ends, h1] at hi
    rw [if_neg h1]
    by_cases h2 : (ev i).selectRc = 0
    · rw [if_pos h2]; exact hnext _
    rw [if_neg h2]
    by_cases h3 : (decide ((ev i).readRc = sizeofAck) && (ev i).readIsAck) = true
    · rw [if_pos h3]; exact hnext _
    rw [if_neg h3]
    by_cases h4 : (ev i).readRc > 0
    · simp [FinEvent.ends, FinEvent.answers, h1, h2, h3, h4] at hi
    rw [if_neg h4]; exact hnext _

/-- C18: `AwaitServerFinPacket` is a total function of the socket behaviour `ev` (the
loop runs on the counter `count`, which starts at `RETRYCOUNT = 2 000 000 / 10 000 = 200`
and decreases in every iteration), so it returns for every behaviour of the socket. It
makes at most 200 `select` calls; every datagram it writes is a retransmission made
after a `select` timeout, so at most 200 are written; if iteration `k` is the first in
which the socket answers (a read of positive length that is not a stale header ack), the
loop stops right there, after `k + 1` `select` calls, with the report received; and if
no iteration among the 200 ends the loop, all 200 are made and no report is received. -/
theorem C18_AwaitServerFinPacket_bounded (sizeofAck : Int) (ev : Nat → FinEvent) (c : Client) :
    RETRYCOUNT = 200
    ∧ (AwaitServerFinPacket sizeofAck ev c).selects ≤ 200
    ∧ (AwaitServerFinPacket sizeofAck ev c).client.wire.length
        ≤ c.wire.length + (AwaitServerFinPacket sizeofAck ev c).selects
    ∧ (AwaitServerFinPacket sizeofAck ev c).client.wire.length ≤ c.wire.length + 200
    ∧ (∀ k, k < 200 → (∀ j, j < k → (ev j).ends sizeofAck = false) →
        (ev k).answers sizeofAck = true →
        (AwaitServerFinPacket sizeofAck ev c).selects = k + 1
        ∧ (AwaitServerFinPacket sizeofAck ev c).ack_success = true)
    ∧ ((∀ j, j < 200 → (ev j).ends sizeofAck = false) →
        (AwaitServerFinPacket sizeofAck ev c).selects = 200
        ∧ (AwaitServerFinPacket sizeofAck ev c).ack_success = false) := by
  have hR : RETRYCOUNT = 200 := by decide
  have hb := AwaitServerFinPacket_loop_bounds sizeofAck ev RETRYCOUNT 0 c
  unfold AwaitServerFinPacket
  rw [hR] at hb ⊢
  refine ⟨rfl, by omega, by omega, by omega, ?_, ?_⟩
  · intro k hk hno hans
    have h := AwaitServerFinPacket_loop_answer sizeofAck ev 200 0 k c (Nat.zero_le _) (by omega)
      (fun j _ hj => hno j hj) hans
    exact ⟨h.1, h.2.1⟩
  · intro hno
    have h := AwaitServerFinPacket_loop_no_answer sizeofAck ev 200 0 c
      (fun j _ hj => hno j (by omega))
    exact ⟨by omega, h.2.1⟩

/-- Witness of C18: two `select` timeouts, then a stale header ack of 20 bytes, then the
server's report of 100 bytes: the loop stops after the fourth `select`. -/
theorem C18_AwaitServerFinPacket_bounded_witness :
    (AwaitServerFinPacket 20
        (fun i => if i < 2 then {} else if i = 2 then { selectRc := 1, readRc := 20, readIsAck := true }
                  else { selectRc := 1, readRc := 100 })
        { mSettings := { isUDP := true }, reportstruct := { packetID := 7 } }).selects = 3 + 1
    ∧ (AwaitServerFinPacket 20
        (fun i => if i < 2 then {} else if i = 2 then { selectRc := 1, readRc := 20, readIsAck := true }
                  else { selectRc := 1, readRc := 100 })
        { mSettings := { isUDP := true }, reportstruct := { packetID := 7 } }).ack_success = true :=
  (C18_AwaitServerFinPacket_bounded 20
      (fun i => if i < 2 then {} else if i = 2 then { selectRc := 1, readRc := 20, readIsAck := true }
                else { selectRc := 1, readRc := 100 })
      { mSettings := { isUDP := true }, reportstruct := { packetID := 7 } }).2.2.2.2.1 3 (by decide)
    (by decide) (by decide)

/-! ## C19 and C20: the header ack and the test mode of the handshake -/

theorem apply_epoch_start_keeps (K : WireConsts) (now : Timestamp) (hdr : ListenerBuf)
    (s : thread_Settings) :
    (apply_epoch_start K now hdr s).mMode = s.mMode
    ∧ (apply_epoch_start K now hdr s).isUDP = s.isUDP := by
  unfold apply_epoch_start
  dsimp only
  split <;> exact ⟨rfl, rfl⟩

theorem apply_triptime_keeps (K : WireConsts) (now : Timestamp) (s : thread_Settings) :
    (apply_triptime K now s).mMode = s.mMode
    ∧ (apply_triptime K now s).isUDP = s.isUDP := by
  unfold apply_triptime
  split <;> exact ⟨rfl, rfl⟩

set_option maxHeartbeats 1000000 in
theorem apply_extend_tcp_keeps (K : WireConsts) (e : HandshakeEnv) (flags : Nat)
    (hdr : ListenerBuf) (s : thread_Settings) :
    (apply_extend_tcp K e flags hdr s).mMode = s.mMode
    ∧ (apply_extend_tcp K e flags hdr s).isUDP = s.isUDP := by
  unfold apply_extend_tcp
  simp only [apply_ite thread_Settings.mMode, apply_ite thread_Settings.isUDP,
    (apply_epoch_start_keeps _ _ _ _).1, (apply_epoch_start_keeps _ _ _ _).2,
    (apply_triptime_keeps _ _ _).1, (apply_triptime_keeps _ _ _).2, ite_self, and_self]

theorem apply_test_mode_keeps (K : WireConsts) (flags : Nat) (s : thread_Settings) :
    (apply_test_mode K flags s).isUDP = s.isUDP := by
  unfold apply_test_mode
  simp only [apply_ite thread_Settings.isUDP, ite_self]

theorem apply_test_mode_mMode (K : WireConsts) (flags : Nat) (s : thread_Settings) :
    (apply_test_mode K flags s).mMode
      = if hasFlag flags K.HEADER_VERSION1 && !hasFlag flags K.HEADER_VERSION2 then
          (if hasFlag flags K.RUN_NOW then TestMode.kTest_DualTest else TestMode.kTest_TradeOff)
        else s.mMode := by
  unfold apply_test_mode
  simp only [apply_ite thread_Settings.mMode]

theorem apply_client_settings_udp_mMode (K : WireConsts) (e : HandshakeEnv) (mBuf : ListenerBuf)
    (s : thread_Settings) :
    (apply_client_settings_udp K e mBuf s).server.mMode
      = if hasFlag mBuf.flags K.HEADER32_SMALL_TRIPTIMES then s.mMode
        else if hasFlag mBuf.flags K.HEADER_VERSION1 && !hasFlag mBuf.flags K.HEADER_VERSION2 then
          (if hasFlag mBuf.flags K.RUN_NOW then TestMode.kTest_DualTest
           else TestMode.kTest_TradeOff)
        else s.mMode := by
  unfold apply_client_settings_udp
  simp only [apply_ite thread_Settings.mMode, (apply_epoch_start_keeps _ _ _ _).1,
    (apply_triptime_keeps _ _ _).1, apply_test_mode_mMode, ite_self]
  by_cases h1 : hasFlag mBuf.flags K.HEADER32_SMALL_TRIPTIMES = true
  · simp [h1]
  · by_cases h2 : hasFlag mBuf.flags K.HEADER_VERSION1 = true
    · simp [h1, h2]
    · simp [h1, h2]

theorem test_permit_key_keeps (K : WireConsts) (mSettings : thread_Settings) (mBuf : ListenerBuf)
    (recvKey : RecvResult) (failStops : Bool) (flags : Nat) (server : thread_Settings)
    (keyoffset : Int) :
    ∀ k, test_permit_key K mSettings mBuf recvKey failStops flags server keyoffset = some k →
      k.server.mMode = server.mMode ∧ k.server.isUDP = server.isUDP := by
  generalize hL : permitKey_length mBuf keyoffset = L
  unfold test_permit_key
  simp only [hL]
  by_cases hflag : (!hasFlag flags K.HEADER_KEYCHECK) = true
  · rw [if_pos hflag]
    intro k hk
    cases hk
    exact ⟨rfl, rfl⟩
  rw [if_neg hflag]
  by_cases hb : L < K.MIN_PERMITKEY_LEN ∨ L > K.MAX_PERMITKEY_LEN
  · rw [if_pos hb]
    intro k hk
    cases hk
    exact ⟨rfl, rfl⟩
  rw [if_neg hb]
  by_cases hlen : L ≠ (strlen server.mPermitKey : Int)
  · rw [if_pos hlen]
    intro k hk
    cases hk
    exact ⟨rfl, rfl⟩
  rw [if_neg hlen]
  by_cases hstop : (!server.isUDP && decide (recvKey.n < keyoffset + L) && failStops) = true
  · rw [if_pos hstop]
    intro k hk
    cases hk
  rw [if_neg hstop]
  by_cases hu : (!server.isUDP) = true
  · simp only [hu, if_true]
    split <;> (intro k hk; cases hk; exact ⟨rfl, rfl⟩)
  · simp only [hu, if_false, Bool.false_eq_true]
    split <;> (intro k hk; cases hk; exact ⟨rfl, rfl⟩)

theorem needs_test_ack_congr (K : WireConsts) (mSettings s1 s2 : thread_Settings) (flags : Nat)
    (h : s1.isUDP = s2.isUDP) :
    needs_test_ack K mSettings s1 flags = needs_test_ack K mSettings s2 flags := by
  unfold needs_test_ack
  rw [h]

/-- What `apply_client_settings_tcp` leaves in the test mode and when it sends the header
ack, in terms of the result it returns. -/
theorem apply_client_settings_tcp_spec (K : WireConsts) (mSettings : thread_Settings)
    (e : HandshakeEnv) (server : thread_Settings) :
    ∀ r, apply_client_settings_tcp K mSettings e server = some r →
    (r.rc = true → 0 < K.Settings_ClientHdrPeekLen e.recvFlags.buf.flags →
      r.server.mMode = (apply_test_mode K e.recvFlags.buf.flags server).mMode)
    ∧ (¬ (r.rc = true ∧ 0 < K.Settings_ClientHdrPeekLen e.recvFlags.buf.flags) →
        r.server.mMode = server.mMode)
    ∧ (r.rc = true →
        r.ackSent
          = ((hasFlag e.recvFlags.buf.flags K.HEADER_VERSION1
              || hasFlag e.recvFlags.buf.flags K.HEADER_VERSION2
              || hasFlag e.recvFlags.buf.flags K.HEADER_EXTEND || mSettings.isPermitKey)
             && needs_test_ack K mSettings server e.recvFlags.buf.flags)) := by
  unfold apply_client_settings_tcp
  simp only []
  by_cases hn0 : e.recvFlags.n = 0
  · rw [if_pos hn0]
    intro r hr
    cases hr
    simp
  rw [if_neg hn0]
  by_cases hn4 : e.recvFlags.n < 4
  · rw [if_pos hn4]
    intro r hr
    cases hr
    simp
  rw [if_neg hn4]
  by_cases hg : (hasFlag e.recvFlags.buf.flags K.HEADER_VERSION1
      || hasFlag e.recvFlags.buf.flags K.HEADER_VERSION2
      || hasFlag e.recvFlags.buf.flags K.HEADER_EXTEND || mSettings.isPermitKey) = true
  swap
  · rw [if_neg hg]
    intro r hr
    cases hr
    have hv1 : hasFlag e.recvFlags.buf.flags K.HEADER_VERSION1 = false := by
      simp only [Bool.or_eq_true, not_or, Bool.not_eq_true] at hg
      exact hg.1.1.1
    refine ⟨fun _ _ => ?_, fun _ => rfl, fun _ => ?_⟩
    · rw [apply_test_mode_mMode, hv1]; rfl
    · simp only [Bool.not_eq_true] at hg
      rw [hg]; rfl
  rw [if_pos hg, hg, Bool.true_and]
  by_cases hp : K.Settings_ClientHdrPeekLen e.recvFlags.buf.flags > 0
  swap
  · rw [if_neg hp]
    intro r hr
    cases hr
    exact ⟨fun _ h => absurd h hp, fun _ => rfl, fun _ => rfl⟩
  rw [if_pos hp]
  by_cases hf : (decide (e.recvHdr.n < K.Settings_ClientHdrPeekLen e.recvFlags.buf.flags)
      && e.failStops) = true
  · rw [if_pos hf]
    intro r hr
    cases hr
  rw [if_neg hf]
  by_cases hpk : mSettings.isPermitKey = true
  · rw [if_pos hpk]
    split
    · intro r hr
      cases hr
    · rename_i k hk
      have hkeep := test_permit_key_keeps _ _ _ _ _ _ _ _ k hk
      by_cases hrc : (!k.rc) = true
      · rw [if_pos hrc]
        intro r hr
        cases hr
        simp only [Bool.not_eq_true'] at hrc
        simp only [hrc, Bool.false_eq_true, false_and, not_false_eq_true, false_implies,
          true_implies, true_and, hkeep.1, and_self]
      · rw [if_neg hrc]
        intro r hr
        cases hr
        simp only [Bool.not_eq_true, Bool.not_eq_false'] at hrc
        refine ⟨fun _ _ => ?_, fun h => absurd ⟨rfl, hp⟩ h, fun _ => ?_⟩
        · simp only [apply_ite thread_Settings.mMode, (apply_extend_tcp_keeps _ _ _ _ _).1,
            ite_self, apply_test_mode_mMode, hkeep.1]
        · apply needs_test_ack_congr
          simp only [apply_ite thread_Settings.isUDP, (apply_extend_tcp_keeps _ _ _ _ _).2,
            ite_self, apply_test_mode_keeps, hkeep.2]
  rw [if_neg hpk]
  by_cases hkc : hasFlag e.recvFlags.buf.flags K.HEADER_KEYCHECK = true
  · rw [if_pos hkc]
    intro r hr
    cases hr
    simp
  rw [if_neg hkc]
  intro r hr
  cases hr
  refine ⟨fun _ _ => ?_, fun h => absurd ⟨rfl, hp⟩ h, fun _ => ?_⟩
  · simp only [apply_ite thread_Settings.mMode, (apply_extend_tcp_keeps _ _ _ _ _).1,
      ite_self, apply_test_mode_mMode]
  · apply needs_test_ack_congr
    simp only [apply_ite thread_Settings.isUDP, (apply_extend_tcp_keeps _ _ _ _ _).2,
      ite_self, apply_test_mode_keeps]

theorem apply_test_mode_rule (K : WireConsts) (flags : Nat) (s : thread_Settings)
    (h : s.mMode = TestMode.kTest_Normal) :
    TestModeRule K flags (apply_test_mode K flags s).mMode := by
  rw [apply_test_mode_mMode, h]
  unfold TestModeRule
  cases hasFlag flags K.HEADER_VERSION1 <;> cases hasFlag flags K.HEADER_VERSION2
    <;> cases hasFlag flags K.RUN_NOW <;> simp

/-- C19 (amended): for a stream first message accepted by `apply_client_settings_tcp` on a
non-compat listener, `client_test_ack` is called if and only if the block that handles
the client header is entered (one of VERSION1, VERSION2, EXTEND is set, or the listener
has a permit key) and the flags have EXTEND set with VERSION2 clear or have V2PEERDETECT
set. Since EXTEND alone opens the block, the ack is sent exactly when EXTEND is set with
VERSION2 clear, or V2PEERDETECT is set together with one of VERSION1, VERSION2, EXTEND
or a listener key. -/
theorem C19_header_ack_sent_iff (K : WireConsts) (mSettings : thread_Settings)
    (e : HandshakeEnv) (server : thread_Settings) (r : HandshakeResult)
    (hudp : server.isUDP = false) (hcompat : mSettings.isCompat = false)
    (hr : apply_client_settings_tcp K mSettings e server = some r) (hrc : r.rc = true) :
    r.ackSent = true ↔
      (hasFlag e.recvFlags.buf.flags K.HEADER_VERSION1 = true
        ∨ hasFlag e.recvFlags.buf.flags K.HEADER_VERSION2 = true
        ∨ hasFlag e.recvFlags.buf.flags K.HEADER_EXTEND = true
        ∨ mSettings.isPermitKey = true)
      ∧ ((hasFlag e.recvFlags.buf.flags K.HEADER_VERSION2 = false
            ∧ hasFlag e.recvFlags.buf.flags K.HEADER_EXTEND = true)
          ∨ hasFlag e.recvFlags.buf.flags K.HEADER_V2PEERDETECT = true) := by
  rw [(apply_client_settings_tcp_spec K mSettings e server r hr).2.2 hrc]
  unfold needs_test_ack
  rw [hudp, hcompat]
  simp only [Bool.not_false, Bool.true_and, Bool.and_eq_true, Bool.or_eq_true,
    Bool.not_eq_true', or_assoc]

/-- Witness of C19: a first message with only EXTEND set is accepted by a listener with
default settings and the header ack is sent. -/
theorem C19_header_ack_sent_iff_witness :
    apply_client_settings_tcp sampleConsts {} sampleExtendHandshake {}
      = some sampleExtendResult
    ∧ (sampleExtendResult.ackSent = true ↔
        (hasFlag sampleExtendHandshake.recvFlags.buf.flags sampleConsts.HEADER_VERSION1 = true
          ∨ hasFlag sampleExtendHandshake.recvFlags.buf.flags sampleConsts.HEADER_VERSION2 = true
          ∨ hasFlag sampleExtendHandshake.recvFlags.buf.flags sampleConsts.HEADER_EXTEND = true
          ∨ ({} : thread_Settings).isPermitKey = true)
        ∧ ((hasFlag sampleExtendHandshake.recvFlags.buf.flags sampleConsts.HEADER_VERSION2 = false
              ∧ hasFlag sampleExtendHandshake.recvFlags.buf.flags sampleConsts.HEADER_EXTEND = true)
            ∨ hasFlag sampleExtendHandshake.recvFlags.buf.flags sampleConsts.HEADER_V2PEERDETECT
                = true)) :=
  ⟨rfl, C19_header_ack_sent_iff sampleConsts {} sampleExtendHandshake {} sampleExtendResult
    rfl rfl rfl rfl⟩

/-- Counterexample to C19 as stated: a stream first message whose flags are V2PEERDETECT
alone is accepted by a non-compat listener without permit key, and no header ack is
sent, because the ack is decided inside the block guarded by
`VERSION1 || VERSION2 || EXTEND || isPermitKey`. -/
theorem C19_counterexample_peer_detect_without_header :
    ({} : thread_Settings).isUDP = false ∧ ({} : thread_Settings).isCompat = false
    ∧ hasFlag 0x02000000 sampleConsts.HEADER_V2PEERDETECT = true
    ∧ (apply_client_settings_tcp sampleConsts {}
          { recvFlags := { n := 4, buf := { flags := 0x02000000 } } } {}).map
        (fun r => (r.rc, r.ackSent)) = some (true, false) := by
  decide

/-- C20 (amended): after `apply_client_settings` returned on a first message, the test
mode follows the rule of the spec (dual-test iff VERSION1 set, VERSION2 clear, RUN_NOW
set; trade-off iff VERSION1 set, VERSION2 clear, RUN_NOW clear; normal otherwise) for a
datagram first message without the HEADER32_SMALL_TRIPTIMES flag and for an accepted
stream first message whose client header has positive length. In the remaining cases (a
datagram with the small header, a stream message that was rejected or has no header to
read) the mode is normal. -/
theorem C20_test_mode_of_first_message (K : WireConsts) (mSettings : thread_Settings)
    (mBuf : ListenerBuf) (e : HandshakeEnv) (server : thread_Settings) (r : HandshakeResult)
    (hr : apply_client_settings K mSettings mBuf e server = some r) :
    (server.isUDP = true → hasFlag mBuf.flags K.HEADER32_SMALL_TRIPTIMES = false →
        TestModeRule K mBuf.flags r.server.mMode)
    ∧ (server.isUDP = true → hasFlag mBuf.flags K.HEADER32_SMALL_TRIPTIMES = true →
        r.server.mMode = TestMode.kTest_Normal)
    ∧ (server.isUDP = false → r.rc = true →
        0 < K.Settings_ClientHdrPeekLen e.recvFlags.buf.flags →
        TestModeRule K e.recvFlags.buf.flags r.server.mMode)
    ∧ (server.isUDP = false →
        ¬ (r.rc = true ∧ 0 < K.Settings_ClientHdrPeekLen e.recvFlags.buf.flags) →
        r.server.mMode = TestMode.kTest_Normal) := by
  unfold apply_client_settings at hr
  simp only [] at hr
  by_cases hu : server.isUDP = true
  · rw [if_pos hu] at hr
    cases hr
    refine ⟨fun _ hs => ?_, fun _ hs => ?_, fun h => ?_, fun h => ?_⟩
    · have := apply_test_mode_rule K mBuf.flags
        { server with peer_version_u := 0, peer_version_l := 0, mMode := TestMode.kTest_Normal } rfl
      rw [apply_test_mode_mMode] at this
      rw [apply_client_settings_udp_mMode, hs]
      exact this
    · rw [apply_client_settings_udp_mMode, hs]; rfl
    · rw [hu] at h; exact absurd h (by simp)
    · rw [hu] at h; exact absurd h (by simp)
  · rw [if_neg hu] at hr
    have hspec := apply_client_settings_tcp_spec K mSettings e _ r hr
    refine ⟨fun h => absurd h hu, fun h => absurd h hu, fun _ hrc hp => ?_, fun _ hn => ?_⟩
    · rw [hspec.1 hrc hp]
      exact apply_test_mode_rule K _ _ rfl
    · rw [hspec.2.1 hn]

/-- Witness of C20: a first datagram with VERSION1 and RUN_NOW set (and no small header)
leaves the server in dual-test mode. -/
theorem C20_test_mode_of_first_message_witness :
    (apply_client_settings_udp sampleConsts {} { flags := 0x80000001 }
        { isUDP := true }).server.mMode = TestMode.kTest_DualTest
    ∧ TestModeRule sampleConsts 0x80000001
        (apply_client_settings_udp sampleConsts {} { flags := 0x80000001 }
          { isUDP := true }).server.mMode :=
  ⟨by decide,
   (C20_test_mode_of_first_message sampleConsts {} { flags := 0x80000001 } {} { isUDP := true }
      _ rfl).1 rfl rfl⟩

/-- Counterexample to C20 as stated: with VERSION1 set, VERSION2 clear and RUN_NOW set the
mode is nevertheless normal (a) after an accepted first datagram that also carries
HEADER32_SMALL_TRIPTIMES and (b) after a stream first message that a listener with a
permit key rejected for lack of the key. -/
theorem C20_counterexample_small_header_and_rejected_stream :
    hasFlag 0x80020001 sampleConsts.HEADER_VERSION1 = true
    ∧ hasFlag 0x80020001 sampleConsts.HEADER_VERSION2 = false
    ∧ hasFlag 0x80020001 sampleConsts.RUN_NOW = true
    ∧ (apply_client_settings sampleConsts {} { flags := 0x80020001 } {} { isUDP := true }).map
        (fun r => (r.rc, r.server.mMode)) = some (true, TestMode.kTest_Normal)
    ∧ hasFlag 0x80000001 sampleConsts.HEADER_VERSION1 = true
    ∧ hasFlag 0x80000001 sampleConsts.HEADER_VERSION2 = false
    ∧ hasFlag 0x80000001 sampleConsts.RUN_NOW = true
    ∧ (apply_client_settings sampleConsts sampleKeyListener {}
          { recvFlags := { n := 4, buf := { flags := 0x80000001 } },
            recvHdr := { n := 10, buf := { flags := 0x80000001 } } }
          sampleKeyListener).map
        (fun r => (r.rc, r.server.mMode)) = some (false, TestMode.kTest_Normal) := by
  decide

/-! ## C17: the sequence number stamped into burst headers -/

/-- C17 (defect of the code): in a periodic-burst flow of `RunTCP` every burst start calls
`PostNullEvent`, which zero-fills the scratch record (`memset`) and with it the running
packet id, before `WriteTcpTxHdr` adds the burst size. Two bursts of 1000 bytes are both
stamped with the sequence number 1000, although the first header should carry
1 + 1000 and the second 1 + 2000. The trip-time flow, which takes the same path without
the null event, stamps 1001 and 2001. -/
theorem C17_periodic_burst_header_restarts :
    stampedAfterTwoBursts samplePeriodicBurstClient = ((1000, 1000), (1000, 1000))
    ∧ stampedAfterTwoBursts sampleTripTimeClient = ((1001, 1001), (2001, 2001))
    ∧ (∀ (now : Timestamp) (c : Client), (PostNullEvent now c).reportstruct.packetID = 0)
    ∧ (∀ (burst_size burst_id : Int) (c : Client),
        (WriteTcpTxHdr burst_size burst_id c).reportstruct.packetID
          = c.reportstruct.packetID + burst_size) := by
  refine ⟨by decide, by decide, fun _ _ => rfl, fun _ _ _ => rfl⟩

/-! ## C13, C14, C15: the pacing of the datagram loop -/

theorem DoubleRounding_id : DoubleRounding id :=
  ⟨fun _ _ h => h, fun _ _ => rfl⟩

theorem DoubleRounding.exact_nat {fl : ℚ → ℚ} (hfl : DoubleRounding fl) (n : Nat)
    (hn : n ≤ 2 ^ 53) : fl (n : ℚ) = (n : ℚ) := by
  have h := hfl.exact_int (n : Int) (by rw [abs_of_nonneg (by omega)]; exact_mod_cast hn)
  exact_mod_cast h

theorem toS32_of_lt (u : Nat) (h : u < 2 ^ 31) : toS32 u = (u : Int) := by
  unfold toS32
  have h1 : u % 2 ^ 32 = u := Nat.mod_eq_of_lt (by omega)
  rw [h1, if_pos h]

/-- C14 (amended): the lower bound `delay_lower_bounds` (nanoseconds) set by
`InitTrafficLoop` equals `-1 * sosndtimer * 1000`, where `sosndtimer` (an `int`) is the
send timeout in microseconds that `InitTrafficLoop` passes to
`SetSocketOptionsSendTimeout`; the conversion and the product are exact in `double`.
The factor one half belongs to the timeout itself: with a report interval set (and no
periodic burst) the timeout is half the interval, and the bound is
`-(interval / 2) * 1000`. -/
theorem C14_delay_lower_bounds (fl : ℚ → ℚ) (hfl : DoubleRounding fl) (endTime : Timestamp)
    (startTime : timeval) (c : Client)
    (hlo : -(2 : Int) ^ 31 ≤ (InitTrafficLoop fl endTime startTime c).sosndtimer)
    (hhi : (InitTrafficLoop fl endTime startTime c).sosndtimer < (2 : Int) ^ 31) :
    (InitTrafficLoop fl endTime startTime c).delay_lower_bounds
      = -1 * ((InitTrafficLoop fl endTime startTime c).sosndtimer : ℚ) * 1000
    ∧ (InitTrafficLoop fl endTime startTime c).sosndtimer
        = InitTrafficLoop_sosndtimer fl c.mSettings
    ∧ ((c.mSettings.isPeriodicBurst && decide (c.mSettings.mFPS > 0)) = false →
        0 < c.mSettings.mInterval → c.mSettings.mInterval < 2 ^ 32 →
        (InitTrafficLoop fl endTime startTime c).sosndtimer = ((c.mSettings.mInterval / 2 : Nat) : Int)
        ∧ (InitTrafficLoop fl endTime startTime c).delay_lower_bounds
            = -1 * ((c.mSettings.mInterval / 2 : Nat) : ℚ) * 1000) := by
  have hmain : (InitTrafficLoop fl endTime startTime c).delay_lower_bounds
      = -1 * ((InitTrafficLoop fl endTime startTime c).sosndtimer : ℚ) * 1000 := by
    have hs : (InitTrafficLoop fl endTime startTime c).delay_lower_bounds
        = fl ((((InitTrafficLoop fl endTime startTime c).sosndtimer * (-1000) : Int)) : ℚ) := by
      simp only [InitTrafficLoop]
      push_cast
      rfl
    rw [hs, hfl.exact_int _ (by rw [abs_le]; constructor <;> omega)]
    push_cast
    ring
  refine ⟨hmain, rfl, fun hpb hi1 hi2 => ?_⟩
  have hsos : (InitTrafficLoop fl endTime startTime c).sosndtimer
      = ((c.mSettings.mInterval / 2 : Nat) : Int) := by
    simp only [InitTrafficLoop, InitTrafficLoop_sosndtimer]
    rw [if_neg (by simp [hpb]), if_pos hi1, toS32_of_lt _ (by omega)]
  refine ⟨hsos, ?_⟩
  rw [hmain, hsos]
  push_cast
  rfl

/-- Witness of C14: with a report interval of one second the send timeout is 500 000 µs. -/
theorem C14_delay_lower_bounds_witness :
    (InitTrafficLoop id {} {} sampleIntervalClient).sosndtimer = 500000
    ∧ (InitTrafficLoop id {} {} sampleIntervalClient).delay_lower_bounds
        = -1 * ((InitTrafficLoop id {} {} sampleIntervalClient).sosndtimer : ℚ) * 1000 :=
  ⟨by decide,
   (C14_delay_lower_bounds id DoubleRounding_id {} {} sampleIntervalClient (by decide)
      (by decide)).1⟩

/-- Counterexample to C14 as stated: with a report interval of one second the send
timeout applied to the socket is 500 000 µs and the lower bound is -500 000 000 ns, not
-(1/2) * 500 000 * 1000 = -250 000 000 ns. -/
theorem C14_counterexample_lower_bound_is_full_timeout :
    (InitTrafficLoop id {} {} sampleIntervalClient).sosndtimer = 500000
    ∧ (InitTrafficLoop id {} {} sampleIntervalClient).delay_lower_bounds = -500000000
    ∧ (InitTrafficLoop id {} {} sampleIntervalClient).delay_lower_bounds
        ≠ -(1 / 2 : ℚ) * ((InitTrafficLoop id {} {} sampleIntervalClient).sosndtimer : ℚ) * 1000 := by
  have h1 : (InitTrafficLoop id {} {} sampleIntervalClient).sosndtimer = 500000 := by decide
  have h2 : (InitTrafficLoop id {} {} sampleIntervalClient).delay_lower_bounds = -500000000 := by
    decide!
  refine ⟨h1, h2, ?_⟩
  rw [h2, h1]
  norm_num

theorem RunUDPIsochronous_inner_body_sent (e : UdpIterEnv) (s : IsochLoop) (L b : Int)
    (hmode : s.client.mSettings.isModeTime = true) (hL : s.client.mSettings.mBufLen = L)
    (hb : s.bytecnt = b) (hb0 : 0 < b) (hL0 : 0 < L) (hw : ∀ len, e.write len = len) :
    (RunUDPIsochronous_inner_body e s).client.wire.map Prod.snd
        = s.client.wire.map Prod.snd ++ [if b < L then b else L]
    ∧ (RunUDPIsochronous_inner_body e s).bytecnt
        = (if 0 < b - (if b < L then b else L)
              ∧ b - (if b < L then b else L) < s.client.udp_payload_minimum then
             s.client.udp_payload_minimum
           else b - (if b < L then b else L))
    ∧ (RunUDPIsochronous_inner_body e s).client.mSettings = s.client.mSettings
    ∧ (RunUDPIsochronous_inner_body e s).client.peerclose = s.client.peerclose
    ∧ (RunUDPIsochronous_inner_body e s).client.mEndTime = s.client.mEndTime
    ∧ (RunUDPIsochronous_inner_body e s).client.udp_payload_minimum = s.client.udp_payload_minimum
    ∧ (RunUDPIsochronous_inner_body e s).client.reportstruct.packetTime = e.now.toTimeval := by
  have hw0 : ¬ (if b < L then b else L) < 0 := by split <;> omega
  unfold RunUDPIsochronous_inner_body myReportPacket
  simp only [isModeAmount, hmode, Bool.not_true, Bool.false_and, Bool.false_eq_true, if_false,
    hw, hL, hb]
  rw [if_neg hw0]
  refine ⟨by simp, ?_, rfl, rfl, rfl, rfl, ?_⟩
  · simp only [Bool.and_eq_true, decide_eq_true_eq, gt_iff_lt]
  · simp only [apply_ite ReportStruct.packetTime, ite_self]

theorem frameLengths_zero (L m : Int) : frameLengths L m 0 = [] := by
  simp [frameLengths]

theorem frameLengths_step (L m b : Int) (hm1 : 1 ≤ m) (hmL : m ≤ L) (hb : m ≤ b) :
    frameLengths L m b
      = (if b < L then b else L)
          :: frameLengths L m
               (if 0 < b - (if b < L then b else L) ∧ b - (if b < L then b else L) < m then m
                else b - (if b < L then b else L))
    ∧ ((if 0 < b - (if b < L then b else L) ∧ b - (if b < L then b else L) < m then m
        else b - (if b < L then b else L)) = 0
       ∨ m ≤ (if 0 < b - (if b < L then b else L) ∧ b - (if b < L then b else L) < m then m
              else b - (if b < L then b else L))) := by
  have hL0 : L ≠ 0 := by omega
  by_cases hbL : b < L
  · simp only [hbL, if_true, sub_self, lt_self_iff_false, false_and, if_false, frameLengths_zero]
    refine ⟨?_, Or.inl trivial⟩
    unfold frameLengths
    rw [Int.ediv_eq_zero_of_lt (by omega) hbL, Int.emod_eq_of_lt (by omega) hbL,
      if_neg (by omega), max_eq_left hb]
    rfl
  · simp only [hbL, if_false]
    obtain ⟨r, hr⟩ : ∃ r, b = r + 1 * L := ⟨b - L, by ring⟩
    have hr0 : 0 ≤ r := by omega
    have hdiv : b / L = r / L + 1 := by rw [hr, Int.add_mul_ediv_right _ _ hL0]
    have hmod : b % L = r % L := by rw [hr, Int.add_mul_emod_self]
    have hrq : 0 ≤ r / L := Int.ediv_nonneg hr0 (by omega)
    have hbr : b - L = r := by omega
    rw [hbr]
    have hcons : frameLengths L m b = L :: frameLengths L m r := by
      unfold frameLengths
      rw [hdiv, hmod, Int.toNat_add hrq (by norm_num)]
      simp [List.replicate_succ]
    by_cases hadj : 0 < r ∧ r < m
    · rw [if_pos hadj]
      refine ⟨?_, Or.inr (le_refl _)⟩
      rw [hcons]
      congr 1
      unfold frameLengths
      rw [Int.ediv_eq_zero_of_lt hr0 (by omega), Int.emod_eq_of_lt hr0 (by omega),
        if_neg (by omega), max_eq_right (by omega)]
      by_cases hmL2 : m < L
      · rw [Int.ediv_eq_zero_of_lt (by omega) hmL2, Int.emod_eq_of_lt (by omega) hmL2,
          if_neg (by omega), max_self]
      · have : m = L := by omega
        subst this
        rw [Int.ediv_self hL0, Int.emod_self]
        simp
    · rw [if_neg hadj]
      refine ⟨hcons, ?_⟩
      omega

theorem frameLengths_length (L m b : Int) (hL : 0 < L) (hb : 0 ≤ b) :
    (frameLengths L m b).length = ((b + L - 1) / L).toNat := by
  have hL0 : L ≠ 0 := by omega
  have hq : 0 ≤ b / L := Int.ediv_nonneg hb (by omega)
  have hm0 : 0 ≤ b % L := Int.emod_nonneg _ hL0
  have hmL : b % L < L := Int.emod_lt_of_pos _ hL
  unfold frameLengths
  rw [List.length_append, List.length_replicate]
  by_cases hz : b % L = 0
  · rw [if_pos hz]
    have hbe : b + L - 1 = (L - 1) + (b / L) * L := by
      have := Int.emod_add_ediv b L
      rw [hz] at this
      linarith [mul_comm L (b / L)]
    have h0 : (L - 1) / L = 0 :=
      Int.ediv_eq_zero_of_lt (show 0 ≤ L - 1 by omega) (show L - 1 < L by omega)
    rw [hbe, Int.add_mul_ediv_right _ _ hL0, h0]
    simp
  · rw [if_neg hz]
    have hbe : b + L - 1 = (b % L - 1) + (b / L + 1) * L := by
      have := Int.emod_add_ediv b L
      linarith [mul_comm L (b / L)]
    have h0 : (b % L - 1) / L = 0 :=
      Int.ediv_eq_zero_of_lt (show 0 ≤ b % L - 1 by omega) (show b % L - 1 < L by omega)
    rw [hbe, Int.add_mul_ediv_right _ _ hL0, h0]
    simp only [List.length_singleton, zero_add]
    omega

theorem frameLengths_bounds (L m b : Int) (hL : 0 < L) (hmL : m ≤ L) :
    ∀ x ∈ frameLengths L m b, m ≤ x ∧ x ≤ L := by
  have hL0 : L ≠ 0 := by omega
  have hmodL : b % L < L := Int.emod_lt_of_pos _ hL
  intro x hx
  unfold frameLengths at hx
  rcases List.mem_append.1 hx with h | h
  · rw [List.eq_of_mem_replicate h]
    exact ⟨hmL, le_refl _⟩
  · split at h
    · simp at h
    · rw [List.mem_singleton] at h
      subst h
      exact ⟨le_max_right _ _, max_le (by omega) hmL⟩

theorem InProgress_mode_time (sInterupted canRead : Bool) (c : Client)
    (hfile : c.mSettings.isFileInput = false) (hmode : c.mSettings.isModeTime = true)
    (hpc : c.peerclose = false) (hint : sInterupted = false)
    (htime : c.mEndTime.before c.reportstruct.packetTime = false) :
    InProgress sInterupted canRead c = true := by
  unfold InProgress
  simp [hfile, hmode, hpc, hint, htime, isModeAmount]

theorem RunUDPIsochronous_inner_frame (st : thread_Settings) (L m : Int) (E : Timestamp)
    (hfile : st.isFileInput = false) (hmode : st.isModeTime = true) (hL : st.mBufLen = L)
    (hm1 : 1 ≤ m) (hmL : m ≤ L) :
    ∀ (envs : List UdpIterEnv) (s : IsochLoop) (b : Int),
      s.client.mSettings = st → s.client.peerclose = false → s.client.udp_payload_minimum = m →
      s.client.mEndTime = E → E.before s.client.reportstruct.packetTime = false →
      s.bytecnt = b → (b = 0 ∨ m ≤ b) →
      (∀ e ∈ envs, e.sInterupted = false ∧ E.before e.now.toTimeval = false
          ∧ ∀ len, e.write len = len) →
      (frameLengths L m b).length ≤ envs.length →
      (RunUDPIsochronous_inner envs s).1.client.wire.map Prod.snd
          = s.client.wire.map Prod.snd ++ frameLengths L m b
      ∧ (RunUDPIsochronous_inner envs s).1.bytecnt = 0
      ∧ (RunUDPIsochronous_inner envs s).2 = false := by
  intro envs
  induction envs with
  | nil =>
    intro s b _ _ _ _ _ hb hbm _ hlen
    rcases hbm with h0 | hge
    · subst h0
      rw [RunUDPIsochronous_inner, hb, frameLengths_zero]
      simp
    · rw [(frameLengths_step L m b hm1 hmL hge).1] at hlen
      simp at hlen
  | cons e es ih =>
    intro s b hst hpc hmin hE htime hb hbm henv hlen
    rcases hbm with h0 | hge
    · subst h0
      rw [RunUDPIsochronous_inner, hb, frameLengths_zero]
      simp [hb]
    · have hstep := frameLengths_step L m b hm1 hmL hge
      have he := henv e (List.mem_cons_self _ _)
      have hprog : InProgress e.sInterupted e.canRead s.client = true :=
        InProgress_mode_time _ _ _ (by rw [hst]; exact hfile) (by rw [hst]; exact hmode) hpc
          he.1 (by rw [hE]; exact htime)
      have hbody := RunUDPIsochronous_inner_body_sent e s L b (by rw [hst]; exact hmode)
        (by rw [hst]; exact hL) hb (by omega) (by omega) he.2.2
      rw [RunUDPIsochronous_inner, if_pos (by rw [hprog, hb]; simp; omega)]
      obtain ⟨hw, hbc, hst1, hpc1, hE1, hmin1, hpt1⟩ := hbody
      rw [hmin] at hbc
      have hrec := ih (RunUDPIsochronous_inner_body e s) _ (by rw [hst1]; exact hst)
        (by rw [hpc1]; exact hpc) (by rw [hmin1]; exact hmin) (by rw [hE1]; exact hE)
        (by rw [hpt1]; exact he.2.1) hbc hstep.2
        (fun e1 he1 => henv e1 (List.mem_cons_of_mem _ he1))
        (by rw [hstep.1] at hlen; simpa using hlen)
      rw [hrec.1, hw, hstep.1]
      exact ⟨by simp, hrec.2⟩

theorem ceil_div_eq (B L : Int) (hL : 0 < L) :
    ⌈(B : ℚ) / (L : ℚ)⌉ = (B + L - 1) / L := by
  have hLq : (0 : ℚ) < (L : ℚ) := by exact_mod_cast hL
  have h1 : (B + L - 1) / L * L ≤ B + L - 1 := Int.ediv_mul_le _ (by omega)
  have h2 : B + L - 1 < ((B + L - 1) / L + 1) * L := Int.lt_ediv_add_one_mul_self _ hL
  rw [Int.ceil_eq_iff]
  constructor
  · rw [lt_div_iff₀ hLq]
    have : ((B + L - 1) / L - 1) * L < B := by linarith
    exact_mod_cast this
  · rw [div_le_iff₀ hLq]
    have : B ≤ (B + L - 1) / L * L := by linarith
    exact_mod_cast this

/-- C16: one frame of `RunUDPIsochronous` in mode-time. The flow has no file input, the
peer has not closed, no interrupt occurs and the test time does not elapse during the
frame, every write returns the requested length, and
`1 ≤ udp_payload_minimum ≤ bufLen = L`. Then a frame whose byte count is
`B ≥ udp_payload_minimum` is sent as exactly `⌈B / L⌉` datagrams, namely `B / L`
datagrams of `L` bytes followed, when `L` does not divide `B`, by one datagram of
`max (B % L) udp_payload_minimum` bytes; each datagram has at least
`udp_payload_minimum` and at most `L` bytes, and no byte of the frame is left over. -/
theorem C16_isochronous_frame_datagrams (f : IsochFrameEnv) (s : IsochLoop) (L B : Int)
    (hfile : s.client.mSettings.isFileInput = false)
    (hmode : s.client.mSettings.isModeTime = true)
    (hL : s.client.mSettings.mBufLen = L)
    (hpc : s.client.peerclose = false) (hfatal : s.fatalwrite_err = false)
    (hm1 : 1 ≤ s.client.udp_payload_minimum) (hmL : s.client.udp_payload_minimum ≤ L)
    (hB : f.bytecnt = B) (hBm : s.client.udp_payload_minimum ≤ B)
    (hint : f.sInterupted = false)
    (htime : s.client.mEndTime.before s.client.reportstruct.packetTime = false)
    (henv : ∀ e ∈ f.packets, e.sInterupted = false
        ∧ s.client.mEndTime.before e.now.toTimeval = false ∧ ∀ len, e.write len = len)
    (hlen : ⌈(B : ℚ) / (L : ℚ)⌉.toNat ≤ f.packets.length) :
    ((RunUDPIsochronous_loop [f] s).1.client.wire.drop s.client.wire.length).map Prod.snd
        = frameLengths L s.client.udp_payload_minimum B
    ∧ ((RunUDPIsochronous_loop [f] s).1.client.wire.drop s.client.wire.length).length
        = ⌈(B : ℚ) / (L : ℚ)⌉.toNat
    ∧ (∀ d ∈ (RunUDPIsochronous_loop [f] s).1.client.wire.drop s.client.wire.length,
        s.client.udp_payload_minimum ≤ d.2 ∧ d.2 ≤ L)
    ∧ (RunUDPIsochronous_loop [f] s).1.bytecnt = 0 := by
  have hL0 : 0 < L := by omega
  rw [ceil_div_eq B L hL0] at hlen ⊢
  have hprog : InProgress f.sInterupted f.canRead s.client = true :=
    InProgress_mode_time _ _ _ hfile hmode hpc hint htime
  have hcl : (if f.bytecnt < s.client.udp_payload_minimum then s.client.udp_payload_minimum
      else f.bytecnt) = B := by rw [hB, if_neg (by omega)]
  have hin := RunUDPIsochronous_inner_frame s.client.mSettings L s.client.udp_payload_minimum
    s.client.mEndTime hfile hmode hL hm1 hmL f.packets
    { s with client := { s.client with reportstruct := { s.client.reportstruct with burstsize := B } },
             bytecnt := B, frameid := f.wait_tick } B rfl hpc rfl rfl htime rfl (Or.inr hBm) henv
    (by rw [frameLengths_length L _ B hL0 (by omega)]; exact hlen)
  have hloop : (RunUDPIsochronous_loop [f] s).1
      = (RunUDPIsochronous_inner f.packets
          { s with client := { s.client with reportstruct :=
                                 { s.client.reportstruct with burstsize := B } },
                   bytecnt := B, frameid := f.wait_tick }).1 := by
    rw [RunUDPIsochronous_loop, if_pos (by rw [hprog, hfatal]; rfl)]
    simp only [hcl]
    split <;> (rename_i heq; rw [heq]; try rfl)
  rw [hloop]
  obtain ⟨hw, hbc, _⟩ := hin
  have hdrop : ((RunUDPIsochronous_inner f.packets
          { s with client := { s.client with reportstruct :=
                                 { s.client.reportstruct with burstsize := B } },
                   bytecnt := B, frameid := f.wait_tick }).1.client.wire.drop
        s.client.wire.length).map Prod.snd = frameLengths L s.client.udp_payload_minimum B := by
    have hlen2 : s.client.wire.length = (s.client.wire.map Prod.snd).length := by simp
    rw [List.map_drop, hw, hlen2, List.drop_left]
  refine ⟨hdrop, ?_, ?_, hbc⟩
  · have := congrArg List.length hdrop
    rw [List.length_map, frameLengths_length L _ B hL0 (by omega)] at this
    exact this
  · intro d hd
    exact frameLengths_bounds L _ B hL0 hmL d.2 (by rw [← hdrop]; exact List.mem_map_of_mem _ hd)

/-- Witness of C16: a frame of 41 666 bytes with buffer length 1470 is sent as 29
datagrams, 28 of 1470 bytes and one of 506 bytes. -/
theorem C16_isochronous_frame_datagrams_witness :
    ((RunUDPIsochronous_loop [{ bytecnt := 41666, packets := List.replicate 29 {} }]
        { client := sampleIsochClient }).1.client.wire.drop
      sampleIsochClient.wire.length).length = 29
    ∧ frameLengths 1470 1 41666 = List.replicate 28 1470 ++ [506] := by
  have h := (C16_isochronous_frame_datagrams { bytecnt := 41666, packets := List.replicate 29 {} }
    { client := sampleIsochClient } 1470 41666 rfl rfl rfl rfl rfl (by decide) (by decide) rfl
    (by decide) rfl rfl
    (by intro e he; rw [List.eq_of_mem_replicate he]; exact ⟨rfl, rfl, fun _ => rfl⟩)
    (by rw [ceil_div_eq _ _ (by norm_num)]; decide)).2.1
  rw [ceil_div_eq _ _ (by norm_num)] at h
  exact ⟨h, by decide⟩

/-! ## C12: the token bucket of the rate-limited stream loop -/

theorem DoubleRounding.zero {fl : ℚ → ℚ} (hfl : DoubleRounding fl) : fl 0 = 0 := by
  have h := hfl.exact_int 0 (by norm_num)
  simpa using h

theorem DoubleRounding.nonneg {fl : ℚ → ℚ} (hfl : DoubleRounding fl) (x : ℚ) (hx : 0 ≤ x) :
    0 ≤ fl x := by
  have h := hfl.mono 0 x hx
  rwa [hfl.zero] at h

theorem Timestamp.subSec_nonneg {fl : ℚ → ℚ} (hfl : DoubleRounding fl) (t r : Timestamp)
    (h : r.toUsecs ≤ t.toUsecs) : 0 ≤ t.subSec fl r := by
  unfold Timestamp.subSec
  apply hfl.nonneg
  unfold Timestamp.toUsecs at h
  have h1 : (0 : ℚ) ≤ (((t.mSecs - r.mSecs) * 1000000 + (t.mUsecs - r.mUsecs) : Int) : ℚ) := by
    exact_mod_cast (by omega : (0 : Int) ≤ (t.mSecs - r.mSecs) * 1000000 + (t.mUsecs - r.mUsecs))
  push_cast at h1 ⊢
  linarith

theorem RunRateLimitedTCP_report_keeps (e : RateIterEnv) (s : RateLoop) (len n : Int) :
    (RunRateLimitedTCP_report e s len n).tokens = s.tokens
    ∧ (RunRateLimitedTCP_report e s len n).sameRate s := by
  unfold RunRateLimitedTCP_report RateLoop.sameRate
  simp only [consumeAmount_eq, myReportPacket, apply_ite Client.mSettings,
    apply_ite thread_Settings.mBufLen, apply_ite thread_Settings.isVaryLoad, ite_self,
    and_self]

theorem RunRateLimitedTCP_header_keeps (e : RateIterEnv) (s : RateLoop) :
    (RunRateLimitedTCP_header e s).tokens = s.tokens
    ∧ (RunRateLimitedTCP_header e s).sameRate s
    ∧ (RunRateLimitedTCP_header e s).client.reportstruct.packetLen
        = s.client.reportstruct.packetLen - e.writen :=
  ⟨rfl, ⟨rfl, rfl, rfl, rfl⟩, rfl⟩

theorem RateLoop_sameRate_trans {r s t : RateLoop} (h1 : r.sameRate s) (h2 : s.sameRate t) :
    r.sameRate t :=
  ⟨h1.1.trans h2.1, h1.2.1.trans h2.2.1, h1.2.2.1.trans h2.2.2.1, h1.2.2.2.trans h2.2.2.2⟩

theorem RunRateLimitedTCP_prepare_keeps (e : RateIterEnv) (s : RateLoop) (L : Int)
    (hL : s.client.mSettings.mBufLen = L) (hL0 : 0 ≤ L) (hL1 : L < (2 : Int) ^ 31) :
    (RunRateLimitedTCP_prepare e s).1.tokens = s.tokens
    ∧ (RunRateLimitedTCP_prepare e s).1.sameRate s
    ∧ (RunRateLimitedTCP_prepare e s).1.client.reportstruct.packetLen
        + (RunRateLimitedTCP_prepare e s).2 ≤ L := by
  have e31 : ((2 : Int) ^ 31) = 2147483648 := by norm_num
  rw [e31] at hL1
  have hLu : toU32 L = L.toNat := toU32_of_nonneg L hL0 (by rw [e31]; exact hL1)
  obtain ⟨P, hP, hPL⟩ : ∃ P : Int,
      P = (if isModeAmount s.client.mSettings then
             (if s.client.mSettings.mAmount < toU32 s.client.mSettings.mBufLen then
                toS32 s.client.mSettings.mAmount else s.client.mSettings.mBufLen)
           else s.client.mSettings.mBufLen) ∧ P ≤ L := by
    refine ⟨_, rfl, ?_⟩
    rw [hL, hLu]
    split
    · split
      · rename_i h
        rw [toS32_of_lt _ (by omega)]
        omega
      · exact le_refl _
    · exact le_refl _
  unfold RunRateLimitedTCP_prepare
  simp only [← hP]
  by_cases ht : s.client.mSettings.isTripTime = true
  · rw [if_pos ht]
    by_cases hb : s.burst_remaining = 0
    · rw [if_pos hb]
      refine ⟨rfl, ⟨rfl, rfl, rfl, rfl⟩, ?_⟩
      rw [(RunRateLimitedTCP_header_keeps e _).2.2]
      simp only []
      omega
    · rw [if_neg hb]
      by_cases hg : P > s.burst_remaining
      · rw [if_pos hg]
        refine ⟨rfl, ⟨rfl, rfl, rfl, rfl⟩, ?_⟩
        simp only []
        omega
      · rw [if_neg hg]
        refine ⟨rfl, ⟨rfl, rfl, rfl, rfl⟩, ?_⟩
        simp only []
        omega
  · rw [if_neg ht]
    refine ⟨rfl, ⟨rfl, rfl, rfl, rfl⟩, ?_⟩
    simp only []
    omega

theorem RunRateLimitedTCP_send_tokens (fl : ℚ → ℚ) (e : RateIterEnv) (s : RateLoop) (n L : Int)
    (hlen : s.client.reportstruct.packetLen + n ≤ L) (hw : ∀ len, e.write len ≤ len) :
    ((RunRateLimitedTCP_send fl e s n).1.tokens = s.tokens
      ∨ ∃ k : Int, k ≤ L ∧ (RunRateLimitedTCP_send fl e s n).1.tokens = fl (s.tokens - (k : ℚ)))
    ∧ (RunRateLimitedTCP_send fl e s n).1.sameRate s := by
  unfold RunRateLimitedTCP_send
  simp only []
  have hwl := hw s.client.reportstruct.packetLen
  by_cases hneg : e.write s.client.reportstruct.packetLen < 0
  · rw [if_pos hneg]
    by_cases h1 : e.nonfatalErr = true
    · rw [if_pos h1]
      exact ⟨Or.inl (RunRateLimitedTCP_report_keeps e _ 0 n).1,
        (RunRateLimitedTCP_report_keeps e _ 0 n).2⟩
    · rw [if_neg h1]
      by_cases h2 : e.fatalErr = true
      · rw [if_pos h2]
        exact ⟨Or.inl rfl, rfl, rfl, rfl, rfl⟩
      · rw [if_neg h2]
        exact ⟨Or.inl (RunRateLimitedTCP_report_keeps e _ 0 n).1,
          (RunRateLimitedTCP_report_keeps e _ 0 n).2⟩
  · rw [if_neg hneg]
    refine ⟨Or.inr ⟨e.write s.client.reportstruct.packetLen + n, by omega, ?_⟩,
      (RunRateLimitedTCP_report_keeps e _ _ n).2⟩
    rw [(RunRateLimitedTCP_report_keeps e _ _ n).1]

theorem RunRateLimitedTCP_refill_tokens (fl : ℚ → ℚ) (hfl : DoubleRounding fl)
    (e : RateIterEnv) (s : RateLoop) (L : Int)
    (hL1 : -(2 : Int) ^ 53 ≤ L) (hL2 : L ≤ (2 : Int) ^ 53)
    (hvary : s.client.mSettings.isVaryLoad = false) (hR : 0 ≤ s.var_rate)
    (htime : s.time1.toUsecs ≤ e.time2.toUsecs) (htok : -(L : ℚ) ≤ s.tokens) :
    -(L : ℚ) ≤ (RunRateLimitedTCP_refill fl e s).tokens
    ∧ (RunRateLimitedTCP_refill fl e s).var_rate = s.var_rate
    ∧ (RunRateLimitedTCP_refill fl e s).time1 = e.time2
    ∧ (RunRateLimitedTCP_refill fl e s).client = s.client := by
  refine ⟨?_, ?_, rfl, rfl⟩
  swap
  · unfold RunRateLimitedTCP_refill
    simp only [hvary, Bool.false_and, Bool.false_eq_true, if_false]
  unfold RunRateLimitedTCP_refill
  simp only [hvary, Bool.false_and, Bool.false_eq_true, if_false]
  have hdt : 0 ≤ e.time2.subSec fl s.time1 := Timestamp.subSec_nonneg hfl _ _ htime
  have hrate : 0 ≤ fl (fl (s.var_rate : ℚ) / 8) := by
    apply hfl.nonneg
    apply div_nonneg (hfl.nonneg _ (by exact_mod_cast hR)) (by norm_num)
  have hinc : 0 ≤ fl (e.time2.subSec fl s.time1 * fl (fl (s.var_rate : ℚ) / 8)) :=
    hfl.nonneg _ (mul_nonneg hdt hrate)
  have hex : fl ((-L : Int) : ℚ) = ((-L : Int) : ℚ) :=
    hfl.exact_int (-L) (by rw [abs_le]; constructor <;> omega)
  have hmono := hfl.mono ((-L : Int) : ℚ)
    (s.tokens + fl (e.time2.subSec fl s.time1 * fl (fl (s.var_rate : ℚ) / 8)))
    (by push_cast; linarith)
  rw [hex] at hmono
  push_cast at hmono
  exact hmono

theorem RunRateLimitedTCP_body_tokens (fl : ℚ → ℚ) (hfl : DoubleRounding fl)
    (e : RateIterEnv) (s : RateLoop) (L : Int)
    (hL : s.client.mSettings.mBufLen = L) (hL0 : 0 ≤ L) (hL1 : L < (2 : Int) ^ 31)
    (hvary : s.client.mSettings.isVaryLoad = false) (hR : 0 ≤ s.var_rate)
    (htime : s.time1.toUsecs ≤ e.time2.toUsecs) (htok : -(L : ℚ) ≤ s.tokens)
    (hw : ∀ len, e.write len ≤ len) :
    -(L : ℚ) ≤ (RunRateLimitedTCP_body fl e s).1.tokens
    ∧ (RunRateLimitedTCP_body fl e s).1.var_rate = s.var_rate
    ∧ (RunRateLimitedTCP_body fl e s).1.time1 = e.time2
    ∧ (RunRateLimitedTCP_body fl e s).1.client.mSettings.mBufLen = L
    ∧ (RunRateLimitedTCP_body fl e s).1.client.mSettings.isVaryLoad = false := by
  have e31 : ((2 : Int) ^ 31) = 2147483648 := by norm_num
  have e53 : ((2 : Int) ^ 53) = 9007199254740992 := by norm_num
  obtain ⟨hr1, hr2, hr3, hr4⟩ := RunRateLimitedTCP_refill_tokens fl hfl e s L
    (by rw [e53]; omega) (by rw [e53, e31] at *; omega) hvary hR htime htok
  unfold RunRateLimitedTCP_body
  simp only []
  by_cases hpos : (RunRateLimitedTCP_refill fl e s).tokens ≥ 0
  · rw [if_pos hpos]
    have hL' : (RunRateLimitedTCP_refill fl e s).client.mSettings.mBufLen = L := by rw [hr4, hL]
    obtain ⟨hp1, hp2, hp3⟩ := RunRateLimitedTCP_prepare_keeps e (RunRateLimitedTCP_refill fl e s) L
      hL' hL0 hL1
    obtain ⟨hs1, hs2⟩ := RunRateLimitedTCP_send_tokens fl e
      (RunRateLimitedTCP_prepare e (RunRateLimitedTCP_refill fl e s)).1
      (RunRateLimitedTCP_prepare e (RunRateLimitedTCP_refill fl e s)).2 L hp3 hw
    have hsame := RateLoop_sameRate_trans hs2 hp2
    refine ⟨?_, by rw [hsame.1, hr2], by rw [hsame.2.1, hr3],
      by rw [hsame.2.2.1, hr4, hL], by rw [hsame.2.2.2, hr4, hvary]⟩
    rcases hs1 with h | ⟨k, hk, h⟩
    · rw [h, hp1]; exact hr1
    · rw [h, hp1]
      have hex : fl ((-L : Int) : ℚ) = ((-L : Int) : ℚ) :=
        hfl.exact_int (-L) (by rw [abs_le, e53]; rw [e31] at hL1; constructor <;> omega)
      have hkq : (k : ℚ) ≤ (L : ℚ) := by exact_mod_cast hk
      have hmono := hfl.mono ((-L : Int) : ℚ)
        ((RunRateLimitedTCP_refill fl e s).tokens - (k : ℚ)) (by push_cast; linarith)
      rw [hex] at hmono
      push_cast at hmono
      exact hmono
  · rw [if_neg hpos]
    exact ⟨hr1, hr2, hr3, by rw [hr4, hL], by rw [hr4, hvary]⟩

theorem RunRateLimitedTCP_loop_tokens (fl : ℚ → ℚ) (hfl : DoubleRounding fl) (L R : Int)
    (hL0 : 0 ≤ L) (hL1 : L < (2 : Int) ^ 31) (hR : 0 ≤ R) :
    ∀ (envs : List RateIterEnv) (s : RateLoop),
      s.client.mSettings.mBufLen = L → s.client.mSettings.isVaryLoad = false →
      s.var_rate = R → -(L : ℚ) ≤ s.tokens →
      List.Chain (fun a b : Timestamp => a.toUsecs ≤ b.toUsecs) s.time1
        (envs.map (fun e => e.time2)) →
      (∀ e ∈ envs, ∀ len, e.write len ≤ len) →
      -(L : ℚ) ≤ (RunRateLimitedTCP_loop fl envs s).1.tokens := by
  intro envs
  induction envs with
  | nil => intro s _ _ _ htok _ _; exact htok
  | cons e es ih =>
    intro s hL hvary hrate htok hchain hw
    rw [List.map_cons, List.chain_cons] at hchain
    obtain ⟨hb1, hb2, hb3, hb4, hb5⟩ := RunRateLimitedTCP_body_tokens fl hfl e s L hL hL0 hL1
      hvary (by rw [hrate]; exact hR) hchain.1 htok (hw e (List.mem_cons_self _ _))
    rw [RunRateLimitedTCP_loop]
    split
    · split
      · rename_i s1 heq
        rw [heq] at hb1 hb2 hb3 hb4 hb5
        exact ih s1 hb4 hb5 (by rw [hb2, hrate]) hb1 (by rw [hb3]; exact hchain.2)
          (fun e1 he1 => hw e1 (List.mem_cons_of_mem _ he1))
      · rename_i s1 x heq
        rw [heq] at hb1
        exact hb1
    · exact htok

theorem toS64_nonneg_of_lt (u : Nat) (h : u < 2 ^ 63) : 0 ≤ toS64 u := by
  unfold toS64
  have h1 : u % 2 ^ 64 = u := Nat.mod_eq_of_lt (by omega)
  rw [h1, if_pos h]
  omega

/-- C12: `RunRateLimitedTCP` with a constant rate `R ≥ 0` (no varying load, the rate a
non-negative `long`), clock readings at the loop head that do not decrease, and every
`write` returning at most the requested length, for a buffer length `0 ≤ L < 2^31` and
every rounding to `double`. After every number `k` of loop iterations the token count is
at least `-L`. In an iteration no write is made when the refilled token count is
negative, and otherwise the token count is left as refilled (failed write) or becomes
the refilled count minus the number `k ≤ L` of bytes written, rounded. -/
theorem C12_token_bucket_lower_bound (fl : ℚ → ℚ) (hfl : DoubleRounding fl)
    (time1 time3 now : Timestamp) (envs : List RateIterEnv) (c : Client) (L : Int)
    (hL : c.mSettings.mBufLen = L) (hL0 : 0 ≤ L) (hL1 : L < (2 : Int) ^ 31)
    (hvary : c.mSettings.isVaryLoad = false) (hrate : c.mSettings.mAppRate < 2 ^ 63)
    (hclock : List.Chain (fun a b : Timestamp => a.toUsecs ≤ b.toUsecs) time1
      (envs.map (fun e => e.time2)))
    (hw : ∀ e ∈ envs, ∀ len, e.write len ≤ len) :
    (∀ k : Nat, -(L : ℚ) ≤ (RunRateLimitedTCP fl time1 time3 now (envs.take k) c).1.tokens)
    ∧ (∀ (e : RateIterEnv) (s : RateLoop), (RunRateLimitedTCP_refill fl e s).tokens < 0 →
        RunRateLimitedTCP_body fl e s = (RunRateLimitedTCP_refill fl e s, none))
    ∧ (∀ (e : RateIterEnv) (s : RateLoop), s.client.mSettings.mBufLen = L →
        (∀ len, e.write len ≤ len) → 0 ≤ (RunRateLimitedTCP_refill fl e s).tokens →
        (RunRateLimitedTCP_body fl e s).1.tokens = (RunRateLimitedTCP_refill fl e s).tokens
        ∨ ∃ k : Int, k ≤ L ∧ (RunRateLimitedTCP_body fl e s).1.tokens
            = fl ((RunRateLimitedTCP_refill fl e s).tokens - (k : ℚ))) := by
  refine ⟨fun k => ?_, fun e s hneg => ?_, fun e s hLs hws hpos => ?_⟩
  · unfold RunRateLimitedTCP
    apply RunRateLimitedTCP_loop_tokens fl hfl L (toS64 c.mSettings.mAppRate) hL0 hL1
      (toS64_nonneg_of_lt _ hrate) _ _ hL hvary rfl
    · simp only []
      have : (0 : ℚ) ≤ (L : ℚ) := by exact_mod_cast hL0
      linarith
    · simp only []
      rw [List.map_take]
      have h1 : List.Chain' (fun a b : Timestamp => a.toUsecs ≤ b.toUsecs)
          (time1 :: envs.map (fun e => e.time2)) := hclock
      have h2 := h1.take (k + 1)
      rw [List.take_succ_cons] at h2
      exact h2
    · intro e he
      exact hw e (List.mem_of_mem_take he)
  · unfold RunRateLimitedTCP_body
    simp only []
    rw [if_neg (by simpa using hneg)]
  · have hcl : (RunRateLimitedTCP_refill fl e s).client = s.client := rfl
    obtain ⟨hp1, _, hp3⟩ := RunRateLimitedTCP_prepare_keeps e (RunRateLimitedTCP_refill fl e s) L
      (by rw [hcl]; exact hLs) hL0 hL1
    obtain ⟨hs1, _⟩ := RunRateLimitedTCP_send_tokens fl e
      (RunRateLimitedTCP_prepare e (RunRateLimitedTCP_refill fl e s)).1
      (RunRateLimitedTCP_prepare e (RunRateLimitedTCP_refill fl e s)).2 L hp3 hws
    unfold RunRateLimitedTCP_body
    simp only []
    rw [if_pos hpos]
    rw [hp1] at hs1
    exact hs1

/-- Witness of C12: at 8 Mbit/s with a buffer of 1000 bytes the token count is -900 after
the first iteration (100 tokens, one write), -800 after the second (no write) and -700
after the third (1100 tokens more, one write). -/
theorem C12_token_bucket_lower_bound_witness :
    (-((1000 : Int) : ℚ)
        ≤ (RunRateLimitedTCP id {} {} {} (sampleRateEnvs.take 3) sampleRateLimitedClient).1.tokens)
    ∧ (RunRateLimitedTCP id {} {} {} (sampleRateEnvs.take 1) sampleRateLimitedClient).1.tokens
        = -900
    ∧ (RunRateLimitedTCP id {} {} {} (sampleRateEnvs.take 2) sampleRateLimitedClient).1.tokens
        = -800
    ∧ (RunRateLimitedTCP id {} {} {} (sampleRateEnvs.take 3) sampleRateLimitedClient).1.tokens
        = -700 :=
  ⟨(C12_token_bucket_lower_bound id DoubleRounding_id {} {} {} sampleRateEnvs
      sampleRateLimitedClient 1000 rfl (by decide) (by decide) rfl (by decide)
      (by simp [sampleRateEnvs, Timestamp.toUsecs])
      (by
        intro e he len
        simp only [sampleRateEnvs, List.mem_cons, List.mem_singleton, List.not_mem_nil,
          or_false] at he
        rcases he with rfl | rfl | rfl <;> exact le_refl _)).1 3,
   by decide!, by decide!, by decide!⟩

/-! ## C21: the start-time window of the handshake -/

/-- The settings and the burst flag of a client object made by the constructor. -/
theorem Client_Client_spec (canRead failStops : Bool) (st : thread_Settings) (c : Client)
    (hc : Client_Client canRead failStops st = some c) :
    c.mSettings.isUDP = st.isUDP ∧ c.mSettings.isEnhanced = st.isEnhanced
    ∧ c.mSettings.isIntervalTime = st.isIntervalTime
    ∧ c.mSettings.isIsochronous = st.isIsochronous
    ∧ c.mSettings.isPeriodicBurst = st.isPeriodicBurst
    ∧ c.mSettings.isTripTime = st.isTripTime ∧ c.mSettings.isReverse = st.isReverse
    ∧ c.isburst = (st.isIsochronous || st.isPeriodicBurst || (st.isTripTime && !st.isUDP)) := by
  unfold Client_Client at hc
  simp only [] at hc
  by_cases hfi : (st.isFileInput && !canRead) = true
  · rw [if_pos hfi] at hc
    split at hc
    · cases hc
    · cases hc
      exact ⟨rfl, rfl, rfl, rfl, rfl, rfl, rfl, rfl⟩
  · rw [if_neg hfi] at hc
    split at hc
    · cases hc
    · cases hc
      exact ⟨rfl, rfl, rfl, rfl, rfl, rfl, rfl, rfl⟩

/-- Claim C24: for a client object made by the constructor from the settings `st`, after
`InitTrafficLoop` the member `one_report` is true if and only if the flow is a stream
flow, not enhanced, without time-interval reporting, not a burst flow and not reverse;
for a stream flow "not a burst flow" means not isochronous, not periodic-burst and not
trip-time. In particular a stream flow with time-interval reporting (a 1 s interval) and
enhanced unset has `one_report = false`. -/
theorem C24_one_report_iff (fl : ℚ → ℚ) (endTime : Timestamp) (startTime : timeval)
    (canRead failStops : Bool) (st : thread_Settings) (c : Client)
    (hc : Client_Client canRead failStops st = some c) :
    ((InitTrafficLoop fl endTime startTime c).client.one_report = true
      ↔ (st.isUDP = false ∧ st.isEnhanced = false ∧ st.isIntervalTime = false
          ∧ c.isburst = false ∧ st.isReverse = false))
    ∧ (st.isUDP = false →
        (c.isburst = false
          ↔ (st.isIsochronous = false ∧ st.isPeriodicBurst = false ∧ st.isTripTime = false)))
    ∧ (st.isUDP = false → st.isEnhanced = false → st.isIntervalTime = true →
        (InitTrafficLoop fl endTime startTime c).client.one_report = false) := by
  obtain ⟨h1, h2, h3, h4, h5, h6, h7, h8⟩ := Client_Client_spec canRead failStops st c hc
  have hone : (InitTrafficLoop fl endTime startTime c).client.one_report
      = (!st.isUDP && !st.isEnhanced && !st.isIntervalTime && !st.isIsochronous
          && !st.isPeriodicBurst && !st.isTripTime && !st.isReverse) := by
    unfold InitTrafficLoop
    simp only [h1, h2, h3, h4, h5, h6, h7]
  rw [hone, h8]
  refine ⟨?_, ?_, ?_⟩
  · cases st.isUDP <;> cases st.isEnhanced <;> cases st.isIntervalTime
      <;> cases st.isIsochronous <;> cases st.isPeriodicBurst <;> cases st.isTripTime
      <;> cases st.isReverse <;> decide
  · intro hu
    rw [hu]
    cases st.isIsochronous <;> cases st.isPeriodicBurst <;> cases st.isTripTime <;> decide
  · intro hu he hi
    rw [hu, he, hi]
    rfl

/-- Witness of C24: the unrated stream flow of 10 s with a 1 s report interval. -/
theorem C24_one_report_iff_witness :
    (InitTrafficLoop id {} {} { mSettings := sampleIntervalStream }).client.one_report = false :=
  (C24_one_report_iff id {} {} false false sampleIntervalStream
    { mSettings := sampleIntervalStream } rfl).2.2 rfl rfl rfl

/-! ## C25, C26, C27: the socket timeouts -/

/-- The send timeout of `InitTrafficLoop` while the quotients fit an `int`: the rounded
quarter of the frame period for a periodic-burst flow with a positive rate, else half the
report interval when it is positive, else half of `mAmount * 10000`. -/
theorem InitTrafficLoop_sosndtimer_in_range (fl : ℚ → ℚ) (st : thread_Settings) :
    ((st.isPeriodicBurst && decide (st.mFPS > 0)) = true →
        InitTrafficLoop_sosndtimer fl st = round (fl (250000 / st.mFPS)))
    ∧ ((st.isPeriodicBurst && decide (st.mFPS > 0)) = false → 0 < st.mInterval →
        st.mInterval < 2 ^ 32 →
        InitTrafficLoop_sosndtimer fl st = ((st.mInterval / 2 : Nat) : Int))
    ∧ ((st.isPeriodicBurst && decide (st.mFPS > 0)) = false → st.mInterval = 0 →
        st.mAmount * 10000 / 2 < 2 ^ 31 →
        InitTrafficLoop_sosndtimer fl st = ((st.mAmount * 10000 / 2 : Nat) : Int)) := by
  unfold InitTrafficLoop_sosndtimer
  refine ⟨fun h => ?_, fun h hi hr => ?_, fun h hi hr => ?_⟩
  · rw [if_pos h]
  · rw [if_neg (by simp [h]), if_pos hi, toS32_of_lt _ (by omega)]
  · have hm : st.mAmount * 10000 % 2 ^ 64 = st.mAmount * 10000 :=
      Nat.mod_eq_of_lt (by omega)
    rw [if_neg (by simp [h]), if_neg (by omega), hm, toS32_of_lt _ hr]

/-- Claim C25 at a test of two hours without a report interval (`mAmount = 720000`, no
periodic burst): half of `mAmount * 10000` is 3 600 000 000, and the send timeout that
`InitTrafficLoop` passes to the socket is -694 967 296. -/
theorem C25_send_timeout_of_two_hour_test :
    sampleTwoHourFlow.mAmount * 10000 / 2 = 3600000000
    ∧ InitTrafficLoop_sosndtimer id sampleTwoHourFlow = -694967296
    ∧ (InitTrafficLoop id {} {} { mSettings := sampleTwoHourFlow }).sosndtimer = -694967296 := by
  refine ⟨by decide, by decide, by decide⟩

/-- The send timeout of `client_test_ack` lies between `HDRXACKMIN` and `HDRXACKMAX` for
every interval and amount. -/
theorem client_test_ack_sotimer_bounds (lo hi : Int) (hle : lo ≤ hi) (server : thread_Settings) :
    lo ≤ client_test_ack_sotimer lo hi server ∧ client_test_ack_sotimer lo hi server ≤ hi := by
  unfold client_test_ack_sotimer
  simp only []
  generalize (if server.mInterval ≠ 0 then toS32 (server.mInterval / 4)
      else if server.isModeTime = true then toS32 (server.mAmount * 10000 % 2 ^ 64 / 4) else 0) = x
  split
  · exact ⟨hle, le_refl _⟩
  · split
    · exact ⟨le_refl _, hle⟩
    · constructor <;> omega

/-- The send timeout of `client_test_ack` while the quotients fit an `int`: the clamped
quarter of the interval when one is set, else the clamped quarter of `mAmount * 10000` in
mode-time, else the clamped 0. -/
theorem client_test_ack_sotimer_in_range (lo hi : Int) (server : thread_Settings) :
    (server.mInterval ≠ 0 → server.mInterval < 2 ^ 32 →
        client_test_ack_sotimer lo hi server
          = clampTo lo hi ((server.mInterval / 4 : Nat) : Int))
    ∧ (server.mInterval = 0 → server.isModeTime = true →
        server.mAmount * 10000 / 4 < 2 ^ 31 →
        client_test_ack_sotimer lo hi server
          = clampTo lo hi ((server.mAmount * 10000 / 4 : Nat) : Int))
    ∧ (server.mInterval = 0 → server.isModeTime = false →
        client_test_ack_sotimer lo hi server = clampTo lo hi 0) := by
  have key : client_test_ack_sotimer lo hi server
      = clampTo lo hi (if server.mInterval ≠ 0 then toS32 (server.mInterval / 4)
          else if server.isModeTime then toS32 (server.mAmount * 10000 % 2 ^ 64 / 4)
          else 0) := rfl
  refine ⟨fun hi1 hr => ?_, fun hi0 hm hr => ?_, fun hi0 hm => ?_⟩
  · rw [key, if_pos hi1, toS32_of_lt _ (by omega)]
  · have hmod : server.mAmount * 10000 % 2 ^ 64 = server.mAmount * 10000 :=
      Nat.mod_eq_of_lt (by omega)
    rw [key, if_neg (by simp [hi0]), if_pos hm, hmod, toS32_of_lt _ hr]
  · rw [key, if_neg (by simp [hi0]), if_neg (by simp [hm])]

/-- For every pair of `int` constants `0 ≤ HDRXACKMIN < HDRXACKMAX` the timeout that
`client_test_ack` applies for the server of two and a half hours is `HDRXACKMIN`, while
the clamped quarter of `mAmount * 10000` is `HDRXACKMAX`. -/
theorem client_test_ack_sotimer_long_server (lo hi : Int) (h0 : 0 ≤ lo) (hlt : lo < hi)
    (hmax : hi < (2 : Int) ^ 31) :
    client_test_ack_sotimer lo hi sampleLongServer = lo
    ∧ clampTo lo hi ((sampleLongServer.mAmount * 10000 / 4 : Nat) : Int) = hi := by
  have h1 : client_test_ack_sotimer lo hi sampleLongServer = clampTo lo hi (-2044967296) := by
    have hraw : (if sampleLongServer.mInterval ≠ 0 then toS32 (sampleLongServer.mInterval / 4)
        else if sampleLongServer.isModeTime then
          toS32 (sampleLongServer.mAmount * 10000 % 2 ^ 64 / 4)
        else 0) = -2044967296 := by decide
    show clampTo lo hi _ = _
    rw [hraw]
  have h2 : ((sampleLongServer.mAmount * 10000 / 4 : Nat) : Int) = 2250000000 := by decide
  rw [h1, h2]
  unfold clampTo
  have e31 : (2 : Int) ^ 31 = 2147483648 := by norm_num
  rw [e31] at hmax
  constructor
  · rw [if_neg (by omega), if_pos (by omega)]
  · rw [if_pos (by omega)]

/-- Claim C26 at a server of two and a half hours without a report interval (mode-time,
`mAmount = 900000`), with `HDRXACKMIN = 10000` and `HDRXACKMAX = 2500000`: the quarter of
`mAmount * 10000` is 2 250 000 000, which clamps to `HDRXACKMAX`; the timeout that
`client_test_ack` applies is `HDRXACKMIN`. -/
theorem C26_ack_timeout_of_long_server :
    sampleLongServer.mAmount * 10000 / 4 = 2250000000
    ∧ clampTo 10000 2500000 ((sampleLongServer.mAmount * 10000 / 4 : Nat) : Int) = 2500000
    ∧ client_test_ack_sotimer 10000 2500000 sampleLongServer = 10000 := by
  refine ⟨by decide, by decide, by decide⟩

/-- The receive timeout of `AwaitServerCloseEvent` is never below `MINAWAITCLOSEUSECS`
(2 s); it is `MINAWAITCLOSEUSECS` outside mode-time, and in mode-time the larger of
`MINAWAITCLOSEUSECS` and `mAmount * 10000` while the product is below `2 ^ 32`. -/
theorem AwaitServerCloseEvent_timeout_in_range (st : thread_Settings) :
    2000000 ≤ AwaitServerCloseEvent_timeout st
    ∧ (st.isModeTime = false → AwaitServerCloseEvent_timeout st = 2000000)
    ∧ (st.isModeTime = true → st.mAmount * 10000 < 2 ^ 32 →
        AwaitServerCloseEvent_timeout st = max 2000000 (st.mAmount * 10000)) := by
  have key : AwaitServerCloseEvent_timeout st
      = if (if st.isModeTime then toU32 (toS32 (st.mAmount * 10000)) else 2000000) < 2000000
        then 2000000
        else (if st.isModeTime then toU32 (toS32 (st.mAmount * 10000)) else 2000000) := rfl
  rw [key]
  refine ⟨?_, fun h => ?_, fun h hr => ?_⟩
  · generalize (if st.isModeTime = true then toU32 (toS32 (st.mAmount * 10000)) else 2000000) = a
    split <;> omega
  · simp [h]
  · have hx : toU32 (toS32 (st.mAmount * 10000)) = st.mAmount * 10000 := by
      unfold toU32 toS32
      have hm : st.mAmount * 10000 % 2 ^ 32 = st.mAmount * 10000 := Nat.mod_eq_of_lt hr
      rw [hm]
      split <;> omega
    rw [if_pos h, hx]
    split <;> omega

/-- Claim C27 at mode-time tests of 4295 s and of two hours: `mAmount * 10000` is
4 295 000 000 µs resp. 7 200 000 000 µs, and the receive timeout that
`AwaitServerCloseEvent` sets is 2 000 000 µs resp. 2 905 032 704 µs. -/
theorem C27_receive_timeout_of_long_tests :
    max 2000000 (sampleLongFlow.mAmount * 10000) = 4295000000
    ∧ AwaitServerCloseEvent_timeout sampleLongFlow = 2000000
    ∧ max 2000000 (sampleTwoHourFlow.mAmount * 10000) = 7200000000
    ∧ AwaitServerCloseEvent_timeout sampleTwoHourFlow = 2905032704 := by
  refine ⟨by decide, by decide, by decide, by decide⟩

/-! ## C23: the connection attempts of `my_connect` -/

/-- With no retry and a failing `connect` the function makes one attempt, returns false
and leaves the socket invalid although `close_on_fail` is false. -/
theorem my_connect_failure_example :
    connectAttempts (my_connect id 4000000 false { connect := fun _ => SOCKET_ERROR }
        { isUDP := false, mConnectRetries := 0 }).calls = 1
    ∧ (my_connect id 4000000 false { connect := fun _ => SOCKET_ERROR }
        { isUDP := false, mConnectRetries := 0 }).connected = false
    ∧ (my_connect id 4000000 false { connect := fun _ => SOCKET_ERROR }
        { isUDP := false, mConnectRetries := 0 }).mySocket = INVALID_SOCKET := by
  refine ⟨by decide, by decide, by decide⟩

/-! ## C22: a `select` timeout in `RunWriteEventsTCP` -/

/-- An iteration of `RunWriteEventsTCP` in which `select` returns 0 or less leaves
`peerclose` set, whatever the state before, and the record it reports (unless
`one_report`) is an empty report of length 0. -/
theorem RunWriteEventsTCP_body_timeout (e : WriteEventEnv) (s : WriteEventsLoop)
    (h : e.select ≤ 0) :
    (RunWriteEventsTCP_body e s).client.peerclose = true
    ∧ (RunWriteEventsTCP_body e s).client.ring
        = if s.client.one_report then s.client.ring
          else s.client.ring
                 ++ [{ s.client.reportstruct with packetLen := 0, emptyreport := true }] := by
  unfold RunWriteEventsTCP_body
  simp only []
  rw [if_pos h]
  simp only [if_true, Bool.not_true, Bool.and_false, Bool.false_eq_true, if_false]
  by_cases ho : s.client.one_report = true
  · simp [ho]
  · simp [ho, myReportPacket]

/-- Claim C22 at a `select` timeout: a stream flow of 100 s, not interrupted, at second 1
of the test. The iteration whose `select` returns 0 reports an empty record of length 0
and sets `peerclose`; `InProgress` is false afterwards and the loop ends before the second
iteration, with 99 s of the test time left. -/
theorem C22_select_timeout_ends_the_loop :
    InProgress false true
        (RunWriteEventsTCP_body { select := 0 }
          { client := sampleWriteEventsClient, writelen := 1000 }).client = false
    ∧ (RunWriteEventsTCP { mSecs := 1 } sampleWriteEvents sampleWriteEventsClient).2
        = LoopExit.conditionFalse
    ∧ (RunWriteEventsTCP { mSecs := 1 } sampleWriteEvents sampleWriteEventsClient).1.client.peerclose
        = true
    ∧ (RunWriteEventsTCP { mSecs := 1 } sampleWriteEvents
          sampleWriteEventsClient).1.client.ring.map (fun r => (r.emptyreport, r.packetLen))
        = [(true, 0)]
    ∧ (RunWriteEventsTCP { mSecs := 1 } sampleWriteEvents
          sampleWriteEventsClient).1.client.mEndTime.before
        (RunWriteEventsTCP { mSecs := 1 } sampleWriteEvents
          sampleWriteEventsClient).1.client.reportstruct.packetTime = false := by
  refine ⟨by decide, by decide, by decide, by decide, by decide⟩

/-! ## C28: the ids of the datagrams written by `RunUDP` -/

theorem writtenIds_append (l1 l2 : List (UDP_datagram × Int)) :
    writtenIds (l1 ++ l2) = writtenIds l1 ++ writtenIds l2 := by
  simp [writtenIds, List.filter_append]

/-- What a datagram write iteration does to the wire and the packet id: the datagram
carries the packet id of the loop head; after a fatal error the loop is left, after
another failed write the packet id is unchanged, after a write that did not fail it is
one greater. -/
theorem RunUDP_body_wire (e : UdpIterEnv) (c : Client) :
    ∃ (buf : UDP_datagram) (len : Int),
      (RunUDP_body e c).1.wire = c.wire ++ [(buf, len)]
      ∧ readPacketID buf = readPacketID (WritePacketID c.reportstruct.packetID c.mBuf_UDP)
      ∧ ((len < 0 ∧ (RunUDP_body e c).2 = some LoopExit.break_)
         ∨ (len < 0 ∧ (RunUDP_body e c).2 = none
            ∧ (RunUDP_body e c).1.reportstruct.packetID = c.reportstruct.packetID)
         ∨ (0 ≤ len ∧ (RunUDP_body e c).2 = none
            ∧ (RunUDP_body e c).1.reportstruct.packetID = c.reportstruct.packetID + 1)) := by
  unfold RunUDP_body myReportPacket
  dsimp only
  split_ifs
  all_goals first
    | exact ⟨_, _, rfl, rfl, Or.inl ⟨by assumption, rfl⟩⟩
    | exact ⟨_, _, rfl, rfl, Or.inr (Or.inl ⟨by assumption, rfl, by simp⟩)⟩
    | exact ⟨_, _, rfl, rfl, Or.inr (Or.inr ⟨by omega, rfl, rfl⟩)⟩

/-- The ids of the datagrams that the loop of `RunUDP` wrote without a failure are
consecutive integers starting at the packet id the loop was entered with. -/
theorem RunUDP_loop_wire : ∀ (envs : List UdpIterEnv) (c : Client),
    -(2 : Int) ^ 63 ≤ c.reportstruct.packetID →
    c.reportstruct.packetID + (envs.length : Int) < (2 : Int) ^ 63 →
    ∃ (new : List (UDP_datagram × Int)) (k : Nat),
      (RunUDP_loop envs c).1.wire = c.wire ++ new
      ∧ writtenIds new
          = (List.range k).map (fun i : Nat => c.reportstruct.packetID + (i : Int)) := by
  intro envs
  induction envs with
  | nil => intro c _ _; exact ⟨[], 0, by simp [RunUDP_loop], rfl⟩
  | cons e es ih =>
    intro c hlo hhi
    simp only [List.length_cons, Nat.cast_add, Nat.cast_one] at hhi
    rw [RunUDP_loop]
    split
    · obtain ⟨buf, len, hw, hid, hcase⟩ := RunUDP_body_wire e c
      rw [readPacketID_WritePacketID _ _ hlo (by omega)] at hid
      rcases hbody : RunUDP_body e c with ⟨c1, x⟩
      rw [hbody] at hw hcase
      dsimp only at hw hcase ⊢
      rcases hcase with ⟨hl, hx⟩ | ⟨hl, hx, hp⟩ | ⟨hl, hx, hp⟩
      · subst hx
        dsimp only
        refine ⟨[(buf, len)], 0, hw, ?_⟩
        simp [writtenIds, List.filter_cons, not_le.2 hl]
      · subst hx
        dsimp only
        obtain ⟨new1, k1, hw1, hids⟩ := ih c1 (by omega) (by omega)
        refine ⟨(buf, len) :: new1, k1, ?_, ?_⟩
        · rw [hw1, hw, List.append_assoc, List.singleton_append]
        · have hsplit : writtenIds ((buf, len) :: new1) = writtenIds new1 := by
            simp [writtenIds, List.filter_cons, not_le.2 hl]
          rw [hsplit, hids, hp]
      · subst hx
        dsimp only
        obtain ⟨new1, k1, hw1, hids⟩ := ih c1 (by omega) (by omega)
        refine ⟨(buf, len) :: new1, k1 + 1, ?_, ?_⟩
        · rw [hw1, hw, List.append_assoc, List.singleton_append]
        · have hsplit : writtenIds ((buf, len) :: new1)
              = readPacketID buf :: writtenIds new1 := by
            simp [writtenIds, List.filter_cons, hl]
          rw [hsplit, hids, hp, hid, ids_range_succ]
    · exact ⟨[], 0, by simp, rfl⟩

/-- Claim C28: in `RunUDP` a datagram whose write fails without ending the loop does not
consume a sequence number: the datagram of the iteration carries the packet id of the
loop head and after the failed write the packet id is again that id; the ids carried by
the datagrams whose write did not fail are consecutive integers, each exactly one more
than the previous one, starting at the packet id the loop was entered with (ids within
the signed 64-bit range). -/
theorem C28_written_datagram_ids_consecutive (envs : List UdpIterEnv) (c : Client)
    (hlo : -(2 : Int) ^ 63 ≤ c.reportstruct.packetID)
    (hhi : c.reportstruct.packetID + (envs.length : Int) < (2 : Int) ^ 63) :
    (∀ e : UdpIterEnv, ∃ (buf : UDP_datagram) (len : Int),
        (RunUDP_body e c).1.wire = c.wire ++ [(buf, len)]
        ∧ readPacketID buf = c.reportstruct.packetID
        ∧ (len < 0 → (RunUDP_body e c).2 = none →
            (RunUDP_body e c).1.reportstruct.packetID = c.reportstruct.packetID)
        ∧ (0 ≤ len →
            (RunUDP_body e c).1.reportstruct.packetID = c.reportstruct.packetID + 1))
    ∧ List.Chain' (fun a b : Int => b = a + 1)
        (writtenIds ((RunUDP_loop envs c).1.wire.drop c.wire.length))
    ∧ ∃ k : Nat, writtenIds ((RunUDP_loop envs c).1.wire.drop c.wire.length)
        = (List.range k).map (fun i : Nat => c.reportstruct.packetID + (i : Int)) := by
  refine ⟨fun e => ?_, ?_, ?_⟩
  · obtain ⟨buf, len, hw, hid, hcase⟩ := RunUDP_body_wire e c
    rw [readPacketID_WritePacketID _ _ hlo (by omega)] at hid
    refine ⟨buf, len, hw, hid, fun hl hx => ?_, fun hl => ?_⟩
    · rcases hcase with ⟨_, hx2⟩ | ⟨_, _, hp⟩ | ⟨hl2, _, _⟩
      · rw [hx] at hx2; cases hx2
      · exact hp
      · omega
    · rcases hcase with ⟨hl2, _⟩ | ⟨hl2, _, _⟩ | ⟨_, _, hp⟩
      · omega
      · omega
      · exact hp
  · obtain ⟨new, k, hw, hids⟩ := RunUDP_loop_wire envs c hlo hhi
    rw [hw, List.drop_left, hids]
    exact ids_chain _ k
  · obtain ⟨new, k, hw, hids⟩ := RunUDP_loop_wire envs c hlo hhi
    exact ⟨k, by rw [hw, List.drop_left, hids]⟩

/-- Witness of C28: a datagram flow whose second write fails non-fatally puts the ids
1, 2, 2, 3 on the wire; the datagrams written without a failure carry 1, 2, 3. -/
theorem C28_written_datagram_ids_consecutive_witness :
    List.Chain' (fun a b : Int => b = a + 1)
      (writtenIds ((RunUDP_loop sampleUdpEnvs sampleUdpClient).1.wire.drop
        sampleUdpClient.wire.length))
    ∧ ((RunUDP_loop sampleUdpEnvs sampleUdpClient).1.wire.map
        (fun w => (readPacketID w.1, decide (0 ≤ w.2))))
        = [(1, true), (2, false), (2, true), (3, true)] :=
  ⟨(C28_written_datagram_ids_consecutive sampleUdpEnvs sampleUdpClient (by decide)
      (by decide)).2.1,
   by decide⟩

/-! ## C29: the length of the payload write after a burst header -/

/-- At the start of a burst of a trip-time flow the length passed to the payload write is
the planned length (the buffer length, or the remaining amount when it is smaller) minus
the result of the header write. -/
theorem RunRateLimitedTCP_prepare_at_burst_start (e : RateIterEnv) (s : RateLoop)
    (ht : s.client.mSettings.isTripTime = true) (hb : s.burst_remaining = 0) :
    (RunRateLimitedTCP_prepare e s).2 = e.writen
    ∧ (RunRateLimitedTCP_prepare e s).1.client.reportstruct.packetLen
        = (if isModeAmount s.client.mSettings then
             (if s.client.mSettings.mAmount < toU32 s.client.mSettings.mBufLen
              then toS32 s.client.mSettings.mAmount else s.client.mSettings.mBufLen)
           else s.client.mSettings.mBufLen) - e.writen := by
  unfold RunRateLimitedTCP_prepare
  simp only []
  rw [if_pos ht, if_pos hb]
  exact ⟨rfl, rfl⟩

/-- Claim C29 at a trip-time flow in mode-amount with 1010 bytes to send and a buffer of
1000 bytes. The first iteration writes the burst header and 960 bytes, which ends the
burst and leaves 10 bytes to send. The second iteration, 1300 µs after the start, has
tokens, plans a write of 10 bytes, writes the next burst header (40 bytes) and passes the
length -30 to the payload write. -/
theorem C29_payload_length_after_header_negative :
    sampleTripTimeAmountAfterOne.burst_remaining = 0
    ∧ sampleTripTimeAmountAfterOne.client.mSettings.mAmount = 10
    ∧ sampleTripTimeAmountAfterOne.client.ring.map (fun r => r.packetLen) = [1000]
    ∧ InProgress false true sampleTripTimeAmountAfterOne.client = true
    ∧ 0 ≤ (RunRateLimitedTCP_refill id { time2 := { mUsecs := 1300 } }
              sampleTripTimeAmountAfterOne).tokens
    ∧ (RunRateLimitedTCP_prepare { time2 := { mUsecs := 1300 } }
          (RunRateLimitedTCP_refill id { time2 := { mUsecs := 1300 } }
            sampleTripTimeAmountAfterOne)).2 = 40
    ∧ (RunRateLimitedTCP_prepare { time2 := { mUsecs := 1300 } }
          (RunRateLimitedTCP_refill id { time2 := { mUsecs := 1300 } }
            sampleTripTimeAmountAfterOne)).1.client.reportstruct.packetLen = -30 := by
  refine ⟨by decide!, by decide!, by decide!, by decide!, by decide!, by decide!, by decide!⟩

/-! ## C30: the divisor of the varying load of `RunUDP` -/

/-- The divisor `var_rate` is never negative, and it is zero exactly for the samples that
are not positive. -/
theorem RunUDP_var_rate_spec (lognormal : Int) :
    0 ≤ RunUDP_var_rate lognormal
    ∧ (RunUDP_var_rate lognormal = 0 ↔ lognormal ≤ 0)
    ∧ (0 < lognormal → RunUDP_var_rate lognormal = lognormal) := by
  unfold RunUDP_var_rate
  simp only []
  refine ⟨?_, ?_, ?_⟩
  · split <;> omega
  · split <;> omega
  · intro h
    rw [if_neg (by omega)]

/-- When the varying-load block recomputes `delay_target` in exact arithmetic, the result
is finite exactly when the sample is positive, and then it is
`mBufLen * (8e9 / var_rate)`. -/
theorem RunUDP_varyload_recomputed (now : Timestamp) (lognormal : Int) (st : thread_Settings)
    (s : VaryLoad) (hv : st.isVaryLoad = true) (hu : st.mAppRateUnits = RateUnits.kRate_BW)
    (hp : now.subSec id s.time3 ≥ VARYLOAD_PERIOD id) :
    (RunUDP_varyload id now lognormal st s).time3 = now
    ∧ (lognormal ≤ 0 → (RunUDP_varyload id now lognormal st s).delay_target = none)
    ∧ (0 < lognormal →
        (RunUDP_varyload id now lognormal st s).delay_target
          = some ((st.mBufLen : ℚ) * (8000000000 / (lognormal : ℚ)))) := by
  unfold RunUDP_varyload
  rw [if_pos (by simp [hv, hu]), if_pos hp]
  refine ⟨rfl, fun h => ?_, fun h => ?_⟩
  · have h0 : RunUDP_var_rate lognormal = 0 := (RunUDP_var_rate_spec lognormal).2.1.2 h
    simp [h0, divDouble]
  · have h1 : RunUDP_var_rate lognormal = lognormal := (RunUDP_var_rate_spec lognormal).2.2 h
    have hne : (lognormal : ℚ) ≠ 0 := by
      have : (0 : ℚ) < (lognormal : ℚ) := by exact_mod_cast h
      exact ne_of_gt this
    simp only [h1, divDouble, id, if_neg hne, Option.map_some', kSecs_to_nsecs, kBytes_to_Bits]
    norm_num

/-- Claim C30 at a lognormal sample of -5 (and at a sample of 0), drawn one second after
the last recomputation: the sample is raised to `var_rate = 0`, which is not strictly
positive, `delay_target` is recomputed with the divisor 0 and its value is not finite. -/
theorem C30_varyload_divides_by_zero :
    RunUDP_var_rate (-5) = 0
    ∧ (RunUDP_varyload id { mSecs := 1 } (-5) sampleVaryLoadFlow {}).time3 = { mSecs := 1 }
    ∧ (RunUDP_varyload id { mSecs := 1 } (-5) sampleVaryLoadFlow {}).delay_target = none
    ∧ RunUDP_var_rate 0 = 0
    ∧ (RunUDP_varyload id { mSecs := 1 } 0 sampleVaryLoadFlow {}).delay_target = none
    ∧ (RunUDP_varyload id { mSecs := 1 } 4000000 sampleVaryLoadFlow {}).delay_target
        = some 2940000 := by
  refine ⟨by decide, by decide!, by decide!, by decide, by decide!, by decide!⟩

/-! ## The rounding of binary64 arithmetic is monotone and exact on integers -/

theorem pow2_eq_zpow (k : Int) : pow2 k = (2 : ℚ) ^ k := by
  unfold pow2
  split
  · rename_i h
    conv_rhs => rw [← Int.toNat_of_nonneg h]
    rw [zpow_natCast]
  · rename_i h
    have hk : k = -((-k).toNat : Int) := by
      rw [Int.toNat_of_nonneg (by omega)]; ring
    conv_rhs => rw [hk]
    rw [zpow_neg, zpow_natCast, one_div]

theorem pow2_pos (k : Int) : 0 < pow2 k := by
  rw [pow2_eq_zpow]
  positivity

theorem pow2_add (a b : Int) : pow2 (a + b) = pow2 a * pow2 b := by
  rw [pow2_eq_zpow, pow2_eq_zpow, pow2_eq_zpow, zpow_add₀ (by norm_num)]

theorem pow2_le_pow2 {a b : Int} (h : a ≤ b) : pow2 a ≤ pow2 b := by
  rw [pow2_eq_zpow, pow2_eq_zpow]
  exact zpow_le_zpow_right₀ (by norm_num) h

theorem pow2_lt_pow2_iff {a b : Int} : pow2 a < pow2 b ↔ a < b := by
  rw [pow2_eq_zpow, pow2_eq_zpow]
  exact zpow_lt_zpow_iff_right₀ (by norm_num)

theorem pow2_natCast (n : Nat) : pow2 (n : Int) = (2 : ℚ) ^ n := by
  rw [pow2_eq_zpow, zpow_natCast]

/-- With enough fuel `log2Fuel` is the binary logarithm rounded down. -/
theorem log2Fuel_spec : ∀ (fuel n : Nat), 1 ≤ n → n ≤ fuel →
    2 ^ log2Fuel fuel n ≤ n ∧ n < 2 ^ (log2Fuel fuel n + 1) := by
  intro fuel
  induction fuel with
  | zero => intro n h1 h2; omega
  | succ fuel ih =>
    intro n h1 h2
    rw [log2Fuel]
    split
    · rename_i h
      obtain ⟨ha, hb⟩ := ih (n / 2) (by omega) (by omega)
      constructor
      · rw [pow_succ]; omega
      · rw [pow_succ]; omega
    · have : n = 1 := by omega
      subst this
      simp

/-- The binary exponent brackets a positive rational between two powers of two. -/
theorem binaryExponent_spec (x : ℚ) (hx : 0 < x) :
    pow2 (binaryExponent x) ≤ x ∧ x < pow2 (binaryExponent x + 1) := by
  have hnum : 0 < x.num := Rat.num_pos.2 hx
  have hp1 : 1 ≤ x.num.natAbs := by omega
  have hq1 : 1 ≤ x.den := x.den_pos
  obtain ⟨ha1, ha2⟩ := log2Fuel_spec x.num.natAbs x.num.natAbs hp1 (le_refl _)
  obtain ⟨hb1, hb2⟩ := log2Fuel_spec x.den x.den hq1 (le_refl _)
  unfold binaryExponent
  simp only []
  generalize log2Fuel x.num.natAbs x.num.natAbs = a at ha1 ha2 ⊢
  generalize log2Fuel x.den x.den = b at hb1 hb2 ⊢
  have hxe : x = (x.num.natAbs : ℚ) / (x.den : ℚ) := by
    have h2 : (x.num.natAbs : ℚ) = (x.num : ℚ) := by
      rw [Nat.cast_natAbs, abs_of_pos hnum]
    rw [h2]
    exact (Rat.num_div_den x).symm
  have hP1 : (2 : ℚ) ^ a ≤ (x.num.natAbs : ℚ) := by exact_mod_cast ha1
  have hP2 : (x.num.natAbs : ℚ) < 2 ^ (a + 1) := by exact_mod_cast ha2
  have hQ1 : (2 : ℚ) ^ b ≤ (x.den : ℚ) := by exact_mod_cast hb1
  have hQ2 : (x.den : ℚ) < 2 ^ (b + 1) := by exact_mod_cast hb2
  have hQ0 : (0 : ℚ) < (x.den : ℚ) := by exact_mod_cast hq1
  have hA0 : (0 : ℚ) < 2 ^ a := by positivity
  have hB0 : (0 : ℚ) < 2 ^ b := by positivity
  have hk : pow2 ((a : Int) - (b : Int)) = (2 : ℚ) ^ a / 2 ^ b := by
    rw [pow2_eq_zpow, zpow_sub₀ (by norm_num), zpow_natCast, zpow_natCast]
  have hk1 : pow2 ((a : Int) - (b : Int) + 1) = 2 * ((2 : ℚ) ^ a / 2 ^ b) := by
    rw [pow2_add, hk]
    have : pow2 1 = 2 := by rw [pow2_eq_zpow]; norm_num
    rw [this]; ring
  have hk0 : pow2 ((a : Int) - (b : Int) - 1) = ((2 : ℚ) ^ a / 2 ^ b) / 2 := by
    have h := pow2_add ((a : Int) - (b : Int) - 1) 1
    have h1 : pow2 1 = 2 := by rw [pow2_eq_zpow]; norm_num
    rw [show (a : Int) - (b : Int) - 1 + 1 = (a : Int) - (b : Int) by ring, hk, h1] at h
    rw [h]; ring
  have hup : x < 2 * ((2 : ℚ) ^ a / 2 ^ b) := by
    rw [hxe, div_lt_iff₀ hQ0]
    have h1 : 2 * ((2 : ℚ) ^ a / 2 ^ b) * (x.den : ℚ) = 2 * (2 : ℚ) ^ a * ((x.den : ℚ) / 2 ^ b) := by
      field_simp
    rw [h1]
    have h2 : (1 : ℚ) ≤ (x.den : ℚ) / 2 ^ b := by
      rw [le_div_iff₀ hB0]; linarith
    have h3 : (x.num.natAbs : ℚ) < 2 * 2 ^ a := by
      rw [pow_succ] at hP2; linarith
    nlinarith
  have hlo : ((2 : ℚ) ^ a / 2 ^ b) / 2 ≤ x := by
    rw [hxe, le_div_iff₀ hQ0, div_div, div_mul_eq_mul_div, div_le_iff₀ (by positivity)]
    have h3 : (x.den : ℚ) < 2 ^ b * 2 := by
      rw [pow_succ] at hQ2; exact hQ2
    nlinarith
  split
  · rename_i h
    exact ⟨h, by rw [hk1]; exact hup⟩
  · rename_i h
    refine ⟨by rw [hk0]; exact hlo, ?_⟩
    rw [show (a : Int) - (b : Int) - 1 + 1 = (a : Int) - (b : Int) by ring]
    exact not_le.1 h

theorem roundHalfEven_near (y : ℚ) : |((roundHalfEven y : Int) : ℚ) - y| ≤ 1 / 2 := by
  have hf : Rat.floor y = ⌊y⌋ := rfl
  have h1 : ((⌊y⌋ : Int) : ℚ) ≤ y := Int.floor_le y
  have h2 : y < ((⌊y⌋ : Int) : ℚ) + 1 := Int.lt_floor_add_one y
  unfold roundHalfEven
  simp only [hf]
  rw [abs_le]
  split
  · constructor <;> linarith
  · split
    · push_cast
      constructor <;> linarith
    · rename_i h3 h4
      have h5 : y - ((⌊y⌋ : Int) : ℚ) = 1 / 2 := le_antisymm (not_lt.1 h4) (not_lt.1 h3)
      split
      · constructor <;> linarith
      · push_cast
        constructor <;> linarith

theorem roundHalfEven_int (n : Int) : roundHalfEven (n : ℚ) = n := by
  have hf : Rat.floor (n : ℚ) = n := by
    show ⌊(n : ℚ)⌋ = n
    exact Int.floor_intCast n
  unfold roundHalfEven
  simp only [hf]
  rw [if_pos (by norm_num)]

theorem roundHalfEven_mono {y1 y2 : ℚ} (h : y1 ≤ y2) : roundHalfEven y1 ≤ roundHalfEven y2 := by
  by_contra hc
  have hc1 : roundHalfEven y2 + 1 ≤ roundHalfEven y1 := by omega
  have hq : ((roundHalfEven y2 : Int) : ℚ) + 1 ≤ ((roundHalfEven y1 : Int) : ℚ) := by
    exact_mod_cast hc1
  obtain ⟨a1, a2⟩ := abs_le.1 (roundHalfEven_near y1)
  obtain ⟨b1, b2⟩ := abs_le.1 (roundHalfEven_near y2)
  have heq : y1 = y2 := by linarith
  rw [heq] at hc
  exact hc (le_refl _)

theorem roundHalfEven_le_of_le_int {y : ℚ} {n : Int} (h : y ≤ (n : ℚ)) : roundHalfEven y ≤ n := by
  have := roundHalfEven_mono h
  rwa [roundHalfEven_int] at this

theorem roundHalfEven_ge_of_int_le {y : ℚ} {n : Int} (h : (n : ℚ) ≤ y) : n ≤ roundHalfEven y := by
  have := roundHalfEven_mono h
  rwa [roundHalfEven_int] at this

theorem roundDouble_zero : roundDouble 0 = 0 := by
  unfold roundDouble
  rw [if_pos rfl]

theorem roundDouble_pos (x : ℚ) (hx : 0 < x) :
    roundDouble x
      = ((roundHalfEven (x / pow2 (binaryExponent x - 52)) : Int) : ℚ)
          * pow2 (binaryExponent x - 52) := by
  unfold roundDouble
  rw [if_neg (ne_of_gt hx)]
  simp only [if_neg (not_lt.2 (le_of_lt hx)), one_mul]

theorem roundDouble_neg (x : ℚ) (hx : x < 0) : roundDouble x = -roundDouble (-x) := by
  rw [roundDouble_pos (-x) (by linarith)]
  unfold roundDouble
  rw [if_neg (ne_of_lt hx)]
  simp only [if_pos hx]
  ring

/-- The rounding of a positive value stays within the binade of the value. -/
theorem roundDouble_pos_bounds (x : ℚ) (hx : 0 < x) :
    pow2 (binaryExponent x) ≤ roundDouble x ∧ roundDouble x ≤ pow2 (binaryExponent x + 1) := by
  obtain ⟨h1, h2⟩ := binaryExponent_spec x hx
  rw [roundDouble_pos x hx]
  generalize binaryExponent x = e0 at h1 h2 ⊢
  have hpe : 0 < pow2 (e0 - 52) := pow2_pos _
  have e52 : pow2 e0 = ((2 ^ 52 : Int) : ℚ) * pow2 (e0 - 52) := by
    have h := pow2_add 52 (e0 - 52)
    rw [show (52 : Int) + (e0 - 52) = e0 by ring] at h
    rw [h, show (52 : Int) = ((52 : Nat) : Int) by rfl, pow2_natCast]
    norm_num
  have e53 : pow2 (e0 + 1) = ((2 ^ 53 : Int) : ℚ) * pow2 (e0 - 52) := by
    have h := pow2_add 53 (e0 - 52)
    rw [show (53 : Int) + (e0 - 52) = e0 + 1 by ring] at h
    rw [h, show (53 : Int) = ((53 : Nat) : Int) by rfl, pow2_natCast]
    norm_num
  have hs1 : ((2 ^ 52 : Int) : ℚ) ≤ x / pow2 (e0 - 52) := by
    rw [le_div_iff₀ hpe, ← e52]; exact h1
  have hs2 : x / pow2 (e0 - 52) ≤ ((2 ^ 53 : Int) : ℚ) := by
    rw [div_le_iff₀ hpe, ← e53]; exact le_of_lt h2
  have hm1 : (2 ^ 52 : Int) ≤ roundHalfEven (x / pow2 (e0 - 52)) :=
    roundHalfEven_ge_of_int_le hs1
  have hm2 : roundHalfEven (x / pow2 (e0 - 52)) ≤ (2 ^ 53 : Int) :=
    roundHalfEven_le_of_le_int hs2
  have hq1 : ((2 ^ 52 : Int) : ℚ) ≤ ((roundHalfEven (x / pow2 (e0 - 52)) : Int) : ℚ) := by
    exact_mod_cast hm1
  have hq2 : ((roundHalfEven (x / pow2 (e0 - 52)) : Int) : ℚ) ≤ ((2 ^ 53 : Int) : ℚ) := by
    exact_mod_cast hm2
  rw [e52, e53]
  exact ⟨mul_le_mul_of_nonneg_right hq1 (le_of_lt hpe),
    mul_le_mul_of_nonneg_right hq2 (le_of_lt hpe)⟩

theorem roundDouble_pos_pos (x : ℚ) (hx : 0 < x) : 0 < roundDouble x :=
  lt_of_lt_of_le (pow2_pos _) (roundDouble_pos_bounds x hx).1

theorem roundDouble_mono_pos {x y : ℚ} (hx : 0 < x) (hxy : x ≤ y) :
    roundDouble x ≤ roundDouble y := by
  have hy : 0 < y := lt_of_lt_of_le hx hxy
  obtain ⟨hx1, hx2⟩ := binaryExponent_spec x hx
  obtain ⟨hy1, hy2⟩ := binaryExponent_spec y hy
  have hle : binaryExponent x ≤ binaryExponent y := by
    have h : pow2 (binaryExponent x) < pow2 (binaryExponent y + 1) :=
      lt_of_le_of_lt (le_trans hx1 hxy) hy2
    have := pow2_lt_pow2_iff.1 h
    omega
  rcases lt_or_eq_of_le hle with hlt | heq
  · have h1 := (roundDouble_pos_bounds x hx).2
    have h2 := (roundDouble_pos_bounds y hy).1
    exact le_trans h1 (le_trans (pow2_le_pow2 (by omega)) h2)
  · rw [roundDouble_pos x hx, roundDouble_pos y hy, heq]
    have hpe : 0 < pow2 (binaryExponent y - 52) := pow2_pos _
    have hs : x / pow2 (binaryExponent y - 52) ≤ y / pow2 (binaryExponent y - 52) :=
      div_le_div_of_nonneg_right hxy (le_of_lt hpe)
    have hm := roundHalfEven_mono hs
    have hq : ((roundHalfEven (x / pow2 (binaryExponent y - 52)) : Int) : ℚ)
        ≤ ((roundHalfEven (y / pow2 (binaryExponent y - 52)) : Int) : ℚ) := by
      exact_mod_cast hm
    exact mul_le_mul_of_nonneg_right hq (le_of_lt hpe)

theorem roundDouble_mono (x y : ℚ) (hxy : x ≤ y) : roundDouble x ≤ roundDouble y := by
  rcases lt_trichotomy x 0 with hx | hx | hx
  · rcases lt_trichotomy y 0 with hy | hy | hy
    · rw [roundDouble_neg x hx, roundDouble_neg y hy]
      have := roundDouble_mono_pos (show 0 < -y by linarith) (show -y ≤ -x by linarith)
      linarith
    · rw [hy, roundDouble_zero, roundDouble_neg x hx]
      have := roundDouble_pos_pos (-x) (by linarith)
      linarith
    · rw [roundDouble_neg x hx]
      have h1 := roundDouble_pos_pos (-x) (by linarith)
      have h2 := roundDouble_pos_pos y hy
      linarith
  · rw [hx, roundDouble_zero]
    rcases lt_or_eq_of_le (show (0 : ℚ) ≤ y by linarith) with hy | hy
    · exact le_of_lt (roundDouble_pos_pos y hy)
    · rw [← hy, roundDouble_zero]
  · exact roundDouble_mono_pos hx hxy

theorem roundDouble_exact_pos (n : Int) (h0 : 0 < n) (h53 : n ≤ 2 ^ 53) :
    roundDouble (n : ℚ) = (n : ℚ) := by
  rcases lt_or_eq_of_le h53 with hlt | heq
  · have hx : (0 : ℚ) < (n : ℚ) := by exact_mod_cast h0
    obtain ⟨h1, _⟩ := binaryExponent_spec (n : ℚ) hx
    rw [roundDouble_pos _ hx]
    generalize binaryExponent (n : ℚ) = e0 at h1 ⊢
    have he : e0 < 53 := by
      have hp : pow2 e0 < pow2 53 := by
        refine lt_of_le_of_lt h1 ?_
        rw [show (53 : Int) = ((53 : Nat) : Int) by rfl, pow2_natCast]
        exact_mod_cast hlt
      exact pow2_lt_pow2_iff.1 hp
    obtain ⟨k, hk⟩ : ∃ k : Nat, (k : Int) = 52 - e0 := ⟨(52 - e0).toNat, by omega⟩
    have hpk : pow2 (e0 - 52) * (2 : ℚ) ^ k = 1 := by
      rw [← pow2_natCast, ← pow2_add, hk]
      rw [show e0 - 52 + (52 - e0) = 0 by ring]
      rfl
    have hk0 : (0 : ℚ) < (2 : ℚ) ^ k := by positivity
    have hpe : 0 < pow2 (e0 - 52) := pow2_pos _
    have hdiv : (n : ℚ) / pow2 (e0 - 52) = ((n * 2 ^ k : Int) : ℚ) := by
      rw [div_eq_iff (ne_of_gt hpe)]
      push_cast
      rw [mul_assoc, mul_comm ((2 : ℚ) ^ k), hpk, mul_one]
    rw [hdiv, roundHalfEven_int]
    push_cast
    rw [mul_assoc, mul_comm ((2 : ℚ) ^ k), hpk, mul_one]
  · rw [heq]
    decide!

theorem roundDouble_exact_int (n : Int) (h : |n| ≤ 2 ^ 53) : roundDouble (n : ℚ) = (n : ℚ) := by
  obtain ⟨h1, h2⟩ := abs_le.1 h
  rcases lt_trichotomy n 0 with hn | hn | hn
  · have hx : ((n : Int) : ℚ) < 0 := by exact_mod_cast hn
    rw [roundDouble_neg _ hx]
    have := roundDouble_exact_pos (-n) (by omega) (by omega)
    push_cast at this
    rw [this]
    ring
  · rw [hn]
    exact_mod_cast roundDouble_zero
  · exact roundDouble_exact_pos n hn h2

/-- The rounding of binary64 arithmetic is one of the roundings the theorems on `double`
values quantify over: it is monotone and exact on the integers up to `2 ^ 53`. -/
theorem DoubleRounding_roundDouble : DoubleRounding roundDouble :=
  ⟨roundDouble_mono, roundDouble_exact_int⟩

/-! ## C15: the delay target in `double` arithmetic -/

/-- A rounding that is monotone and exact on the integers up to `2 ^ 53` maps a value
of magnitude at most `2 ^ 53` between its floor and its ceiling. -/
theorem DoubleRounding_bracket {fl : ℚ → ℚ} (hfl : DoubleRounding fl) (x : ℚ)
    (hx : |x| ≤ 2 ^ 53) :
    ((⌊x⌋ : Int) : ℚ) ≤ fl x ∧ fl x ≤ ((⌈x⌉ : Int) : ℚ) := by
  obtain ⟨hlo, hhi⟩ := abs_le.1 hx
  have h53 : ((2 : ℚ) ^ 53) = (((2 : Int) ^ 53 : Int) : ℚ) := by norm_num
  have hf1 : -(2 : Int) ^ 53 ≤ ⌊x⌋ := by
    apply Int.le_floor.2
    push_cast
    exact hlo
  have hf2 : ⌊x⌋ ≤ (2 : Int) ^ 53 := by
    have h1 : ((⌊x⌋ : Int) : ℚ) ≤ (((2 : Int) ^ 53 : Int) : ℚ) := by
      rw [← h53]; exact le_trans (Int.floor_le x) hhi
    exact_mod_cast h1
  have hc1 : -(2 : Int) ^ 53 ≤ ⌈x⌉ := by
    have h1 : ((-(2 : Int) ^ 53 : Int) : ℚ) ≤ ((⌈x⌉ : Int) : ℚ) := by
      push_cast
      exact le_trans hlo (Int.le_ceil x)
    exact_mod_cast h1
  have hc2 : ⌈x⌉ ≤ (2 : Int) ^ 53 := by
    apply Int.ceil_le.2
    push_cast
    exact hhi
  constructor
  · have h := hfl.mono _ _ (Int.floor_le x)
    rwa [hfl.exact_int ⌊x⌋ (abs_le.2 ⟨hf1, hf2⟩)] at h
  · have h := hfl.mono _ _ (Int.le_ceil x)
    rwa [hfl.exact_int ⌈x⌉ (abs_le.2 ⟨hc1, hc2⟩)] at h

/-- Such a rounding changes a value of magnitude at most `2 ^ 53` by at most 1. -/
theorem DoubleRounding_near {fl : ℚ → ℚ} (hfl : DoubleRounding fl) (x : ℚ)
    (hx : |x| ≤ 2 ^ 53) : |fl x - x| ≤ 1 := by
  obtain ⟨h1, h2⟩ := DoubleRounding_bracket hfl x hx
  have h3 : ((⌈x⌉ : Int) : ℚ) < x + 1 := Int.ceil_lt_add_one x
  have h4 : x - 1 < ((⌊x⌋ : Int) : ℚ) := Int.sub_one_lt_floor x
  rw [abs_le]
  constructor <;> linarith

/-- The delay target of a flow paced in packets per second, for every rounding: the
rounded quotient `10^9 / R`. -/
theorem get_delay_target_pps {fl : ℚ → ℚ} (hfl : DoubleRounding fl) (st : thread_Settings)
    (hi : st.isIPG = false) (hu : st.mAppRateUnits = RateUnits.kRate_PPS)
    (hR : st.mAppRate ≤ 2 ^ 53) :
    get_delay_target fl st = fl (10 ^ 9 / (st.mAppRate : ℚ)) := by
  unfold get_delay_target
  rw [if_neg (by simp [hi]), if_neg (by simp [hu]), hfl.exact_nat _ hR]
  norm_num

/-- The delay target of a flow paced in bandwidth units, for every rounding: the buffer
length times the rounded quotient `8 * 10^9 / R`, rounded. -/
theorem get_delay_target_bw {fl : ℚ → ℚ} (hfl : DoubleRounding fl) (st : thread_Settings)
    (hi : st.isIPG = false) (hu : st.mAppRateUnits = RateUnits.kRate_BW)
    (hR : st.mAppRate ≤ 2 ^ 53) :
    get_delay_target fl st
      = fl ((st.mBufLen : ℚ) * fl (8 * 10 ^ 9 / (st.mAppRate : ℚ))) := by
  unfold get_delay_target
  rw [if_neg (by simp [hi]), if_pos hu, hfl.exact_nat _ hR]
  have h8 : fl (kSecs_to_nsecs * (kBytes_to_Bits : ℚ)) = 8 * 10 ^ 9 := by
    have h := hfl.exact_nat 8000000000 (by norm_num)
    simp only [kSecs_to_nsecs, kBytes_to_Bits]
    push_cast at h ⊢
    have e1 : (1000000000 : ℚ) * 8 = 8000000000 := by norm_num
    rw [e1, h]
    norm_num
  rw [h8]

/-- The rounding `roundDouble` at some values whose `double` is well known: 3 is
representable, 0.1 rounds to `3602879701896397 / 2^55` (0x3FB999999999999A), 1/3 rounds to
`6004799503160661 / 2^54` (0x3FD5555555555555), and `10^9 / 3` rounds to
`5592405333333333 / 2^24`. -/
theorem roundDouble_examples :
    roundDouble 3 = 3
    ∧ roundDouble (1 / 10) = 3602879701896397 / 36028797018963968
    ∧ roundDouble (1 / 3) = 6004799503160661 / 18014398509481984
    ∧ roundDouble (1000000000 / 3) = 5592405333333333 / 16777216
    ∧ get_delay_target roundDouble { mBufLen := 1470, mAppRate := 1000000 } = 11760000 := by
  refine ⟨by decide!, by decide!, by decide!, by decide!, by decide!⟩

/-- Claim C15, as the code computes it in `double` arithmetic, for every rounding `fl`
that is monotone and exact on the integers up to `2 ^ 53`. `get_delay_target` returns, in
nanoseconds: the rounded product `mBurstIPG * 10^6` when an explicit IPG is set;
otherwise, for a rate `0 < R ≤ 2^53`, the rounded product of `bufLen` and the rounded
quotient `8 * 10^9 / R` for bandwidth units, and the rounded quotient `10^9 / R` for
packets-per-second units. The result is exactly
`bufLen * 8 * 10^9 / R` resp. `10^9 / R` when `R` divides `8 * 10^9` resp. `10^9` (all
intermediate values are then integers), and exactly `mBurstIPG * 10^6` when that is an
integer; in general it differs from the exact value by at most `bufLen + 1` ns resp.
1 ns. For `bufLen = 1470` and `R = 10^6` the result is exactly 11 760 000. -/
theorem C15_get_delay_target (fl : ℚ → ℚ) (hfl : DoubleRounding fl) (st : thread_Settings) :
    (st.isIPG = true →
        get_delay_target fl st = fl (st.mBurstIPG * 10 ^ 6)
        ∧ (|st.mBurstIPG * 10 ^ 6| ≤ 2 ^ 53 →
            |get_delay_target fl st - st.mBurstIPG * 10 ^ 6| ≤ 1)
        ∧ (∀ n : Int, |n| ≤ 2 ^ 53 → st.mBurstIPG * 10 ^ 6 = (n : ℚ) →
            get_delay_target fl st = st.mBurstIPG * 10 ^ 6))
    ∧ (st.isIPG = false → st.mAppRateUnits = RateUnits.kRate_BW → 0 < st.mAppRate →
        st.mAppRate ≤ 2 ^ 53 →
        get_delay_target fl st
          = fl ((st.mBufLen : ℚ) * fl (8 * 10 ^ 9 / (st.mAppRate : ℚ)))
        ∧ (st.mAppRate ∣ 8 * 10 ^ 9 →
            |(st.mBufLen : ℚ) * 8 * 10 ^ 9 / (st.mAppRate : ℚ)| ≤ 2 ^ 53 →
            get_delay_target fl st = (st.mBufLen : ℚ) * 8 * 10 ^ 9 / (st.mAppRate : ℚ))
        ∧ (0 ≤ st.mBufLen →
            (st.mBufLen : ℚ) * (8 * 10 ^ 9 / (st.mAppRate : ℚ) + 1) ≤ 2 ^ 53 →
            |get_delay_target fl st - (st.mBufLen : ℚ) * 8 * 10 ^ 9 / (st.mAppRate : ℚ)|
              ≤ (st.mBufLen : ℚ) + 1))
    ∧ (st.isIPG = false → st.mAppRateUnits = RateUnits.kRate_PPS → 0 < st.mAppRate →
        st.mAppRate ≤ 2 ^ 53 →
        get_delay_target fl st = fl (10 ^ 9 / (st.mAppRate : ℚ))
        ∧ (st.mAppRate ∣ 10 ^ 9 → get_delay_target fl st = 10 ^ 9 / (st.mAppRate : ℚ))
        ∧ |get_delay_target fl st - 10 ^ 9 / (st.mAppRate : ℚ)| ≤ 1)
    ∧ (st.isIPG = false → st.mAppRateUnits = RateUnits.kRate_BW → st.mBufLen = 1470 →
        st.mAppRate = 1000000 → get_delay_target fl st = 11760000) := by
  have hRpos : 0 < st.mAppRate → (0 : ℚ) < (st.mAppRate : ℚ) := fun h => by exact_mod_cast h
  have hR1 : 0 < st.mAppRate → (1 : ℚ) ≤ (st.mAppRate : ℚ) := fun h => by exact_mod_cast h
  have hbwexact : st.isIPG = false → st.mAppRateUnits = RateUnits.kRate_BW →
      0 < st.mAppRate → st.mAppRate ≤ 2 ^ 53 → st.mAppRate ∣ 8 * 10 ^ 9 →
      |(st.mBufLen : ℚ) * 8 * 10 ^ 9 / (st.mAppRate : ℚ)| ≤ 2 ^ 53 →
      get_delay_target fl st = (st.mBufLen : ℚ) * 8 * 10 ^ 9 / (st.mAppRate : ℚ) := by
    intro hi hu h0 hR hdvd hmag
    obtain ⟨k, hk⟩ := hdvd
    have hq : (8 * 10 ^ 9 : ℚ) / (st.mAppRate : ℚ) = (k : ℚ) := by
      have hk' : (8 * 10 ^ 9 : ℚ) = (st.mAppRate : ℚ) * (k : ℚ) := by exact_mod_cast hk
      rw [hk']
      field_simp [ne_of_gt (hRpos h0)]
    have hk53 : k ≤ 2 ^ 53 := by
      have h1 : k ≤ 8 * 10 ^ 9 := by
        rw [hk]
        exact Nat.le_mul_of_pos_left k h0
      exact le_trans h1 (by norm_num)
    have hval : (st.mBufLen : ℚ) * 8 * 10 ^ 9 / (st.mAppRate : ℚ)
        = ((st.mBufLen * (k : Int) : Int) : ℚ) := by
      rw [mul_assoc, mul_div_assoc, hq]
      push_cast
      rfl
    rw [get_delay_target_bw hfl st hi hu hR, hq, hfl.exact_nat k hk53, hval]
    rw [hval] at hmag
    have hcast : (st.mBufLen : ℚ) * (k : ℚ) = ((st.mBufLen * (k : Int) : Int) : ℚ) := by
      push_cast
      rfl
    rw [hcast]
    apply hfl.exact_int
    exact_mod_cast hmag
  refine ⟨fun hi => ?_,
    fun hi hu h0 hR => ⟨get_delay_target_bw hfl st hi hu hR, hbwexact hi hu h0 hR,
      fun hL hmag => ?_⟩,
    fun hi hu h0 hR => ⟨get_delay_target_pps hfl st hi hu hR, fun hdvd => ?_, ?_⟩,
    fun hi hu hL hRv => ?_⟩
  · have hval : get_delay_target fl st = fl (st.mBurstIPG * 10 ^ 6) := by
      unfold get_delay_target
      rw [if_pos hi]
      norm_num
    refine ⟨hval, fun hmag => ?_, fun n hn he => ?_⟩
    · rw [hval]
      exact DoubleRounding_near hfl _ hmag
    · rw [hval, he]
      exact hfl.exact_int n hn
  · rw [get_delay_target_bw hfl st hi hu hR]
    have hq0 : (0 : ℚ) ≤ 8 * 10 ^ 9 / (st.mAppRate : ℚ) :=
      div_nonneg (by norm_num) (le_of_lt (hRpos h0))
    have hq1 : (8 * 10 ^ 9 : ℚ) / (st.mAppRate : ℚ) ≤ 2 ^ 53 := by
      rw [div_le_iff₀ (hRpos h0)]
      have := hR1 h0
      nlinarith
    have hL0 : (0 : ℚ) ≤ (st.mBufLen : ℚ) := by exact_mod_cast hL
    have hqn := DoubleRounding_near hfl (8 * 10 ^ 9 / (st.mAppRate : ℚ))
      (by rw [abs_of_nonneg hq0]; exact hq1)
    have hqp : 0 ≤ fl (8 * 10 ^ 9 / (st.mAppRate : ℚ)) := hfl.nonneg _ hq0
    obtain ⟨hqa, hqb⟩ := abs_le.1 hqn
    have hy0 : 0 ≤ (st.mBufLen : ℚ) * fl (8 * 10 ^ 9 / (st.mAppRate : ℚ)) :=
      mul_nonneg hL0 hqp
    have hy1 : (st.mBufLen : ℚ) * fl (8 * 10 ^ 9 / (st.mAppRate : ℚ)) ≤ 2 ^ 53 := by
      refine le_trans (mul_le_mul_of_nonneg_left ?_ hL0) hmag
      linarith
    have hyn := DoubleRounding_near hfl
      ((st.mBufLen : ℚ) * fl (8 * 10 ^ 9 / (st.mAppRate : ℚ)))
      (by rw [abs_of_nonneg hy0]; exact hy1)
    obtain ⟨hya, hyb⟩ := abs_le.1 hyn
    have hexp : (st.mBufLen : ℚ) * 8 * 10 ^ 9 / (st.mAppRate : ℚ)
        = (st.mBufLen : ℚ) * (8 * 10 ^ 9 / (st.mAppRate : ℚ)) := by ring
    have hd1 : (st.mBufLen : ℚ) * (fl (8 * 10 ^ 9 / (st.mAppRate : ℚ))
        - 8 * 10 ^ 9 / (st.mAppRate : ℚ)) ≤ (st.mBufLen : ℚ) * 1 :=
      mul_le_mul_of_nonneg_left hqb hL0
    have hd2 : (st.mBufLen : ℚ) * (-1) ≤ (st.mBufLen : ℚ) * (fl (8 * 10 ^ 9 / (st.mAppRate : ℚ))
        - 8 * 10 ^ 9 / (st.mAppRate : ℚ)) :=
      mul_le_mul_of_nonneg_left hqa hL0
    rw [hexp, abs_le]
    constructor <;> nlinarith
  · obtain ⟨k, hk⟩ := hdvd
    have hq : (10 ^ 9 : ℚ) / (st.mAppRate : ℚ) = (k : ℚ) := by
      have hk' : (10 ^ 9 : ℚ) = (st.mAppRate : ℚ) * (k : ℚ) := by exact_mod_cast hk
      rw [hk']
      field_simp [ne_of_gt (hRpos h0)]
    have hk53 : k ≤ 2 ^ 53 := by
      have h1 : k ≤ 10 ^ 9 := by
        rw [hk]
        exact Nat.le_mul_of_pos_left k h0
      exact le_trans h1 (by norm_num)
    rw [get_delay_target_pps hfl st hi hu hR, hq, hfl.exact_nat k hk53]
  · rw [get_delay_target_pps hfl st hi hu hR]
    have hq0 : (0 : ℚ) ≤ 10 ^ 9 / (st.mAppRate : ℚ) :=
      div_nonneg (by norm_num) (le_of_lt (hRpos h0))
    have hq1 : (10 ^ 9 : ℚ) / (st.mAppRate : ℚ) ≤ 2 ^ 53 := by
      rw [div_le_iff₀ (hRpos h0)]
      have := hR1 h0
      nlinarith
    exact DoubleRounding_near hfl _ (by rw [abs_of_nonneg hq0]; exact hq1)
  · have h := hbwexact hi hu (by rw [hRv]; norm_num) (by rw [hRv]; norm_num)
      (by rw [hRv]; norm_num) (by rw [hL, hRv]; norm_num [abs_le])
    rw [h, hL, hRv]
    norm_num

/-- Witness of C15, in binary64 arithmetic: the delay target of a flow with
`bufLen = 1470` and `R = 10^6` bit/s is exactly 11 760 000, and the delay target of a flow
paced at 3 packets per second is within 1 ns of `10^9 / 3`. -/
theorem C15_get_delay_target_witness :
    get_delay_target roundDouble { mBufLen := 1470, mAppRate := 1000000 } = 11760000
    ∧ |get_delay_target roundDouble sampleThreePps - 10 ^ 9 / (sampleThreePps.mAppRate : ℚ)| ≤ 1 :=
  ⟨(C15_get_delay_target roundDouble DoubleRounding_roundDouble
      { mBufLen := 1470, mAppRate := 1000000 }).2.2.2 rfl rfl rfl rfl,
   ((C15_get_delay_target roundDouble DoubleRounding_roundDouble sampleThreePps).2.2.1
      rfl rfl (by decide) (by decide)).2.2⟩

/-- Counterexample to C15 as stated: at 3 packets per second the exact quotient is
`10^9 / 3`; in `double` arithmetic (round to nearest) `get_delay_target` returns
`5592405333333333 / 2^24` = 333333333.33333331..., which is not `10^9 / 3`. -/
theorem C15_counterexample_three_packets_per_second :
    sampleThreePps.isIPG = false
    ∧ sampleThreePps.mAppRateUnits = RateUnits.kRate_PPS
    ∧ sampleThreePps.mAppRate = 3
    ∧ get_delay_target roundDouble sampleThreePps = 5592405333333333 / 16777216
    ∧ get_delay_target roundDouble sampleThreePps ≠ 10 ^ 9 / (sampleThreePps.mAppRate : ℚ) := by
  have h : get_delay_target roundDouble sampleThreePps = 5592405333333333 / 16777216 := by
    decide!
  refine ⟨rfl, rfl, rfl, h, ?_⟩
  rw [h]
  norm_num [sampleThreePps]

/-- No rounding whose values are binary fractions can return `10^9 / 3`: the delay
target of a flow paced at 3 packets per second differs from the exact quotient for every
such rounding. -/
theorem get_delay_target_three_pps_not_exact (fl : ℚ → ℚ)
    (hdy : ∀ x, ∃ (m : Int) (k : Nat), fl x = (m : ℚ) / 2 ^ k) :
    get_delay_target fl sampleThreePps ≠ 10 ^ 9 / 3 := by
  have hval : get_delay_target fl sampleThreePps = fl (1000000000 / fl ((3 : Nat) : ℚ)) := rfl
  obtain ⟨m, k, hm⟩ := hdy (1000000000 / fl ((3 : Nat) : ℚ))
  rw [hval, hm]
  intro h
  have h2 : (m : ℚ) * 3 = 10 ^ 9 * 2 ^ k := by
    have hk : (2 : ℚ) ^ k ≠ 0 := pow_ne_zero _ (by norm_num)
    field_simp at h
    linarith
  have h3 : m * 3 = 10 ^ 9 * 2 ^ k := by exact_mod_cast h2
  have hdvd : (3 : Int) ∣ 10 ^ 9 * 2 ^ k := ⟨m, by rw [← h3]; ring⟩
  have hp : Prime (3 : Int) := Int.prime_three
  rcases hp.dvd_or_dvd hdvd with h4 | h4
  · norm_num at h4
  · have h5 := hp.dvd_of_dvd_pow h4
    norm_num at h5

end Iperf
